import Mathlib

/-!
# Tomasulo scheduling engine (`tomasulo-1.c`): shallow embedding

The global variables of the C program become the fields of one record `Sim`,
and every function of the engine becomes a pure function on that record.

Modelling conventions.

* `float` values are kept abstract: the model is parametric in a type `F` with
  the operations the engine uses (`FloatOps`).  Every universally quantified
  theorem therefore holds for IEEE single precision in particular.  Concrete
  runs use `F := Int`; the small integers that occur there, and their sums, are
  represented exactly by a C `float`.
* `int` values are unbounded integers.  The only counter that grows without
  bound is `current_cycle`, which needs `2^31` calls of `run_cycle` to leave the
  range of `int`.
* `register_status`, `registers` and `instructions` are indexed by `int`
  expressions of the program (`dest`, `src1`, `src2`, `pc`); they are total
  functions on `Int`, and a store through an index outside the bounds of the C
  array (undefined behaviour in C) leaves the modelled arrays unchanged.
* The four station banks are only ever indexed by loop counters, so they are
  functions on `Nat`; only the indices below the capacity of a bank are
  meaningful.
* `for` loops over a fixed range are folds over `0, 1, …, n-1` (`forLoop`).
-/

set_option linter.unusedSectionVars false
set_option linter.unusedTactic false
set_option linter.unreachableTactic false
set_option linter.unusedVariables false

namespace Tomasulo

/-! ## Configuration constants -/

abbrev MAX_INSTRUCTIONS : Nat := 100
abbrev MAX_REGISTERS : Nat := 32
abbrev MAX_RESERVATION_STATIONS : Nat := 12
abbrev MAX_LOAD_BUFFERS : Nat := 4
abbrev MAX_STORE_BUFFERS : Nat := 4

/-! ## Data model -/

/-- The operations of the `float` type that the engine relies on. -/
class FloatOps (F : Type) where
  /-- The constant `0` (also the value of zeroed static storage). -/
  zero : F
  /-- The constant `1.0f` produced by the load stub. -/
  one : F
  /-- Addition `Vj + Vk`. -/
  add : F → F → F
  /-- Subtraction `Vj - Vk`. -/
  sub : F → F → F
  /-- Conversion `float → int` used by `rs[i].A = instr->immediate`. -/
  toInt : F → Int

instance : FloatOps Int where
  zero := 0
  one := 1
  add := Int.add
  sub := Int.sub
  toInt := id

/-- The C enumeration `OperationType`. -/
inductive OperationType where
  | ADD | SUB | MUL | DIV | LOAD | STORE | NOP
  deriving DecidableEq, Repr

open OperationType

/-- The C structure `Instruction`. -/
structure Instruction (F : Type) where
  op : OperationType
  dest : Int
  src1 : Int
  src2 : Int
  immediate : F
  issued : Int
  executed : Int
  written : Int
  completed : Int

/-- The C structure `ReservationStation`. -/
structure ReservationStation (F : Type) where
  busy : Int
  op : OperationType
  Vj : F
  Vk : F
  Qj : Int
  Qk : Int
  dest : Int
  A : Int
  time_remaining : Int

/-- The global variables of the simulator.  `register_status r` is the field
`register_status[r].reservation_station`; the field `value` of the C structure
`RegisterStatus` is never read or written by the engine. -/
structure Sim (F : Type) where
  register_status : Int → Int
  registers : Int → F
  add_rs : Nat → ReservationStation F
  mult_rs : Nat → ReservationStation F
  load_buffers : Nat → ReservationStation F
  store_buffers : Nat → ReservationStation F
  instructions : Int → Instruction F
  instruction_count : Int
  current_cycle : Int
  pc : Int

variable {F : Type} [FloatOps F]

/-- An all-zero `Instruction` (static storage, `op = ADD` is enumerator `0`). -/
def zeroInstruction : Instruction F :=
  { op := ADD, dest := 0, src1 := 0, src2 := 0, immediate := FloatOps.zero,
    issued := 0, executed := 0, written := 0, completed := 0 }

/-- An all-zero `ReservationStation` (the result of `memset`). -/
def zeroStation : ReservationStation F :=
  { busy := 0, op := ADD, Vj := FloatOps.zero, Vk := FloatOps.zero, Qj := 0, Qk := 0,
    dest := 0, A := 0, time_remaining := 0 }

/-! ## Array stores and loops -/

/-- The store `a[i] = v` into a C array of `n` elements. -/
def writeAt {α : Type} (n : Nat) (a : Int → α) (i : Int) (v : α) : Int → α :=
  fun k => if k = i ∧ 0 ≤ i ∧ i < (n : Int) then v else a k

/-- The store `rs[i] = v` into a station bank, `i` a loop counter. -/
def setRS (a : Nat → ReservationStation F) (i : Nat) (v : ReservationStation F) :
    Nat → ReservationStation F :=
  fun k => if k = i then v else a k

/-- The store `instructions[d].issued = c`. -/
def setIssued (a : Int → Instruction F) (d c : Int) : Int → Instruction F :=
  writeAt MAX_INSTRUCTIONS a d { (a d) with issued := c }

/-- The store `instructions[d].executed = c`. -/
def setExecuted (a : Int → Instruction F) (d c : Int) : Int → Instruction F :=
  writeAt MAX_INSTRUCTIONS a d { (a d) with executed := c }

/-- The store `instructions[d].written = c`. -/
def setWritten (a : Int → Instruction F) (d c : Int) : Int → Instruction F :=
  writeAt MAX_INSTRUCTIONS a d { (a d) with written := c }

/-- The store `instructions[d].completed = c`. -/
def setCompleted (a : Int → Instruction F) (d c : Int) : Int → Instruction F :=
  writeAt MAX_INSTRUCTIONS a d { (a d) with completed := c }

/-- The loop `for (int i = 0; i < n; i++) body(i)`. -/
def forLoop {σ : Type} : Nat → (Nat → σ → σ) → σ → σ
  | 0, _, s => s
  | n + 1, body, s => body n (forLoop n body s)

/-! ## `init_simulator` and the loading of a program -/

/-- The state after `init_simulator()` at program start: every global is zero. -/
def init_simulator : Sim F :=
  { register_status := fun _ => 0
    registers := fun _ => FloatOps.zero
    add_rs := fun _ => zeroStation
    mult_rs := fun _ => zeroStation
    load_buffers := fun _ => zeroStation
    store_buffers := fun _ => zeroStation
    instructions := fun _ => zeroInstruction
    instruction_count := 0
    current_cycle := 0
    pc := 0 }

/-- A source line that `parse_instruction` accepts, with the values `sscanf`
reads from it.  The function recognises the mnemonics `ADD`, `LOAD` and `STORE`
only; a line with any other mnemonic (`SUB`, `MUL` and `DIV` included) takes
the `else` branch and returns without storing anything. -/
inductive Decoded (F : Type) where
  /-- The line `ADD Rd Rs1 Rs2`: `sscanf` fills `dest`, `src1`, `src2`. -/
  | add (dest src1 src2 : Int)
  /-- The line `LOAD Rd imm(Rbase)`: `sscanf` fills `dest`, `immediate`, `src1`. -/
  | load (dest : Int) (immediate : F) (src1 : Int)
  /-- The line `STORE Rsrc imm(Rbase)`: `sscanf` fills `src1`, `immediate`, `src2`. -/
  | store (src1 : Int) (immediate : F) (src2 : Int)

/-- The field `op` that `parse_instruction` sets for an accepted line. -/
def Decoded.op : Decoded F → OperationType
  | .add _ _ _ => ADD
  | .load _ _ _ => LOAD
  | .store _ _ _ => STORE

/-- The field `dest` after parsing; a Store leaves the initial `-1`. -/
def Decoded.dest : Decoded F → Int
  | .add d _ _ => d
  | .load d _ _ => d
  | .store _ _ _ => -1

/-- The field `src1` after parsing. -/
def Decoded.src1 : Decoded F → Int
  | .add _ s1 _ => s1
  | .load _ _ s1 => s1
  | .store s1 _ _ => s1

/-- The field `src2` after parsing; a Load leaves the initial `-1`. -/
def Decoded.src2 : Decoded F → Int
  | .add _ _ s2 => s2
  | .load _ _ _ => -1
  | .store _ _ s2 => s2

/-- The field `immediate` after parsing; an Add leaves the initial `0`. -/
def Decoded.immediate : Decoded F → F
  | .add _ _ _ => FloatOps.zero
  | .load _ imm _ => imm
  | .store _ imm _ => imm

/-- The effect of `parse_instruction` for an accepted line `d`: the instruction
`{NOP, -1, -1, -1, 0, 0, 0, 0, 0}` with `op` and the scanned fields filled in
is appended, unless the table is full. -/
def parse_instruction (s : Sim F) (d : Decoded F) : Sim F :=
  if s.instruction_count ≥ (MAX_INSTRUCTIONS : Int) then s
  else
    { s with
      instructions := writeAt MAX_INSTRUCTIONS s.instructions s.instruction_count
        { op := d.op, dest := d.dest, src1 := d.src1, src2 := d.src2,
          immediate := d.immediate, issued := 0, executed := 0, written := 0,
          completed := 0 }
      instruction_count := s.instruction_count + 1 }

/-- The effect of `load_instructions` on the accepted lines of the file, in
order. -/
def load_instructions (s : Sim F) (prog : List (Decoded F)) : Sim F :=
  prog.foldl parse_instruction s

/-! ## Banks and tags -/

/-- The four station banks (the possible values of the pointer `rs`). -/
inductive Bank where
  | add | mult | load | store
  deriving DecidableEq, Repr

/-- The array a bank pointer designates. -/
def getBank (s : Sim F) : Bank → (Nat → ReservationStation F)
  | Bank.add => s.add_rs
  | Bank.mult => s.mult_rs
  | Bank.load => s.load_buffers
  | Bank.store => s.store_buffers

/-- Replace the array a bank pointer designates. -/
def setBank (s : Sim F) (b : Bank) (a : Nat → ReservationStation F) : Sim F :=
  match b with
  | Bank.add => { s with add_rs := a }
  | Bank.mult => { s with mult_rs := a }
  | Bank.load => { s with load_buffers := a }
  | Bank.store => { s with store_buffers := a }

/-- The first `switch` of `issue_instruction`: the bank of an operation, or
`none` for the `default` branch. -/
def bankOf : OperationType → Option Bank
  | ADD => some Bank.add
  | SUB => some Bank.add
  | MUL => some Bank.mult
  | DIV => some Bank.mult
  | LOAD => some Bank.load
  | STORE => some Bank.store
  | NOP => none

/-- The value of `max_rs` chosen with the bank. -/
def capacity : Bank → Nat
  | Bank.add => MAX_RESERVATION_STATIONS / 2
  | Bank.mult => MAX_RESERVATION_STATIONS / 2
  | Bank.load => MAX_LOAD_BUFFERS
  | Bank.store => MAX_STORE_BUFFERS

/-- The tag written to `register_status[dest]` for station `i` of a bank. -/
def tagOf (b : Bank) (i : Nat) : Int :=
  match b with
  | Bank.add => (i : Int) + 1
  | Bank.mult => (i : Int) + 1 + ((MAX_RESERVATION_STATIONS / 2 : Nat) : Int)
  | Bank.load => (i : Int) + 1 + (MAX_RESERVATION_STATIONS : Int)
  | Bank.store => (i : Int) + 1 + (MAX_RESERVATION_STATIONS : Int) + (MAX_LOAD_BUFFERS : Int)

/-! ## `issue_instruction` -/

/-- Wiring of the first operand: `Vj`/`Qj` from `registers`/`register_status`. -/
def wireJ (s : Sim F) (src : Int) (st : ReservationStation F) : ReservationStation F :=
  if s.register_status src = 0 then { st with Vj := s.registers src, Qj := 0 }
  else { st with Qj := s.register_status src }

/-- Wiring of the second operand: `Vk`/`Qk` from `registers`/`register_status`. -/
def wireK (s : Sim F) (src : Int) (st : ReservationStation F) : ReservationStation F :=
  if s.register_status src = 0 then { st with Vk := s.registers src, Qk := 0 }
  else { st with Qk := s.register_status src }

/-- The second `switch` of `issue_instruction`: the latency of an operation. -/
def latency : OperationType → Int
  | ADD => 2
  | SUB => 2
  | MUL => 10
  | DIV => 40
  | LOAD => 2
  | STORE => 2
  | NOP => 0

/-- The contents of `rs[i]` after the body of the `if (!rs[i].busy)` branch. -/
def issue_station (s : Sim F) (instr : Instruction F) (st : ReservationStation F) :
    ReservationStation F :=
  let st1 := { st with busy := 1, op := instr.op, dest := instr.dest }
  let st2 := if instr.op ≠ STORE then wireJ s instr.src1 st1 else st1
  let st3 :=
    if instr.op = ADD ∨ instr.op = SUB ∨ instr.op = MUL ∨ instr.op = DIV then
      wireK s instr.src2 st2
    else st2
  let st4 :=
    if instr.op = LOAD ∨ instr.op = STORE then
      let st3a := { st3 with A := FloatOps.toInt instr.immediate }
      if instr.op = STORE then wireJ s instr.src1 st3a else st3a
    else st3
  { st4 with time_remaining := latency instr.op }

/-- The body of the `if (!rs[i].busy)` branch of `issue_instruction`, for the
instruction `instructions[idx]` and station `i` of bank `b`. -/
def issue_place (s : Sim F) (idx : Int) (b : Bank) (i : Nat) : Sim F :=
  let instr := s.instructions idx
  let s1 := setBank s b (setRS (getBank s b) i (issue_station s instr (getBank s b i)))
  let s2 :=
    if instr.op ≠ STORE then
      { s1 with
        register_status :=
              writeAt MAX_REGISTERS s1.register_status instr.dest (tagOf b i) }
    else s1
  { s2 with
    instructions := setIssued s2.instructions idx s2.current_cycle }

/-- The search loop of `issue_instruction`, from index `i` with `k` iterations
left: the new state and the returned value. -/
def issue_loop (s : Sim F) (idx : Int) (b : Bank) : Nat → Nat → Sim F × Int
  | _, 0 => (s, 0)
  | i, k + 1 =>
    if (getBank s b i).busy = 0 then (issue_place s idx b i, 1)
    else issue_loop s idx b (i + 1) k

/-- The function `issue_instruction(&instructions[idx])`: the new state and
the returned value. -/
def issue_instruction (s : Sim F) (idx : Int) : Sim F × Int :=
  match bankOf (s.instructions idx).op with
  | none => (s, 0)
  | some b => issue_loop s idx b 0 (capacity b)

/-! ## `execute_operations` -/

/-- The guard of one execute loop: `Qk` is tested for the add and mult banks
only. -/
def execReady (b : Bank) (st : ReservationStation F) : Prop :=
  match b with
  | Bank.add => st.busy ≠ 0 ∧ st.Qj = 0 ∧ st.Qk = 0 ∧ st.time_remaining > 0
  | Bank.mult => st.busy ≠ 0 ∧ st.Qj = 0 ∧ st.Qk = 0 ∧ st.time_remaining > 0
  | Bank.load => st.busy ≠ 0 ∧ st.Qj = 0 ∧ st.time_remaining > 0
  | Bank.store => st.busy ≠ 0 ∧ st.Qj = 0 ∧ st.time_remaining > 0

instance (b : Bank) (st : ReservationStation F) : Decidable (execReady b st) := by
  cases b <;> unfold execReady <;> infer_instance

/-- The body of one of the four loops of `execute_operations`. -/
def exec_step (b : Bank) (i : Nat) (s : Sim F) : Sim F :=
  let st := getBank s b i
  if execReady b st then
    let s1 := setBank s b (setRS (getBank s b) i
      { st with time_remaining := st.time_remaining - 1 })
    if (getBank s1 b i).time_remaining = 0 then
      { s1 with
        instructions := setExecuted s1.instructions (getBank s1 b i).dest s1.current_cycle }
    else s1
  else s

/-- The function `execute_operations`. -/
def execute_operations (s : Sim F) : Sim F :=
  let s1 := forLoop (MAX_RESERVATION_STATIONS / 2) (exec_step Bank.add) s
  let s2 := forLoop (MAX_RESERVATION_STATIONS / 2) (exec_step Bank.mult) s1
  let s3 := forLoop MAX_LOAD_BUFFERS (exec_step Bank.load) s2
  forLoop MAX_STORE_BUFFERS (exec_step Bank.store) s3

/-! ## `writeback_results` -/

/-- The statement `if (rs.Qj == t) { rs.Vj = result; rs.Qj = 0; }`. -/
def bcastJ (t : Int) (result : F) (st : ReservationStation F) : ReservationStation F :=
  if st.Qj = t then { st with Vj := result, Qj := 0 } else st

/-- The statement `if (rs.Qk == t) { rs.Vk = result; rs.Qk = 0; }`. -/
def bcastK (t : Int) (result : F) (st : ReservationStation F) : ReservationStation F :=
  if st.Qk = t then { st with Vk := result, Qk := 0 } else st

/-- Body of the first broadcast loop of an add station: `add_rs[j]` and
`mult_rs[j]`, each on `Qj` then `Qk`. -/
def bcast_add_mult (t : Int) (result : F) (j : Nat) (s : Sim F) : Sim F :=
  let s1 := { s with add_rs := setRS s.add_rs j (bcastJ t result (s.add_rs j)) }
  let s2 := { s1 with add_rs := setRS s1.add_rs j (bcastK t result (s1.add_rs j)) }
  let s3 := { s2 with mult_rs := setRS s2.mult_rs j (bcastJ t result (s2.mult_rs j)) }
  { s3 with mult_rs := setRS s3.mult_rs j (bcastK t result (s3.mult_rs j)) }

/-- Body of the second broadcast loop of an add station: `load_buffers[j]`. -/
def bcast_load (t : Int) (result : F) (j : Nat) (s : Sim F) : Sim F :=
  let s1 := { s with load_buffers := setRS s.load_buffers j (bcastJ t result (s.load_buffers j)) }
  { s1 with load_buffers := setRS s1.load_buffers j (bcastK t result (s1.load_buffers j)) }

/-- Body of the third broadcast loop of an add station: `store_buffers[j]`. -/
def bcast_store (t : Int) (result : F) (j : Nat) (s : Sim F) : Sim F :=
  let s1 :=
    { s with store_buffers := setRS s.store_buffers j (bcastJ t result (s.store_buffers j)) }
  { s1 with store_buffers := setRS s1.store_buffers j (bcastK t result (s1.store_buffers j)) }

/-- The `switch` computing `result` for an add station (`float result = 0`
when the operation is neither `ADD` nor `SUB`). -/
def add_result (st : ReservationStation F) : F :=
  match st.op with
  | ADD => FloatOps.add st.Vj st.Vk
  | SUB => FloatOps.sub st.Vj st.Vk
  | _ => FloatOps.zero

/-- The body of the first loop of `writeback_results` (add/sub station `i`). -/
def wb_add_step (i : Nat) (s : Sim F) : Sim F :=
  if (s.add_rs i).busy ≠ 0 ∧ (s.add_rs i).time_remaining = 0 then
    let result := add_result (s.add_rs i)
    let s1 := { s with registers := writeAt MAX_REGISTERS s.registers (s.add_rs i).dest result }
    let s2 := { s1 with
      register_status :=
          writeAt MAX_REGISTERS s1.register_status (s1.add_rs i).dest 0 }
    let s3 := { s2 with
      instructions := setWritten s2.instructions (s2.add_rs i).dest s2.current_cycle }
    let s4 := forLoop (MAX_RESERVATION_STATIONS / 2)
      (bcast_add_mult ((i : Int) + 1) result) s3
    let s5 := forLoop MAX_LOAD_BUFFERS (bcast_load ((i : Int) + 1) result) s4
    let s6 := forLoop MAX_STORE_BUFFERS (bcast_store ((i : Int) + 1) result) s5
    let s7 := { s6 with add_rs := setRS s6.add_rs i { (s6.add_rs i) with busy := 0 } }
    { s7 with
      instructions := setCompleted s7.instructions (s7.add_rs i).dest s7.current_cycle }
  else s

/-- Body of the only broadcast loop of a load buffer: `add_rs[j].Qj`. -/
def bcast_from_load (t : Int) (result : F) (j : Nat) (s : Sim F) : Sim F :=
  { s with add_rs := setRS s.add_rs j (bcastJ t result (s.add_rs j)) }

/-- The body of the load loop of `writeback_results` (load buffer `i`). -/
def wb_load_step (i : Nat) (s : Sim F) : Sim F :=
  if (s.load_buffers i).busy ≠ 0 ∧ (s.load_buffers i).time_remaining = 0 then
    let result : F := FloatOps.one
    let s1 := { s with
      registers :=
          writeAt MAX_REGISTERS s.registers (s.load_buffers i).dest result }
    let s2 := { s1 with
      register_status :=
          writeAt MAX_REGISTERS s1.register_status (s1.load_buffers i).dest 0 }
    let s3 := { s2 with
      instructions := setWritten s2.instructions (s2.load_buffers i).dest s2.current_cycle }
    let s4 := forLoop (MAX_RESERVATION_STATIONS / 2)
      (bcast_from_load ((i : Int) + 1 + (MAX_RESERVATION_STATIONS : Int)) result) s3
    let s5 := { s4 with
      load_buffers :=
          setRS s4.load_buffers i { (s4.load_buffers i) with busy := 0 } }
    { s5 with
      instructions := setCompleted s5.instructions (s5.load_buffers i).dest s5.current_cycle }
  else s

/-- The body of the store loop of `writeback_results` (store buffer `i`). -/
def wb_store_step (i : Nat) (s : Sim F) : Sim F :=
  if (s.store_buffers i).busy ≠ 0 ∧ (s.store_buffers i).time_remaining = 0 then
    let s1 := { s with
      store_buffers :=
          setRS s.store_buffers i { (s.store_buffers i) with busy := 0 } }
    { s1 with
      instructions := setCompleted s1.instructions (s1.store_buffers i).dest s1.current_cycle }
  else s

/-- The function `writeback_results`: the add/sub loop, the load loop and the
store loop.  The source has no loop over `mult_rs` (only the comment
"Processa estações de MUL/DIV (similar ao ADD/SUB)"). -/
def writeback_results (s : Sim F) : Sim F :=
  let s1 := forLoop (MAX_RESERVATION_STATIONS / 2) wb_add_step s
  let s2 := forLoop MAX_LOAD_BUFFERS wb_load_step s1
  forLoop MAX_STORE_BUFFERS wb_store_step s2

/-! ## `run_cycle` -/

/-- The issue phase of `run_cycle` (its first `if`). -/
def issue_phase (s : Sim F) : Sim F :=
  if s.pc < s.instruction_count then
    if (issue_instruction s s.pc).2 ≠ 0 then
      { (issue_instruction s s.pc).1 with pc := (issue_instruction s s.pc).1.pc + 1 }
    else (issue_instruction s s.pc).1
  else s

/-- The function `run_cycle`. -/
def run_cycle (s : Sim F) : Sim F :=
  let s1 := issue_phase s
  let s2 := execute_operations s1
  let s3 := writeback_results s2
  { s3 with current_cycle := s3.current_cycle + 1 }

/-- The state at program start: `init_simulator(); load_instructions(...)`. -/
def start (prog : List (Decoded F)) : Sim F :=
  load_instructions init_simulator prog

/-- The state after `n` calls of `run_cycle` from the start state. -/
def run (prog : List (Decoded F)) : Nat → Sim F
  | 0 => start prog
  | n + 1 => run_cycle (run prog n)

/-- Shorthand for the decoded line `ADD Rd Rs1 Rs2`. -/
def ADDi (d s1 s2 : Int) : Decoded Int := Decoded.add d s1 s2

/-- Shorthand for the decoded line `LOAD Rd imm(Rbase)`; `src2` keeps `-1`. -/
def LOADi (d imm base : Int) : Decoded Int := Decoded.load d imm base

/-- Shorthand for the decoded line `STORE Rsrc imm(Rbase)`; `dest` keeps `-1`. -/
def STOREi (src imm base : Int) : Decoded Int := Decoded.store src imm base

/-! ## Auxiliary definitions used in the statements and proofs -/

/-- Apply `f` to the entries of a bank below index `n`. -/
def mapBelow (n : Nat) (f : ReservationStation F → ReservationStation F)
    (a : Nat → ReservationStation F) : Nat → ReservationStation F :=
  fun k => if k < n then f (a k) else a k

/-- The combined effect of the two broadcast statements on one station. -/
def bcast (t : Int) (result : F) (st : ReservationStation F) : ReservationStation F :=
  bcastK t result (bcastJ t result st)

/-! ## Definitions used by the statements about `writeback_results` -/

/-- The value `result` that the write-back of a station of bank `b` computes
(add/sub stations and load buffers; the other banks compute none). -/
def resultOf (b : Bank) (st : ReservationStation F) : F :=
  match b with
  | Bank.add => add_result st
  | Bank.load => FloatOps.one
  | _ => FloatOps.zero

/-- The program `ADD R1 R2 R3 ; ADD R1 R2 R3`: the second instruction renames
`R1` again while the first one is still in its station. -/
def waw_prog : List (Decoded Int) := [ADDi 1 2 3, ADDi 1 2 3]

/-- The state on which `writeback_results` is called in the second cycle of
`waw_prog` (after the issue and execute phases of that cycle). -/
def waw_state : Sim Int := execute_operations (issue_phase (run waw_prog 1))

/-- The effect of one execute loop on a single station of bank `b`: the
countdown of a ready station goes down by one. -/
def tick (b : Bank) (st : ReservationStation F) : ReservationStation F :=
  if execReady b st then { st with time_remaining := st.time_remaining - 1 } else st

/-! ## Invariants of the reachable states -/

/-- Every renamed register points to a busy station of the add, mult or load
bank whose destination is that register. -/
def RegStatusInv (s : Sim F) : Prop :=
  ∀ r : Int, 0 ≤ r → r < 32 → s.register_status r ≠ 0 →
    ∃ b i, b ≠ Bank.store ∧ i < capacity b ∧ tagOf b i = s.register_status r ∧
      (getBank s b i).busy ≠ 0 ∧ (getBank s b i).dest = r

/-! ## Concrete programs used as instances -/

/-- The program `LOAD R1 0(R2) ; ADD R3 R2 R1`: the add reads the loaded
register as its second operand. -/
def load_use_prog : List (Decoded Int) := [LOADi 1 0 2, ADDi 3 2 1]

/-- The state on which `writeback_results` is called in the second cycle of
`load_use_prog` (after the issue and execute phases of that cycle). -/
def load_use_state : Sim Int := execute_operations (issue_phase (run load_use_prog 1))

/-- The one-instruction program `ADD R5 R2 R3`. -/
def add5_prog : List (Decoded Int) := [ADDi 5 2 3]

/-- The program `ADD R2 R0 R1 ; ADD R3 R0 R1 ; ADD R4 R0 R1`: the destination
register of instruction 0 is the program index of instruction 2. -/
def three_adds_prog : List (Decoded Int) := [ADDi 2 0 1, ADDi 3 0 1, ADDi 4 0 1]

/-- The decoded fields and the `issued` timestamp of every instruction are the
same in `t` as in `s`. -/
def SameDecode (s t : Sim F) : Prop :=
  ∀ k : Int, (t.instructions k).op = (s.instructions k).op ∧
    (t.instructions k).dest = (s.instructions k).dest ∧
    (t.instructions k).src1 = (s.instructions k).src1 ∧
    (t.instructions k).src2 = (s.instructions k).src2 ∧
    (t.instructions k).immediate = (s.instructions k).immediate ∧
    (t.instructions k).issued = (s.instructions k).issued

/-- The program `LOAD R1 0(R2) ; ADD R3 R2 R1`, five adds that read `R3`, and
one more add.  The first add keeps waiting on the load (its `Qk`), the next
five wait on the first add, so the six add stations stay busy. -/
def stall_prog : List (Decoded Int) :=
  [LOADi 1 0 2, ADDi 3 2 1, ADDi 4 3 3, ADDi 5 3 3, ADDi 6 3 3, ADDi 7 3 3,
    ADDi 8 3 3, ADDi 10 2 2]

/-- The number of instructions of the program whose `issued` timestamp is set,
that is, differs from 0. -/
def issuedCount (s : Sim F) : Nat :=
  (List.range s.instruction_count.toNat).countP
    (fun k : Nat => decide ((s.instructions (k : Int)).issued ≠ 0))

/-- The facts about `pc` and the `issued` timestamps that hold in every
reachable state; `afterIssue` tells whether the issue phase of the current
cycle has already run. -/
structure IssuedInv (afterIssue : Prop) (s : Sim F) : Prop where
  pc_nonneg : 0 ≤ s.pc
  pc_le : s.pc ≤ s.instruction_count
  count_le : s.instruction_count ≤ 100
  cycle_nonneg : 0 ≤ s.current_cycle
  unissued : ∀ k : Int, k < 0 ∨ s.pc ≤ k → (s.instructions k).issued = 0
  first : (s.instructions 0).issued = 0
  later : ∀ k : Int, 1 ≤ k → k < s.pc → (s.instructions k).issued ≠ 0
  cycle_zero : ¬ afterIssue → s.current_cycle = 0 →
    s.pc = 0 ∧ ∀ b, (getBank s b 0).busy = 0
  stuck : afterIssue ∨ 1 ≤ s.current_cycle → s.pc = 0 →
    ¬ s.pc < s.instruction_count ∨ bankOf (s.instructions 0).op = none

/-- The one-instruction program `ADD R1 R2 R3`. -/
def single_add_prog : List (Decoded Int) := [ADDi 1 2 3]

/-- Every instruction of the table that is not a Store has its own index as
destination register, so that `instructions[rs.dest]` is the instruction that
was issued into the station `rs`. -/
def OwnIndex (s : Sim F) : Prop :=
  ∀ k : Int, 0 ≤ k → k < s.instruction_count → (s.instructions k).op ≠ STORE →
    (s.instructions k).dest = k

/-- The facts behind the bound on `written`, for a table with `OwnIndex`.
`slack` is 0 before the execute phase of a cycle and 1 after it. -/
structure LatencyInv (slack : Int) (s : Sim F) : Prop where
  pc_nonneg : 0 ≤ s.pc
  pc_le : s.pc ≤ s.instruction_count
  count_le : s.instruction_count ≤ 100
  own : OwnIndex s
  unwritten : ∀ k : Int, k < 0 ∨ s.pc ≤ k → (s.instructions k).written = 0
  stations : ∀ (b : Bank) (i : Nat), b = Bank.add ∨ b = Bank.load →
    (getBank s b i).busy ≠ 0 →
      0 ≤ (getBank s b i).dest ∧ (getBank s b i).dest < s.pc ∧
      (s.instructions (getBank s b i).dest).issued +
          latency (s.instructions (getBank s b i).dest).op ≤
        s.current_cycle + (getBank s b i).time_remaining + slack
  written : ∀ k : Int, (s.instructions k).written ≠ 0 →
    (s.instructions k).issued + latency (s.instructions k).op - 1 ≤
      (s.instructions k).written

/-- The program `ADD R0 R1 R2 ; ADD R1 R2 R3`: each destination register is
the index of the instruction. -/
def own_index_prog : List (Decoded Int) := [ADDi 0 1 2, ADDi 1 2 3]

/-- The program `ADD R2 R0 R1 ; LOAD R1 0(R2)`: the base register of the load
is the destination of the add issued one cycle earlier. -/
def load_after_add_prog : List (Decoded Int) := [ADDi 2 0 1, LOADi 1 0 2]

/-- The program `ADD R1 R2 R3 ; ADD R4 R1 R5`: the second add reads the
destination of the first. -/
def raw_prog : List (Decoded Int) := [ADDi 1 2 3, ADDi 4 1 5]

/-- The call of `run_cycle` on `s` issues an instruction: `pc` is below
`instruction_count` and `issue_instruction(&instructions[pc])` returns nonzero. -/
def issuesAt (s : Sim F) : Prop :=
  s.pc < s.instruction_count ∧ (issue_instruction s s.pc).2 ≠ 0

instance (s : Sim F) : Decidable (issuesAt s) := by
  unfold issuesAt; infer_instance

/-- Every busy station whose countdown is 0 waits on no tag, and `Qk` is 0 in
every load and store buffer. -/
def ResolvedInv (s : Sim F) : Prop :=
  (∀ b i, (getBank s b i).busy ≠ 0 → (getBank s b i).time_remaining = 0 →
    (getBank s b i).Qj = 0 ∧ (getBank s b i).Qk = 0) ∧
  ∀ i, (s.load_buffers i).Qk = 0 ∧ (s.store_buffers i).Qk = 0

/-- The awaited tags of `st'` are those of `st`, or have been cleared. -/
def QCleared (st st' : ReservationStation F) : Prop :=
  (st'.Qj = 0 ∨ st'.Qj = st.Qj) ∧ (st'.Qk = 0 ∨ st'.Qk = st.Qk)

/-! ## The subscripts used by `execute_operations` -/

/-- The subscript of `instructions[...]` in the body of an execute loop for
station `i` of bank `b` (the store `instructions[rs.dest].executed = ...`), if
that store is reached. -/
def exec_step_index (b : Bank) (i : Nat) (s : Sim F) : Option Int :=
  if execReady b (getBank s b i) ∧ (getBank s b i).time_remaining - 1 = 0 then
    some (getBank s b i).dest
  else none

/-- The subscripts of `instructions[...]` used by the first `n` iterations of
the execute loop of bank `b`, in order. -/
def exec_loop_indices (b : Bank) : Nat → Sim F → List Int
  | 0, _ => []
  | n + 1, s =>
    exec_loop_indices b n s ++ (exec_step_index b n (forLoop n (exec_step b) s)).toList

/-- The subscripts of `instructions[...]` used by `execute_operations`, in
order. -/
def execute_indices (s : Sim F) : List Int :=
  let s1 := forLoop (MAX_RESERVATION_STATIONS / 2) (exec_step Bank.add) s
  let s2 := forLoop (MAX_RESERVATION_STATIONS / 2) (exec_step Bank.mult) s1
  let s3 := forLoop MAX_LOAD_BUFFERS (exec_step Bank.load) s2
  exec_loop_indices Bank.add (MAX_RESERVATION_STATIONS / 2) s ++
    exec_loop_indices Bank.mult (MAX_RESERVATION_STATIONS / 2) s1 ++
    exec_loop_indices Bank.load MAX_LOAD_BUFFERS s2 ++
    exec_loop_indices Bank.store MAX_STORE_BUFFERS s3

/-- The one-instruction program `STORE R1 0(R2)`, as `parse_instruction`
decodes it: `src1 = 1`, `src2 = 2`, `dest` left at `-1`. -/
def store_prog : List (Decoded Int) := [STOREi 1 0 2]

/-- The state after `n` calls of `run_cycle` from an arbitrary state. -/
def cycles : Nat → Sim F → Sim F
  | 0, s => s
  | n + 1, s => run_cycle (cycles n s)

/-- A state that holds the instruction `MUL R1 R2 R3` at index 0 of the table.
No run of the program reaches it, since `parse_instruction` stores no `MUL`. -/
def mul_table_state : Sim Int :=
  { (init_simulator : Sim Int) with
    instructions := writeAt MAX_INSTRUCTIONS (init_simulator : Sim Int).instructions 0
      { op := MUL, dest := 1, src1 := 2, src2 := 3, immediate := 0,
        issued := 0, executed := 0, written := 0, completed := 0 }
    instruction_count := 1 }

/-- The table holds Add, Load and Store instructions only and no mult station
is busy. -/
def NoMultInv (s : Sim F) : Prop :=
  (∀ k : Int, (s.instructions k).op = ADD ∨ (s.instructions k).op = LOAD ∨
    (s.instructions k).op = STORE) ∧
  ∀ i, (s.mult_rs i).busy = 0

/-- Station `i'` of bank `b'` is visited by `writeback_results` after station
`i` of bank `b` (add stations in index order, then load buffers in index
order). -/
def processedAfter (b : Bank) (i : Nat) (b' : Bank) (i' : Nat) : Prop :=
  (b = Bank.add ∧ b' = Bank.load) ∨ (b' = b ∧ i < i')

instance (b : Bank) (i : Nat) (b' : Bank) (i' : Nat) : Decidable (processedAfter b i b' i') := by
  unfold processedAfter; infer_instance

/-- No add station or load buffer that `writeback_results` visits after station
`i` of bank `b` is busy at countdown 0 with destination `d`. -/
def NoLaterWriter (b : Bank) (i : Nat) (d : Int) (t : Sim F) : Prop :=
  (∀ i', i' < capacity Bank.add → processedAfter b i Bank.add i' →
    (t.add_rs i').busy ≠ 0 → (t.add_rs i').time_remaining = 0 → (t.add_rs i').dest ≠ d) ∧
  (∀ i', i' < capacity Bank.load → processedAfter b i Bank.load i' →
    (t.load_buffers i').busy ≠ 0 → (t.load_buffers i').time_remaining = 0 →
    (t.load_buffers i').dest ≠ d)

instance (b : Bank) (i : Nat) (d : Int) (t : Sim F) : Decidable (NoLaterWriter b i d t) := by
  unfold NoLaterWriter
  exact instDecidableAnd

/-- The program `LOAD R1 0(R0) ; ADD R2 R1 R0 ; ADD R2 R0 R0`: the two adds
finish in the same cycle and have the same destination. -/
def two_writers_prog : List (Decoded Int) := [LOADi 1 0 0, ADDi 2 1 0, ADDi 2 0 0]

/-- The state on which `writeback_results` is called in the fourth cycle of
`two_writers_prog`. -/
def two_writers_state : Sim Int := execute_operations (issue_phase (run two_writers_prog 3))

/-! # Theorems -/

/-! ## Basic facts about stores and loops -/

section Basics

omit [FloatOps F]

@[simp] theorem writeAt_apply {α : Type} (n : Nat) (a : Int → α) (i : Int) (v : α) (k : Int) :
    writeAt n a i v k = if k = i ∧ 0 ≤ i ∧ i < (n : Int) then v else a k := rfl

@[simp] theorem setRS_apply (a : Nat → ReservationStation F) (i : Nat)
    (v : ReservationStation F) (k : Nat) :
    setRS a i v k = if k = i then v else a k := rfl

@[simp] theorem forLoop_zero {σ : Type} (body : Nat → σ → σ) (s : σ) :
    forLoop 0 body s = s := rfl

theorem forLoop_succ {σ : Type} (n : Nat) (body : Nat → σ → σ) (s : σ) :
    forLoop (n + 1) body s = body n (forLoop n body s) := rfl

/-- A property that every iteration preserves holds after the loop. -/
theorem forLoop_inv {σ : Type} (P : σ → Prop) (body : Nat → σ → σ) (n : Nat) (s : σ)
    (h0 : P s) (hstep : ∀ j t, j < n → P t → P (body j t)) : P (forLoop n body s) := by
  induction n with
  | zero => exact h0
  | succ m ih =>
    rw [forLoop_succ]
    exact hstep m _ (Nat.lt_succ_self m) (ih (fun j t hj ht => hstep j t (Nat.lt_succ_of_lt hj) ht))

/-- A component that no iteration changes is the same after the loop. -/
theorem forLoop_proj {σ α : Type} (f : σ → α) (body : Nat → σ → σ) (n : Nat) (s : σ)
    (h : ∀ j t, f (body j t) = f t) : f (forLoop n body s) = f s := by
  induction n with
  | zero => rfl
  | succ m ih => rw [forLoop_succ, h, ih]

@[simp] theorem mapBelow_apply (n : Nat) (f : ReservationStation F → ReservationStation F)
    (a : Nat → ReservationStation F) (k : Nat) :
    mapBelow n f a k = if k < n then f (a k) else a k := rfl

theorem mapBelow_zero (f : ReservationStation F → ReservationStation F)
    (a : Nat → ReservationStation F) : mapBelow 0 f a = a := by
  funext k; simp

theorem setRS_mapBelow (n : Nat) (f : ReservationStation F → ReservationStation F)
    (a : Nat → ReservationStation F) :
    setRS (mapBelow n f a) n (f (a n)) = mapBelow (n + 1) f a := by
  funext k
  simp only [setRS_apply, mapBelow_apply]
  by_cases h : k = n
  · subst h; simp
  · have : (k < n + 1) = (k < n) := by
      apply propext; omega
    simp [h, this]

@[simp] theorem bcastJ_busy (t : Int) (r : F) (st : ReservationStation F) :
    (bcastJ t r st).busy = st.busy := by unfold bcastJ; split <;> rfl
@[simp] theorem bcastJ_dest (t : Int) (r : F) (st : ReservationStation F) :
    (bcastJ t r st).dest = st.dest := by unfold bcastJ; split <;> rfl
@[simp] theorem bcastJ_time (t : Int) (r : F) (st : ReservationStation F) :
    (bcastJ t r st).time_remaining = st.time_remaining := by unfold bcastJ; split <;> rfl
@[simp] theorem bcastJ_op (t : Int) (r : F) (st : ReservationStation F) :
    (bcastJ t r st).op = st.op := by unfold bcastJ; split <;> rfl
@[simp] theorem bcastJ_Qk (t : Int) (r : F) (st : ReservationStation F) :
    (bcastJ t r st).Qk = st.Qk := by unfold bcastJ; split <;> rfl
@[simp] theorem bcastK_busy (t : Int) (r : F) (st : ReservationStation F) :
    (bcastK t r st).busy = st.busy := by unfold bcastK; split <;> rfl
@[simp] theorem bcastK_dest (t : Int) (r : F) (st : ReservationStation F) :
    (bcastK t r st).dest = st.dest := by unfold bcastK; split <;> rfl
@[simp] theorem bcastK_time (t : Int) (r : F) (st : ReservationStation F) :
    (bcastK t r st).time_remaining = st.time_remaining := by unfold bcastK; split <;> rfl
@[simp] theorem bcastK_op (t : Int) (r : F) (st : ReservationStation F) :
    (bcastK t r st).op = st.op := by unfold bcastK; split <;> rfl
@[simp] theorem bcastK_Qj (t : Int) (r : F) (st : ReservationStation F) :
    (bcastK t r st).Qj = st.Qj := by unfold bcastK; split <;> rfl
@[simp] theorem bcast_busy (t : Int) (r : F) (st : ReservationStation F) :
    (bcast t r st).busy = st.busy := by simp [bcast]
@[simp] theorem bcast_dest (t : Int) (r : F) (st : ReservationStation F) :
    (bcast t r st).dest = st.dest := by simp [bcast]
@[simp] theorem bcast_time (t : Int) (r : F) (st : ReservationStation F) :
    (bcast t r st).time_remaining = st.time_remaining := by simp [bcast]
@[simp] theorem bcast_op (t : Int) (r : F) (st : ReservationStation F) :
    (bcast t r st).op = st.op := by simp [bcast]

/-- The first broadcast loop of an add station in closed form. -/
theorem forLoop_bcast_add_mult (t : Int) (r : F) (n : Nat) (s : Sim F) :
    forLoop n (bcast_add_mult t r) s =
      { s with add_rs := mapBelow n (bcast t r) s.add_rs
               mult_rs := mapBelow n (bcast t r) s.mult_rs } := by
  induction n with
  | zero => simp [mapBelow_zero]
  | succ m ih =>
    rw [forLoop_succ, ih]
    simp only [bcast_add_mult]
    congr 1
    · funext k
      by_cases h : k = m
      · subst h; simp [bcast]
      · have : (k < m + 1) = (k < m) := by apply propext; omega
        simp [h, this]
    · funext k
      by_cases h : k = m
      · subst h; simp [bcast]
      · have : (k < m + 1) = (k < m) := by apply propext; omega
        simp [h, this]

/-- The second broadcast loop of an add station in closed form. -/
theorem forLoop_bcast_load (t : Int) (r : F) (n : Nat) (s : Sim F) :
    forLoop n (bcast_load t r) s =
      { s with load_buffers := mapBelow n (bcast t r) s.load_buffers } := by
  induction n with
  | zero => simp [mapBelow_zero]
  | succ m ih =>
    rw [forLoop_succ, ih]
    simp only [bcast_load]
    congr 1
    funext k
    by_cases h : k = m
    · subst h; simp [bcast]
    · have : (k < m + 1) = (k < m) := by apply propext; omega
      simp [h, this]

/-- The third broadcast loop of an add station in closed form. -/
theorem forLoop_bcast_store (t : Int) (r : F) (n : Nat) (s : Sim F) :
    forLoop n (bcast_store t r) s =
      { s with store_buffers := mapBelow n (bcast t r) s.store_buffers } := by
  induction n with
  | zero => simp [mapBelow_zero]
  | succ m ih =>
    rw [forLoop_succ, ih]
    simp only [bcast_store]
    congr 1
    funext k
    by_cases h : k = m
    · subst h; simp [bcast]
    · have : (k < m + 1) = (k < m) := by apply propext; omega
      simp [h, this]

/-- The broadcast loop of a load buffer in closed form: only `Qj` of the add
stations is compared with the tag. -/
theorem forLoop_bcast_from_load (t : Int) (r : F) (n : Nat) (s : Sim F) :
    forLoop n (bcast_from_load t r) s =
      { s with add_rs := mapBelow n (bcastJ t r) s.add_rs } := by
  induction n with
  | zero => simp [mapBelow_zero]
  | succ m ih =>
    rw [forLoop_succ, ih]
    simp only [bcast_from_load]
    congr 1
    funext k
    by_cases h : k = m
    · subst h; simp
    · have : (k < m + 1) = (k < m) := by apply propext; omega
      simp [h, this]

end Basics

/-! ## Timestamp stores -/

section Stamps

omit [FloatOps F]

variable (a : Int → Instruction F) (d c k : Int)

@[simp] theorem setIssued_op : (setIssued a d c k).op = (a k).op := by
  unfold setIssued writeAt; split
  · rename_i h; rw [h.1]
  · rfl

@[simp] theorem setIssued_dest : (setIssued a d c k).dest = (a k).dest := by
  unfold setIssued writeAt; split
  · rename_i h; rw [h.1]
  · rfl

@[simp] theorem setIssued_src1 : (setIssued a d c k).src1 = (a k).src1 := by
  unfold setIssued writeAt; split
  · rename_i h; rw [h.1]
  · rfl

@[simp] theorem setIssued_src2 : (setIssued a d c k).src2 = (a k).src2 := by
  unfold setIssued writeAt; split
  · rename_i h; rw [h.1]
  · rfl

@[simp] theorem setIssued_immediate : (setIssued a d c k).immediate = (a k).immediate := by
  unfold setIssued writeAt; split
  · rename_i h; rw [h.1]
  · rfl

theorem setIssued_issued : (setIssued a d c k).issued =
    if k = d ∧ 0 ≤ d ∧ d < (MAX_INSTRUCTIONS : Int) then c else (a k).issued := by
  unfold setIssued writeAt; split <;> rfl

@[simp] theorem setIssued_executed : (setIssued a d c k).executed = (a k).executed := by
  unfold setIssued writeAt; split
  · rename_i h; rw [h.1]
  · rfl

@[simp] theorem setIssued_written : (setIssued a d c k).written = (a k).written := by
  unfold setIssued writeAt; split
  · rename_i h; rw [h.1]
  · rfl

@[simp] theorem setIssued_completed : (setIssued a d c k).completed = (a k).completed := by
  unfold setIssued writeAt; split
  · rename_i h; rw [h.1]
  · rfl

@[simp] theorem setExecuted_op : (setExecuted a d c k).op = (a k).op := by
  unfold setExecuted writeAt; split
  · rename_i h; rw [h.1]
  · rfl

@[simp] theorem setExecuted_dest : (setExecuted a d c k).dest = (a k).dest := by
  unfold setExecuted writeAt; split
  · rename_i h; rw [h.1]
  · rfl

@[simp] theorem setExecuted_src1 : (setExecuted a d c k).src1 = (a k).src1 := by
  unfold setExecuted writeAt; split
  · rename_i h; rw [h.1]
  · rfl

@[simp] theorem setExecuted_src2 : (setExecuted a d c k).src2 = (a k).src2 := by
  unfold setExecuted writeAt; split
  · rename_i h; rw [h.1]
  · rfl

@[simp] theorem setExecuted_immediate : (setExecuted a d c k).immediate = (a k).immediate := by
  unfold setExecuted writeAt; split
  · rename_i h; rw [h.1]
  · rfl

@[simp] theorem setExecuted_issued : (setExecuted a d c k).issued = (a k).issued := by
  unfold setExecuted writeAt; split
  · rename_i h; rw [h.1]
  · rfl

theorem setExecuted_executed : (setExecuted a d c k).executed =
    if k = d ∧ 0 ≤ d ∧ d < (MAX_INSTRUCTIONS : Int) then c else (a k).executed := by
  unfold setExecuted writeAt; split <;> rfl

@[simp] theorem setExecuted_written : (setExecuted a d c k).written = (a k).written := by
  unfold setExecuted writeAt; split
  · rename_i h; rw [h.1]
  · rfl

@[simp] theorem setExecuted_completed : (setExecuted a d c k).completed = (a k).completed := by
  unfold setExecuted writeAt; split
  · rename_i h; rw [h.1]
  · rfl

@[simp] theorem setWritten_op : (setWritten a d c k).op = (a k).op := by
  unfold setWritten writeAt; split
  · rename_i h; rw [h.1]
  · rfl

@[simp] theorem setWritten_dest : (setWritten a d c k).dest = (a k).dest := by
  unfold setWritten writeAt; split
  · rename_i h; rw [h.1]
  · rfl

@[simp] theorem setWritten_src1 : (setWritten a d c k).src1 = (a k).src1 := by
  unfold setWritten writeAt; split
  · rename_i h; rw [h.1]
  · rfl

@[simp] theorem setWritten_src2 : (setWritten a d c k).src2 = (a k).src2 := by
  unfold setWritten writeAt; split
  · rename_i h; rw [h.1]
  · rfl

@[simp] theorem setWritten_immediate : (setWritten a d c k).immediate = (a k).immediate := by
  unfold setWritten writeAt; split
  · rename_i h; rw [h.1]
  · rfl

@[simp] theorem setWritten_issued : (setWritten a d c k).issued = (a k).issued := by
  unfold setWritten writeAt; split
  · rename_i h; rw [h.1]
  · rfl

@[simp] theorem setWritten_executed : (setWritten a d c k).executed = (a k).executed := by
  unfold setWritten writeAt; split
  · rename_i h; rw [h.1]
  · rfl

theorem setWritten_written : (setWritten a d c k).written =
    if k = d ∧ 0 ≤ d ∧ d < (MAX_INSTRUCTIONS : Int) then c else (a k).written := by
  unfold setWritten writeAt; split <;> rfl

@[simp] theorem setWritten_completed : (setWritten a d c k).completed = (a k).completed := by
  unfold setWritten writeAt; split
  · rename_i h; rw [h.1]
  · rfl

@[simp] theorem setCompleted_op : (setCompleted a d c k).op = (a k).op := by
  unfold setCompleted writeAt; split
  · rename_i h; rw [h.1]
  · rfl

@[simp] theorem setCompleted_dest : (setCompleted a d c k).dest = (a k).dest := by
  unfold setCompleted writeAt; split
  · rename_i h; rw [h.1]
  · rfl

@[simp] theorem setCompleted_src1 : (setCompleted a d c k).src1 = (a k).src1 := by
  unfold setCompleted writeAt; split
  · rename_i h; rw [h.1]
  · rfl

@[simp] theorem setCompleted_src2 : (setCompleted a d c k).src2 = (a k).src2 := by
  unfold setCompleted writeAt; split
  · rename_i h; rw [h.1]
  · rfl

@[simp] theorem setCompleted_immediate : (setCompleted a d c k).immediate = (a k).immediate := by
  unfold setCompleted writeAt; split
  · rename_i h; rw [h.1]
  · rfl

@[simp] theorem setCompleted_issued : (setCompleted a d c k).issued = (a k).issued := by
  unfold setCompleted writeAt; split
  · rename_i h; rw [h.1]
  · rfl

@[simp] theorem setCompleted_executed : (setCompleted a d c k).executed = (a k).executed := by
  unfold setCompleted writeAt; split
  · rename_i h; rw [h.1]
  · rfl

@[simp] theorem setCompleted_written : (setCompleted a d c k).written = (a k).written := by
  unfold setCompleted writeAt; split
  · rename_i h; rw [h.1]
  · rfl

theorem setCompleted_completed : (setCompleted a d c k).completed =
    if k = d ∧ 0 ≤ d ∧ d < (MAX_INSTRUCTIONS : Int) then c else (a k).completed := by
  unfold setCompleted writeAt; split <;> rfl

end Stamps

/-! ## The steps of `writeback_results`, field by field -/

section WritebackSteps

theorem wb_add_step_register_status (i : Nat) (s : Sim F) :
    (wb_add_step i s).register_status =
      if (s.add_rs i).busy ≠ 0 ∧ (s.add_rs i).time_remaining = 0 then
        writeAt MAX_REGISTERS s.register_status (s.add_rs i).dest 0
      else s.register_status := by
  unfold wb_add_step
  split
  · try simp only [forLoop_bcast_add_mult, forLoop_bcast_load, forLoop_bcast_store,
      forLoop_bcast_from_load]
    all_goals first
      | rfl
      | (congr 1; simp only [mapBelow_apply]; split <;> simp)
      | simp
  · rfl

theorem wb_add_step_registers (i : Nat) (s : Sim F) :
    (wb_add_step i s).registers =
      if (s.add_rs i).busy ≠ 0 ∧ (s.add_rs i).time_remaining = 0 then
        writeAt MAX_REGISTERS s.registers (s.add_rs i).dest (add_result (s.add_rs i))
      else s.registers := by
  unfold wb_add_step
  split
  · try simp only [forLoop_bcast_add_mult, forLoop_bcast_load, forLoop_bcast_store,
      forLoop_bcast_from_load]
    all_goals first
      | rfl
      | (congr 1; simp only [mapBelow_apply]; split <;> simp)
      | simp
  · rfl

theorem wb_add_step_add_rs (i : Nat) (s : Sim F) :
    (wb_add_step i s).add_rs =
      if (s.add_rs i).busy ≠ 0 ∧ (s.add_rs i).time_remaining = 0 then
        setRS (mapBelow (MAX_RESERVATION_STATIONS / 2) (bcast ((i : Int) + 1) (add_result (s.add_rs i))) s.add_rs) i
          { (mapBelow (MAX_RESERVATION_STATIONS / 2) (bcast ((i : Int) + 1) (add_result (s.add_rs i))) s.add_rs i) with busy := 0 }
      else s.add_rs := by
  unfold wb_add_step
  split
  · try simp only [forLoop_bcast_add_mult, forLoop_bcast_load, forLoop_bcast_store,
      forLoop_bcast_from_load]
    all_goals first
      | rfl
      | (congr 1; simp only [mapBelow_apply]; split <;> simp)
      | simp
  · rfl

theorem wb_add_step_mult_rs (i : Nat) (s : Sim F) :
    (wb_add_step i s).mult_rs =
      if (s.add_rs i).busy ≠ 0 ∧ (s.add_rs i).time_remaining = 0 then
        mapBelow (MAX_RESERVATION_STATIONS / 2) (bcast ((i : Int) + 1) (add_result (s.add_rs i))) s.mult_rs
      else s.mult_rs := by
  unfold wb_add_step
  split
  · try simp only [forLoop_bcast_add_mult, forLoop_bcast_load, forLoop_bcast_store,
      forLoop_bcast_from_load]
    all_goals first
      | rfl
      | (congr 1; simp only [mapBelow_apply]; split <;> simp)
      | simp
  · rfl

theorem wb_add_step_load_buffers (i : Nat) (s : Sim F) :
    (wb_add_step i s).load_buffers =
      if (s.add_rs i).busy ≠ 0 ∧ (s.add_rs i).time_remaining = 0 then
        mapBelow MAX_LOAD_BUFFERS (bcast ((i : Int) + 1) (add_result (s.add_rs i))) s.load_buffers
      else s.load_buffers := by
  unfold wb_add_step
  split
  · try simp only [forLoop_bcast_add_mult, forLoop_bcast_load, forLoop_bcast_store,
      forLoop_bcast_from_load]
    all_goals first
      | rfl
      | (congr 1; simp only [mapBelow_apply]; split <;> simp)
      | simp
  · rfl

theorem wb_add_step_store_buffers (i : Nat) (s : Sim F) :
    (wb_add_step i s).store_buffers =
      if (s.add_rs i).busy ≠ 0 ∧ (s.add_rs i).time_remaining = 0 then
        mapBelow MAX_STORE_BUFFERS (bcast ((i : Int) + 1) (add_result (s.add_rs i))) s.store_buffers
      else s.store_buffers := by
  unfold wb_add_step
  split
  · try simp only [forLoop_bcast_add_mult, forLoop_bcast_load, forLoop_bcast_store,
      forLoop_bcast_from_load]
    all_goals first
      | rfl
      | (congr 1; simp only [mapBelow_apply]; split <;> simp)
      | simp
  · rfl

theorem wb_add_step_instructions (i : Nat) (s : Sim F) :
    (wb_add_step i s).instructions =
      if (s.add_rs i).busy ≠ 0 ∧ (s.add_rs i).time_remaining = 0 then
        setCompleted (setWritten s.instructions (s.add_rs i).dest s.current_cycle)
          (s.add_rs i).dest s.current_cycle
      else s.instructions := by
  unfold wb_add_step
  split
  · try simp only [forLoop_bcast_add_mult, forLoop_bcast_load, forLoop_bcast_store,
      forLoop_bcast_from_load]
    all_goals first
      | rfl
      | (congr 1; simp only [mapBelow_apply]; split <;> simp)
      | simp
  · rfl

theorem wb_load_step_register_status (i : Nat) (s : Sim F) :
    (wb_load_step i s).register_status =
      if (s.load_buffers i).busy ≠ 0 ∧ (s.load_buffers i).time_remaining = 0 then
        writeAt MAX_REGISTERS s.register_status (s.load_buffers i).dest 0
      else s.register_status := by
  unfold wb_load_step
  split
  · try simp only [forLoop_bcast_add_mult, forLoop_bcast_load, forLoop_bcast_store,
      forLoop_bcast_from_load]
    all_goals first
      | rfl
      | (congr 1; simp only [mapBelow_apply]; split <;> simp)
      | simp
  · rfl

theorem wb_load_step_registers (i : Nat) (s : Sim F) :
    (wb_load_step i s).registers =
      if (s.load_buffers i).busy ≠ 0 ∧ (s.load_buffers i).time_remaining = 0 then
        writeAt MAX_REGISTERS s.registers (s.load_buffers i).dest FloatOps.one
      else s.registers := by
  unfold wb_load_step
  split
  · try simp only [forLoop_bcast_add_mult, forLoop_bcast_load, forLoop_bcast_store,
      forLoop_bcast_from_load]
    all_goals first
      | rfl
      | (congr 1; simp only [mapBelow_apply]; split <;> simp)
      | simp
  · rfl

theorem wb_load_step_add_rs (i : Nat) (s : Sim F) :
    (wb_load_step i s).add_rs =
      if (s.load_buffers i).busy ≠ 0 ∧ (s.load_buffers i).time_remaining = 0 then
        mapBelow (MAX_RESERVATION_STATIONS / 2) (bcastJ ((i : Int) + 1 + (MAX_RESERVATION_STATIONS : Int)) FloatOps.one) s.add_rs
      else s.add_rs := by
  unfold wb_load_step
  split
  · try simp only [forLoop_bcast_add_mult, forLoop_bcast_load, forLoop_bcast_store,
      forLoop_bcast_from_load]
    all_goals first
      | rfl
      | (congr 1; simp only [mapBelow_apply]; split <;> simp)
      | simp
  · rfl

theorem wb_load_step_load_buffers (i : Nat) (s : Sim F) :
    (wb_load_step i s).load_buffers =
      if (s.load_buffers i).busy ≠ 0 ∧ (s.load_buffers i).time_remaining = 0 then
        setRS s.load_buffers i { (s.load_buffers i) with busy := 0 }
      else s.load_buffers := by
  unfold wb_load_step
  split
  · try simp only [forLoop_bcast_add_mult, forLoop_bcast_load, forLoop_bcast_store,
      forLoop_bcast_from_load]
    all_goals first
      | rfl
      | (congr 1; simp only [mapBelow_apply]; split <;> simp)
      | simp
  · rfl

theorem wb_load_step_instructions (i : Nat) (s : Sim F) :
    (wb_load_step i s).instructions =
      if (s.load_buffers i).busy ≠ 0 ∧ (s.load_buffers i).time_remaining = 0 then
        setCompleted (setWritten s.instructions (s.load_buffers i).dest s.current_cycle)
          (s.load_buffers i).dest s.current_cycle
      else s.instructions := by
  unfold wb_load_step
  split
  · try simp only [forLoop_bcast_add_mult, forLoop_bcast_load, forLoop_bcast_store,
      forLoop_bcast_from_load]
    all_goals first
      | rfl
      | (congr 1; simp only [mapBelow_apply]; split <;> simp)
      | simp
  · rfl

theorem wb_store_step_store_buffers (i : Nat) (s : Sim F) :
    (wb_store_step i s).store_buffers =
      if (s.store_buffers i).busy ≠ 0 ∧ (s.store_buffers i).time_remaining = 0 then
        setRS s.store_buffers i { (s.store_buffers i) with busy := 0 }
      else s.store_buffers := by
  unfold wb_store_step
  split
  · try simp only [forLoop_bcast_add_mult, forLoop_bcast_load, forLoop_bcast_store,
      forLoop_bcast_from_load]
    all_goals first
      | rfl
      | (congr 1; simp only [mapBelow_apply]; split <;> simp)
      | simp
  · rfl

theorem wb_store_step_instructions (i : Nat) (s : Sim F) :
    (wb_store_step i s).instructions =
      if (s.store_buffers i).busy ≠ 0 ∧ (s.store_buffers i).time_remaining = 0 then
        setCompleted s.instructions (s.store_buffers i).dest s.current_cycle
      else s.instructions := by
  unfold wb_store_step
  split
  · try simp only [forLoop_bcast_add_mult, forLoop_bcast_load, forLoop_bcast_store,
      forLoop_bcast_from_load]
    all_goals first
      | rfl
      | (congr 1; simp only [mapBelow_apply]; split <;> simp)
      | simp
  · rfl

@[simp] theorem wb_add_step_pc (i : Nat) (s : Sim F) :
    (wb_add_step i s).pc = s.pc := by
  unfold wb_add_step
  split
  · try simp only [forLoop_bcast_add_mult, forLoop_bcast_load, forLoop_bcast_store,
      forLoop_bcast_from_load]
    all_goals rfl
  · rfl

@[simp] theorem wb_add_step_instruction_count (i : Nat) (s : Sim F) :
    (wb_add_step i s).instruction_count = s.instruction_count := by
  unfold wb_add_step
  split
  · try simp only [forLoop_bcast_add_mult, forLoop_bcast_load, forLoop_bcast_store,
      forLoop_bcast_from_load]
    all_goals rfl
  · rfl

@[simp] theorem wb_add_step_current_cycle (i : Nat) (s : Sim F) :
    (wb_add_step i s).current_cycle = s.current_cycle := by
  unfold wb_add_step
  split
  · try simp only [forLoop_bcast_add_mult, forLoop_bcast_load, forLoop_bcast_store,
      forLoop_bcast_from_load]
    all_goals rfl
  · rfl

@[simp] theorem wb_load_step_mult_rs (i : Nat) (s : Sim F) :
    (wb_load_step i s).mult_rs = s.mult_rs := by
  unfold wb_load_step
  split
  · try simp only [forLoop_bcast_add_mult, forLoop_bcast_load, forLoop_bcast_store,
      forLoop_bcast_from_load]
    all_goals rfl
  · rfl

@[simp] theorem wb_load_step_store_buffers (i : Nat) (s : Sim F) :
    (wb_load_step i s).store_buffers = s.store_buffers := by
  unfold wb_load_step
  split
  · try simp only [forLoop_bcast_add_mult, forLoop_bcast_load, forLoop_bcast_store,
      forLoop_bcast_from_load]
    all_goals rfl
  · rfl

@[simp] theorem wb_load_step_pc (i : Nat) (s : Sim F) :
    (wb_load_step i s).pc = s.pc := by
  unfold wb_load_step
  split
  · try simp only [forLoop_bcast_add_mult, forLoop_bcast_load, forLoop_bcast_store,
      forLoop_bcast_from_load]
    all_goals rfl
  · rfl

@[simp] theorem wb_load_step_instruction_count (i : Nat) (s : Sim F) :
    (wb_load_step i s).instruction_count = s.instruction_count := by
  unfold wb_load_step
  split
  · try simp only [forLoop_bcast_add_mult, forLoop_bcast_load, forLoop_bcast_store,
      forLoop_bcast_from_load]
    all_goals rfl
  · rfl

@[simp] theorem wb_load_step_current_cycle (i : Nat) (s : Sim F) :
    (wb_load_step i s).current_cycle = s.current_cycle := by
  unfold wb_load_step
  split
  · try simp only [forLoop_bcast_add_mult, forLoop_bcast_load, forLoop_bcast_store,
      forLoop_bcast_from_load]
    all_goals rfl
  · rfl

@[simp] theorem wb_store_step_register_status (i : Nat) (s : Sim F) :
    (wb_store_step i s).register_status = s.register_status := by
  unfold wb_store_step
  split
  · try simp only [forLoop_bcast_add_mult, forLoop_bcast_load, forLoop_bcast_store,
      forLoop_bcast_from_load]
    all_goals rfl
  · rfl

@[simp] theorem wb_store_step_registers (i : Nat) (s : Sim F) :
    (wb_store_step i s).registers = s.registers := by
  unfold wb_store_step
  split
  · try simp only [forLoop_bcast_add_mult, forLoop_bcast_load, forLoop_bcast_store,
      forLoop_bcast_from_load]
    all_goals rfl
  · rfl

@[simp] theorem wb_store_step_add_rs (i : Nat) (s : Sim F) :
    (wb_store_step i s).add_rs = s.add_rs := by
  unfold wb_store_step
  split
  · try simp only [forLoop_bcast_add_mult, forLoop_bcast_load, forLoop_bcast_store,
      forLoop_bcast_from_load]
    all_goals rfl
  · rfl

@[simp] theorem wb_store_step_mult_rs (i : Nat) (s : Sim F) :
    (wb_store_step i s).mult_rs = s.mult_rs := by
  unfold wb_store_step
  split
  · try simp only [forLoop_bcast_add_mult, forLoop_bcast_load, forLoop_bcast_store,
      forLoop_bcast_from_load]
    all_goals rfl
  · rfl

@[simp] theorem wb_store_step_load_buffers (i : Nat) (s : Sim F) :
    (wb_store_step i s).load_buffers = s.load_buffers := by
  unfold wb_store_step
  split
  · try simp only [forLoop_bcast_add_mult, forLoop_bcast_load, forLoop_bcast_store,
      forLoop_bcast_from_load]
    all_goals rfl
  · rfl

@[simp] theorem wb_store_step_pc (i : Nat) (s : Sim F) :
    (wb_store_step i s).pc = s.pc := by
  unfold wb_store_step
  split
  · try simp only [forLoop_bcast_add_mult, forLoop_bcast_load, forLoop_bcast_store,
      forLoop_bcast_from_load]
    all_goals rfl
  · rfl

@[simp] theorem wb_store_step_instruction_count (i : Nat) (s : Sim F) :
    (wb_store_step i s).instruction_count = s.instruction_count := by
  unfold wb_store_step
  split
  · try simp only [forLoop_bcast_add_mult, forLoop_bcast_load, forLoop_bcast_store,
      forLoop_bcast_from_load]
    all_goals rfl
  · rfl

@[simp] theorem wb_store_step_current_cycle (i : Nat) (s : Sim F) :
    (wb_store_step i s).current_cycle = s.current_cycle := by
  unfold wb_store_step
  split
  · try simp only [forLoop_bcast_add_mult, forLoop_bcast_load, forLoop_bcast_store,
      forLoop_bcast_from_load]
    all_goals rfl
  · rfl

end WritebackSteps

/-! ## Banks -/

section Banks

omit [FloatOps F]

theorem getBank_setBank (s : Sim F) (b b' : Bank) (a : Nat → ReservationStation F) :
    getBank (setBank s b a) b' = if b' = b then a else getBank s b' := by
  cases b <;> cases b' <;> simp [getBank, setBank]

@[simp] theorem setBank_register_status (s : Sim F) (b : Bank)
    (a : Nat → ReservationStation F) :
    (setBank s b a).register_status = s.register_status := by cases b <;> rfl
@[simp] theorem setBank_registers (s : Sim F) (b : Bank) (a : Nat → ReservationStation F) :
    (setBank s b a).registers = s.registers := by cases b <;> rfl
@[simp] theorem setBank_instructions (s : Sim F) (b : Bank) (a : Nat → ReservationStation F) :
    (setBank s b a).instructions = s.instructions := by cases b <;> rfl
@[simp] theorem setBank_pc (s : Sim F) (b : Bank) (a : Nat → ReservationStation F) :
    (setBank s b a).pc = s.pc := by cases b <;> rfl
@[simp] theorem setBank_instruction_count (s : Sim F) (b : Bank)
    (a : Nat → ReservationStation F) :
    (setBank s b a).instruction_count = s.instruction_count := by cases b <;> rfl
@[simp] theorem setBank_current_cycle (s : Sim F) (b : Bank) (a : Nat → ReservationStation F) :
    (setBank s b a).current_cycle = s.current_cycle := by cases b <;> rfl

@[simp] theorem capacity_add : capacity Bank.add = 6 := rfl
@[simp] theorem capacity_mult : capacity Bank.mult = 6 := rfl
@[simp] theorem capacity_load : capacity Bank.load = 4 := rfl
@[simp] theorem capacity_store : capacity Bank.store = 4 := rfl
@[simp] theorem tagOf_add (i : Nat) : tagOf Bank.add i = (i : Int) + 1 := rfl
@[simp] theorem tagOf_mult (i : Nat) : tagOf Bank.mult i = (i : Int) + 7 := by
  simp only [tagOf, MAX_RESERVATION_STATIONS]; norm_num; omega
@[simp] theorem tagOf_load (i : Nat) : tagOf Bank.load i = (i : Int) + 13 := by
  simp only [tagOf, MAX_RESERVATION_STATIONS]; norm_num; omega
@[simp] theorem tagOf_store (i : Nat) : tagOf Bank.store i = (i : Int) + 17 := by
  simp only [tagOf, MAX_RESERVATION_STATIONS, MAX_LOAD_BUFFERS]; norm_num; omega

/-- Distinct stations have distinct tags, and a tag is never 0. -/
theorem tagOf_injective (b b' : Bank) (i i' : Nat) (hi : i < capacity b)
    (hi' : i' < capacity b') (h : tagOf b i = tagOf b' i') : b = b' ∧ i = i' := by
  cases b <;> cases b' <;> simp at h hi hi' ⊢ <;> omega

theorem tagOf_pos (b : Bank) (i : Nat) : 0 < tagOf b i := by
  cases b <;> simp <;> omega

end Banks

/-! ## `issue_instruction`, field by field -/

section Issue

@[simp] theorem wireJ_busy (s : Sim F) (src : Int) (st : ReservationStation F) :
    (wireJ s src st).busy = st.busy := by unfold wireJ; split <;> rfl
@[simp] theorem wireJ_dest (s : Sim F) (src : Int) (st : ReservationStation F) :
    (wireJ s src st).dest = st.dest := by unfold wireJ; split <;> rfl
@[simp] theorem wireJ_op (s : Sim F) (src : Int) (st : ReservationStation F) :
    (wireJ s src st).op = st.op := by unfold wireJ; split <;> rfl
@[simp] theorem wireJ_time (s : Sim F) (src : Int) (st : ReservationStation F) :
    (wireJ s src st).time_remaining = st.time_remaining := by unfold wireJ; split <;> rfl
@[simp] theorem wireJ_Qk (s : Sim F) (src : Int) (st : ReservationStation F) :
    (wireJ s src st).Qk = st.Qk := by unfold wireJ; split <;> rfl
@[simp] theorem wireJ_Qj (s : Sim F) (src : Int) (st : ReservationStation F) :
    (wireJ s src st).Qj = s.register_status src := by
  unfold wireJ; split
  · rename_i h; simp [h]
  · rfl
@[simp] theorem wireK_busy (s : Sim F) (src : Int) (st : ReservationStation F) :
    (wireK s src st).busy = st.busy := by unfold wireK; split <;> rfl
@[simp] theorem wireK_dest (s : Sim F) (src : Int) (st : ReservationStation F) :
    (wireK s src st).dest = st.dest := by unfold wireK; split <;> rfl
@[simp] theorem wireK_op (s : Sim F) (src : Int) (st : ReservationStation F) :
    (wireK s src st).op = st.op := by unfold wireK; split <;> rfl
@[simp] theorem wireK_time (s : Sim F) (src : Int) (st : ReservationStation F) :
    (wireK s src st).time_remaining = st.time_remaining := by unfold wireK; split <;> rfl
@[simp] theorem wireK_Qj (s : Sim F) (src : Int) (st : ReservationStation F) :
    (wireK s src st).Qj = st.Qj := by unfold wireK; split <;> rfl
@[simp] theorem wireK_Qk (s : Sim F) (src : Int) (st : ReservationStation F) :
    (wireK s src st).Qk = s.register_status src := by
  unfold wireK; split
  · rename_i h; simp [h]
  · rfl

@[simp] theorem issue_station_busy (s : Sim F) (instr : Instruction F)
    (st : ReservationStation F) : (issue_station s instr st).busy = 1 := by
  unfold issue_station; cases instr.op <;> simp
@[simp] theorem issue_station_dest (s : Sim F) (instr : Instruction F)
    (st : ReservationStation F) : (issue_station s instr st).dest = instr.dest := by
  unfold issue_station; cases instr.op <;> simp
@[simp] theorem issue_station_op (s : Sim F) (instr : Instruction F)
    (st : ReservationStation F) : (issue_station s instr st).op = instr.op := by
  unfold issue_station; cases h : instr.op <;> simp
@[simp] theorem issue_station_time (s : Sim F) (instr : Instruction F)
    (st : ReservationStation F) :
    (issue_station s instr st).time_remaining = latency instr.op := rfl

theorem issue_place_getBank (s : Sim F) (idx : Int) (b b' : Bank) (i k : Nat) :
    getBank (issue_place s idx b i) b' k =
      if b' = b ∧ k = i then issue_station s (s.instructions idx) (getBank s b i)
      else getBank s b' k := by
  unfold issue_place
  have h : ∀ t : Sim F, getBank
      { t with instructions := setIssued t.instructions idx t.current_cycle } b' = getBank t b' := by
    intro t; cases b' <;> rfl
  have h2 : ∀ (t : Sim F) (d v : Int), getBank
      { t with register_status := writeAt MAX_REGISTERS t.register_status d v } b' =
        getBank t b' := by
    intro t d v; cases b' <;> rfl
  simp only [h]
  split
  · simp only [h2, getBank_setBank]
    by_cases hb : b' = b
    · subst hb; by_cases hk : k = i <;> simp [hk]
    · simp [hb]
  · simp only [getBank_setBank]
    by_cases hb : b' = b
    · subst hb; by_cases hk : k = i <;> simp [hk]
    · simp [hb]

theorem issue_place_register_status (s : Sim F) (idx : Int) (b : Bank) (i : Nat) :
    (issue_place s idx b i).register_status =
      if (s.instructions idx).op ≠ STORE then
        writeAt MAX_REGISTERS s.register_status (s.instructions idx).dest (tagOf b i)
      else s.register_status := by
  unfold issue_place
  by_cases h : (s.instructions idx).op = STORE <;> simp [h]

@[simp] theorem issue_place_registers (s : Sim F) (idx : Int) (b : Bank) (i : Nat) :
    (issue_place s idx b i).registers = s.registers := by
  unfold issue_place
  by_cases h : (s.instructions idx).op = STORE <;> simp [h]

@[simp] theorem issue_place_instructions (s : Sim F) (idx : Int) (b : Bank) (i : Nat) :
    (issue_place s idx b i).instructions = setIssued s.instructions idx s.current_cycle := by
  unfold issue_place
  by_cases h : (s.instructions idx).op = STORE <;> simp [h]

@[simp] theorem issue_place_pc (s : Sim F) (idx : Int) (b : Bank) (i : Nat) :
    (issue_place s idx b i).pc = s.pc := by
  unfold issue_place
  by_cases h : (s.instructions idx).op = STORE <;> simp [h]

@[simp] theorem issue_place_instruction_count (s : Sim F) (idx : Int) (b : Bank) (i : Nat) :
    (issue_place s idx b i).instruction_count = s.instruction_count := by
  unfold issue_place
  by_cases h : (s.instructions idx).op = STORE <;> simp [h]

@[simp] theorem issue_place_current_cycle (s : Sim F) (idx : Int) (b : Bank) (i : Nat) :
    (issue_place s idx b i).current_cycle = s.current_cycle := by
  unfold issue_place
  by_cases h : (s.instructions idx).op = STORE <;> simp [h]

/-- The search loop either finds every scanned station busy and returns 0 with
the state untouched, or places the instruction in the first free one. -/
theorem issue_loop_cases (s : Sim F) (idx : Int) (b : Bank) (k i : Nat) :
    ((∀ j, i ≤ j → j < i + k → (getBank s b j).busy ≠ 0) ∧
        issue_loop s idx b i k = (s, 0)) ∨
    (∃ j, i ≤ j ∧ j < i + k ∧ (getBank s b j).busy = 0 ∧
        (∀ j', i ≤ j' → j' < j → (getBank s b j').busy ≠ 0) ∧
        issue_loop s idx b i k = (issue_place s idx b j, 1)) := by
  induction k generalizing i with
  | zero =>
    left
    exact ⟨fun j h1 h2 => absurd h2 (by omega), rfl⟩
  | succ m ih =>
    by_cases hfree : (getBank s b i).busy = 0
    · right
      refine ⟨i, le_refl i, by omega, hfree, fun j' h1 h2 => absurd h2 (by omega), ?_⟩
      simp [issue_loop, hfree]
    · rcases ih (i + 1) with ⟨hall, heq⟩ | ⟨j, h1, h2, h3, h4, heq⟩
      · left
        refine ⟨fun j h1 h2 => ?_, ?_⟩
        · by_cases hj : j = i
          · subst hj; exact hfree
          · exact hall j (by omega) (by omega)
        · simp [issue_loop, hfree, heq]
      · right
        refine ⟨j, by omega, by omega, h3, fun j' h1' h2' => ?_, ?_⟩
        · by_cases hj : j' = i
          · subst hj; exact hfree
          · exact h4 j' (by omega) h2'
        · simp [issue_loop, hfree, heq]

/-- The issue phase either leaves the state as it is (no instruction left, an
operation without a bank, or a full bank), or places `instructions[pc]` in
the first free station of its bank and increments `pc`. -/
theorem issue_phase_cases (s : Sim F) :
    (issue_phase s = s ∧
      (¬ s.pc < s.instruction_count ∨ bankOf (s.instructions s.pc).op = none ∨
        ∃ b, bankOf (s.instructions s.pc).op = some b ∧
          ∀ j, j < capacity b → (getBank s b j).busy ≠ 0)) ∨
    (∃ b j, s.pc < s.instruction_count ∧ bankOf (s.instructions s.pc).op = some b ∧
        j < capacity b ∧ (getBank s b j).busy = 0 ∧
        (∀ j', j' < j → (getBank s b j').busy ≠ 0) ∧
        issue_phase s = { issue_place s s.pc b j with pc := s.pc + 1 }) := by
  unfold issue_phase
  by_cases hpc : s.pc < s.instruction_count
  · simp only [hpc, if_true]
    unfold issue_instruction
    cases hb : bankOf (s.instructions s.pc).op with
    | none => left; simp
    | some b =>
      rcases issue_loop_cases s s.pc b (capacity b) 0 with ⟨hall, heq⟩ | ⟨j, _, h2, h3, h4, heq⟩
      · left
        refine ⟨by simp [heq], Or.inr (Or.inr ⟨b, rfl, fun j hj => ?_⟩)⟩
        exact hall j (Nat.zero_le _) (by omega)
      · right
        refine ⟨b, j, trivial, rfl, by omega, h3, fun j' hj' => h4 j' (Nat.zero_le _) hj', ?_⟩
        simp [heq]
  · left; simp [hpc]

end Issue

/-! ## `execute_operations`, field by field -/

section Execute

omit [FloatOps F]

@[simp] theorem tick_busy (b : Bank) (st : ReservationStation F) :
    (tick b st).busy = st.busy := by unfold tick; split <;> rfl
@[simp] theorem tick_dest (b : Bank) (st : ReservationStation F) :
    (tick b st).dest = st.dest := by unfold tick; split <;> rfl
@[simp] theorem tick_op (b : Bank) (st : ReservationStation F) :
    (tick b st).op = st.op := by unfold tick; split <;> rfl
@[simp] theorem tick_Qj (b : Bank) (st : ReservationStation F) :
    (tick b st).Qj = st.Qj := by unfold tick; split <;> rfl
@[simp] theorem tick_Qk (b : Bank) (st : ReservationStation F) :
    (tick b st).Qk = st.Qk := by unfold tick; split <;> rfl
theorem tick_time (b : Bank) (st : ReservationStation F) :
    (tick b st).time_remaining =
      if execReady b st then st.time_remaining - 1 else st.time_remaining := by
  unfold tick; split <;> rfl

theorem exec_step_getBank (b b' : Bank) (i k : Nat) (s : Sim F) :
    getBank (exec_step b i s) b' k =
      if b' = b ∧ k = i then tick b (getBank s b i) else getBank s b' k := by
  have h : ∀ (t : Sim F) (d c : Int), getBank
      { t with instructions := setExecuted t.instructions d c } b' = getBank t b' := by
    intro t d c; cases b' <;> rfl
  unfold exec_step tick
  by_cases hr : execReady b (getBank s b i)
  · simp only [hr, if_true]
    split
    · simp only [h, getBank_setBank]
      by_cases hb : b' = b
      · subst hb; by_cases hk : k = i <;> simp [hk]
      · simp [hb]
    · simp only [getBank_setBank]
      by_cases hb : b' = b
      · subst hb; by_cases hk : k = i <;> simp [hk]
      · simp [hb]
  · simp only [hr, if_false]
    by_cases hb : b' = b
    · subst hb; by_cases hk : k = i
      · subst hk; simp
      · simp [hk]
    · simp [hb]

@[simp] theorem exec_step_register_status (b : Bank) (i : Nat) (s : Sim F) :
    (exec_step b i s).register_status = s.register_status := by
  unfold exec_step
  by_cases hr : execReady b (getBank s b i)
  · simp only [hr, if_true]
    split <;> simp
  · simp [hr]
@[simp] theorem exec_step_registers (b : Bank) (i : Nat) (s : Sim F) :
    (exec_step b i s).registers = s.registers := by
  unfold exec_step
  by_cases hr : execReady b (getBank s b i)
  · simp only [hr, if_true]
    split <;> simp
  · simp [hr]
@[simp] theorem exec_step_pc (b : Bank) (i : Nat) (s : Sim F) :
    (exec_step b i s).pc = s.pc := by
  unfold exec_step
  by_cases hr : execReady b (getBank s b i)
  · simp only [hr, if_true]
    split <;> simp
  · simp [hr]
@[simp] theorem exec_step_instruction_count (b : Bank) (i : Nat) (s : Sim F) :
    (exec_step b i s).instruction_count = s.instruction_count := by
  unfold exec_step
  by_cases hr : execReady b (getBank s b i)
  · simp only [hr, if_true]
    split <;> simp
  · simp [hr]
@[simp] theorem exec_step_current_cycle (b : Bank) (i : Nat) (s : Sim F) :
    (exec_step b i s).current_cycle = s.current_cycle := by
  unfold exec_step
  by_cases hr : execReady b (getBank s b i)
  · simp only [hr, if_true]
    split <;> simp
  · simp [hr]

theorem exec_step_instructions (b : Bank) (i : Nat) (s : Sim F) :
    (exec_step b i s).instructions =
      if execReady b (getBank s b i) ∧ (getBank s b i).time_remaining - 1 = 0 then
        setExecuted s.instructions (getBank s b i).dest s.current_cycle
      else s.instructions := by
  unfold exec_step
  by_cases hr : execReady b (getBank s b i)
  · simp only [hr, if_true, true_and, getBank_setBank, setRS_apply]
    by_cases ht : (getBank s b i).time_remaining - 1 = 0
    · simp [ht]
    · simp [ht]
  · simp [hr]

/-- One execute loop in closed form, station by station. -/
theorem forLoop_exec_getBank (b b' : Bank) (n k : Nat) (s : Sim F) :
    getBank (forLoop n (exec_step b) s) b' k =
      if b' = b ∧ k < n then tick b (getBank s b k) else getBank s b' k := by
  induction n with
  | zero => simp
  | succ m ih =>
    rw [forLoop_succ, exec_step_getBank]
    by_cases hb : b' = b
    · subst hb
      by_cases hk : k = m
      · subst hk
        rw [ih]; simp
      · rw [ih]
        have : (k < m + 1) = (k < m) := by apply propext; omega
        simp [hk, this]
    · simp [hb, ih]

/-- The function `execute_operations` in closed form, station by station. -/
theorem execute_operations_getBank (b : Bank) (k : Nat) (s : Sim F) :
    getBank (execute_operations s) b k =
      if k < capacity b then tick b (getBank s b k) else getBank s b k := by
  unfold execute_operations
  simp only [forLoop_exec_getBank]
  cases b <;> simp <;> rfl

@[simp] theorem execute_operations_register_status (s : Sim F) :
    (execute_operations s).register_status = s.register_status := by
  unfold execute_operations
  simp only [forLoop_proj (fun t : Sim F => t.register_status) _ _ _
    (fun j t => exec_step_register_status _ j t)]
@[simp] theorem execute_operations_registers (s : Sim F) :
    (execute_operations s).registers = s.registers := by
  unfold execute_operations
  simp only [forLoop_proj (fun t : Sim F => t.registers) _ _ _
    (fun j t => exec_step_registers _ j t)]
@[simp] theorem execute_operations_pc (s : Sim F) :
    (execute_operations s).pc = s.pc := by
  unfold execute_operations
  simp only [forLoop_proj (fun t : Sim F => t.pc) _ _ _
    (fun j t => exec_step_pc _ j t)]
@[simp] theorem execute_operations_instruction_count (s : Sim F) :
    (execute_operations s).instruction_count = s.instruction_count := by
  unfold execute_operations
  simp only [forLoop_proj (fun t : Sim F => t.instruction_count) _ _ _
    (fun j t => exec_step_instruction_count _ j t)]
@[simp] theorem execute_operations_current_cycle (s : Sim F) :
    (execute_operations s).current_cycle = s.current_cycle := by
  unfold execute_operations
  simp only [forLoop_proj (fun t : Sim F => t.current_cycle) _ _ _
    (fun j t => exec_step_current_cycle _ j t)]

end Execute

/-! ## Busy flag, destination and countdown of the stations across a write-back step -/

section WritebackStations

theorem mapBelow_busy (n : Nat) (f : ReservationStation F → ReservationStation F)
    (hf : ∀ st, (f st).busy = st.busy) (a : Nat → ReservationStation F) (k : Nat) :
    (mapBelow n f a k).busy = (a k).busy := by
  simp only [mapBelow_apply]; split <;> simp [hf]
theorem mapBelow_dest (n : Nat) (f : ReservationStation F → ReservationStation F)
    (hf : ∀ st, (f st).dest = st.dest) (a : Nat → ReservationStation F) (k : Nat) :
    (mapBelow n f a k).dest = (a k).dest := by
  simp only [mapBelow_apply]; split <;> simp [hf]
theorem mapBelow_time (n : Nat) (f : ReservationStation F → ReservationStation F)
    (hf : ∀ st, (f st).time_remaining = st.time_remaining) (a : Nat → ReservationStation F)
    (k : Nat) : (mapBelow n f a k).time_remaining = (a k).time_remaining := by
  simp only [mapBelow_apply]; split <;> simp [hf]
theorem mapBelow_op (n : Nat) (f : ReservationStation F → ReservationStation F)
    (hf : ∀ st, (f st).op = st.op) (a : Nat → ReservationStation F) (k : Nat) :
    (mapBelow n f a k).op = (a k).op := by
  simp only [mapBelow_apply]; split <;> simp [hf]

theorem wb_add_step_busy (i : Nat) (s : Sim F) (b : Bank) (k : Nat) :
    (getBank (wb_add_step i s) b k).busy =
      if (b = Bank.add ∧ k = i) ∧ (s.add_rs i).busy ≠ 0 ∧ (s.add_rs i).time_remaining = 0
      then 0 else (getBank s b k).busy := by
  by_cases hf : (s.add_rs i).busy ≠ 0 ∧ (s.add_rs i).time_remaining = 0
  · cases b <;> simp only [getBank, wb_add_step_add_rs, wb_add_step_mult_rs,
      wb_add_step_load_buffers, wb_add_step_store_buffers, if_pos hf]
    · by_cases hk : k = i
      · simp [hf, hk]
      · simp [hf, hk, -mapBelow_apply, mapBelow_busy]
    · simp [hf, -mapBelow_apply, mapBelow_busy]
    · simp [hf, -mapBelow_apply, mapBelow_busy]
    · simp [hf, -mapBelow_apply, mapBelow_busy]
  · cases b <;> simp only [getBank, wb_add_step_add_rs, wb_add_step_mult_rs,
      wb_add_step_load_buffers, wb_add_step_store_buffers, if_neg hf] <;> simp [hf]

theorem wb_add_step_dest (i : Nat) (s : Sim F) (b : Bank) (k : Nat) :
    (getBank (wb_add_step i s) b k).dest = (getBank s b k).dest := by
  by_cases hf : (s.add_rs i).busy ≠ 0 ∧ (s.add_rs i).time_remaining = 0
  · cases b <;> simp only [getBank, wb_add_step_add_rs, wb_add_step_mult_rs,
      wb_add_step_load_buffers, wb_add_step_store_buffers, if_pos hf]
    · by_cases hk : k = i
      · simp [hf, hk, -mapBelow_apply, mapBelow_dest]
      · simp [hf, hk, -mapBelow_apply, mapBelow_dest]
    · simp [hf, -mapBelow_apply, mapBelow_dest]
    · simp [hf, -mapBelow_apply, mapBelow_dest]
    · simp [hf, -mapBelow_apply, mapBelow_dest]
  · cases b <;> simp only [getBank, wb_add_step_add_rs, wb_add_step_mult_rs,
      wb_add_step_load_buffers, wb_add_step_store_buffers, if_neg hf]

theorem wb_add_step_time (i : Nat) (s : Sim F) (b : Bank) (k : Nat) :
    (getBank (wb_add_step i s) b k).time_remaining = (getBank s b k).time_remaining := by
  by_cases hf : (s.add_rs i).busy ≠ 0 ∧ (s.add_rs i).time_remaining = 0
  · cases b <;> simp only [getBank, wb_add_step_add_rs, wb_add_step_mult_rs,
      wb_add_step_load_buffers, wb_add_step_store_buffers, if_pos hf]
    · by_cases hk : k = i
      · simp [hf, hk, -mapBelow_apply, mapBelow_time]
      · simp [hf, hk, -mapBelow_apply, mapBelow_time]
    · simp [hf, -mapBelow_apply, mapBelow_time]
    · simp [hf, -mapBelow_apply, mapBelow_time]
    · simp [hf, -mapBelow_apply, mapBelow_time]
  · cases b <;> simp only [getBank, wb_add_step_add_rs, wb_add_step_mult_rs,
      wb_add_step_load_buffers, wb_add_step_store_buffers, if_neg hf]

theorem wb_load_step_busy (i : Nat) (s : Sim F) (b : Bank) (k : Nat) :
    (getBank (wb_load_step i s) b k).busy =
      if (b = Bank.load ∧ k = i) ∧
        (s.load_buffers i).busy ≠ 0 ∧ (s.load_buffers i).time_remaining = 0
      then 0 else (getBank s b k).busy := by
  by_cases hf : (s.load_buffers i).busy ≠ 0 ∧ (s.load_buffers i).time_remaining = 0
  · cases b <;> simp only [getBank, wb_load_step_add_rs, wb_load_step_mult_rs,
      wb_load_step_load_buffers, wb_load_step_store_buffers, if_pos hf]
    · simp [hf, -mapBelow_apply, mapBelow_busy]
    · simp [hf]
    · by_cases hk : k = i
      · simp [hf, hk]
      · simp [hf, hk]
    · simp [hf]
  · cases b <;> simp only [getBank, wb_load_step_add_rs, wb_load_step_mult_rs,
      wb_load_step_load_buffers, wb_load_step_store_buffers, if_neg hf] <;> simp [hf]

theorem wb_load_step_dest (i : Nat) (s : Sim F) (b : Bank) (k : Nat) :
    (getBank (wb_load_step i s) b k).dest = (getBank s b k).dest := by
  by_cases hf : (s.load_buffers i).busy ≠ 0 ∧ (s.load_buffers i).time_remaining = 0
  · cases b <;> simp only [getBank, wb_load_step_add_rs, wb_load_step_mult_rs,
      wb_load_step_load_buffers, wb_load_step_store_buffers, if_pos hf]
    · simp [hf, -mapBelow_apply, mapBelow_dest]
    · by_cases hk : k = i
      · simp [hf, hk]
      · simp [hf, hk]
  · cases b <;> simp only [getBank, wb_load_step_add_rs, wb_load_step_mult_rs,
      wb_load_step_load_buffers, wb_load_step_store_buffers, if_neg hf]

theorem wb_load_step_time (i : Nat) (s : Sim F) (b : Bank) (k : Nat) :
    (getBank (wb_load_step i s) b k).time_remaining = (getBank s b k).time_remaining := by
  by_cases hf : (s.load_buffers i).busy ≠ 0 ∧ (s.load_buffers i).time_remaining = 0
  · cases b <;> simp only [getBank, wb_load_step_add_rs, wb_load_step_mult_rs,
      wb_load_step_load_buffers, wb_load_step_store_buffers, if_pos hf]
    · simp [hf, -mapBelow_apply, mapBelow_time]
    · by_cases hk : k = i
      · simp [hf, hk]
      · simp [hf, hk]
  · cases b <;> simp only [getBank, wb_load_step_add_rs, wb_load_step_mult_rs,
      wb_load_step_load_buffers, wb_load_step_store_buffers, if_neg hf]

theorem wb_store_step_busy (i : Nat) (s : Sim F) (b : Bank) (k : Nat) :
    (getBank (wb_store_step i s) b k).busy =
      if (b = Bank.store ∧ k = i) ∧
        (s.store_buffers i).busy ≠ 0 ∧ (s.store_buffers i).time_remaining = 0
      then 0 else (getBank s b k).busy := by
  by_cases hf : (s.store_buffers i).busy ≠ 0 ∧ (s.store_buffers i).time_remaining = 0
  · cases b <;> simp only [getBank, wb_store_step_add_rs, wb_store_step_mult_rs,
      wb_store_step_load_buffers, wb_store_step_store_buffers, if_pos hf]
    · simp [hf]
    · simp [hf]
    · simp [hf]
    · by_cases hk : k = i
      · simp [hf, hk]
      · simp [hf, hk]
  · cases b <;> simp only [getBank, wb_store_step_add_rs, wb_store_step_mult_rs,
      wb_store_step_load_buffers, wb_store_step_store_buffers, if_neg hf] <;> simp [hf]

theorem wb_store_step_dest (i : Nat) (s : Sim F) (b : Bank) (k : Nat) :
    (getBank (wb_store_step i s) b k).dest = (getBank s b k).dest := by
  by_cases hf : (s.store_buffers i).busy ≠ 0 ∧ (s.store_buffers i).time_remaining = 0
  · cases b <;> simp only [getBank, wb_store_step_add_rs, wb_store_step_mult_rs,
      wb_store_step_load_buffers, wb_store_step_store_buffers, if_pos hf]
    by_cases hk : k = i
    · simp [hf, hk]
    · simp [hf, hk]
  · cases b <;> simp only [getBank, wb_store_step_add_rs, wb_store_step_mult_rs,
      wb_store_step_load_buffers, wb_store_step_store_buffers, if_neg hf]

theorem wb_store_step_time (i : Nat) (s : Sim F) (b : Bank) (k : Nat) :
    (getBank (wb_store_step i s) b k).time_remaining = (getBank s b k).time_remaining := by
  by_cases hf : (s.store_buffers i).busy ≠ 0 ∧ (s.store_buffers i).time_remaining = 0
  · cases b <;> simp only [getBank, wb_store_step_add_rs, wb_store_step_mult_rs,
      wb_store_step_load_buffers, wb_store_step_store_buffers, if_pos hf]
    by_cases hk : k = i
    · simp [hf, hk]
    · simp [hf, hk]
  · cases b <;> simp only [getBank, wb_store_step_add_rs, wb_store_step_mult_rs,
      wb_store_step_load_buffers, wb_store_step_store_buffers, if_neg hf]

/-- A property that every step of the three loops preserves holds after
`writeback_results`. -/
theorem writeback_results_inv (P : Sim F → Prop) (s : Sim F) (h0 : P s)
    (hadd : ∀ i t, i < capacity Bank.add → P t → P (wb_add_step i t))
    (hload : ∀ i t, i < capacity Bank.load → P t → P (wb_load_step i t))
    (hstore : ∀ i t, i < capacity Bank.store → P t → P (wb_store_step i t)) :
    P (writeback_results s) := by
  unfold writeback_results
  exact forLoop_inv P _ _ _ (forLoop_inv P _ _ _ (forLoop_inv P _ _ _ h0 hadd) hload) hstore

end WritebackStations

/-! ## The start state and the shape of `run_cycle` -/

section Start

theorem load_instructions_proj {α : Type} (f : Sim F → α)
    (h : ∀ (s : Sim F) (d : Decoded F), f (parse_instruction s d) = f s)
    (s : Sim F) (prog : List (Decoded F)) : f (load_instructions s prog) = f s := by
  unfold load_instructions
  induction prog generalizing s with
  | nil => rfl
  | cons d ds ih => rw [List.foldl_cons, ih, h]

@[simp] theorem start_register_status (prog : List (Decoded F)) (r : Int) :
    (start prog).register_status r = 0 := by
  unfold start
  rw [load_instructions_proj (fun s : Sim F => s.register_status)]
  · rfl
  · intro s d; unfold parse_instruction; split <;> rfl

theorem start_getBank (prog : List (Decoded F)) (b : Bank) (k : Nat) :
    getBank (start prog) b k = zeroStation := by
  unfold start
  rw [load_instructions_proj (fun s : Sim F => getBank s b)]
  · cases b <;> rfl
  · intro s d; unfold parse_instruction; split
    · rfl
    · cases b <;> rfl

@[simp] theorem start_pc (prog : List (Decoded F)) : (start prog).pc = 0 := by
  unfold start
  rw [load_instructions_proj (fun s : Sim F => s.pc)]
  · rfl
  · intro s d; unfold parse_instruction; split <;> rfl

@[simp] theorem start_current_cycle (prog : List (Decoded F)) :
    (start prog).current_cycle = 0 := by
  unfold start
  rw [load_instructions_proj (fun s : Sim F => s.current_cycle)]
  · rfl
  · intro s d; unfold parse_instruction; split <;> rfl

omit [FloatOps F] in
@[simp] theorem getBank_with_pc (t : Sim F) (v : Int) (b : Bank) :
    getBank { t with pc := v } b = getBank t b := by cases b <;> rfl

omit [FloatOps F] in
@[simp] theorem getBank_with_cycle (t : Sim F) (v : Int) (b : Bank) :
    getBank { t with current_cycle := v } b = getBank t b := by cases b <;> rfl

/-- Invariants of the reachable states, phase by phase: `P` holds between two
cycles, `Q` after the issue phase, `R` after the execute phase and after every
step of the write-back phase. -/
theorem run_inv (P Q R : Sim F → Prop) (prog : List (Decoded F))
    (h0 : P (start prog))
    (hissue : ∀ s, P s → Q (issue_phase s))
    (hexec : ∀ s, Q s → R (execute_operations s))
    (hwb : ∀ s, R s → R (writeback_results s))
    (hcycle : ∀ s, R s → P { s with current_cycle := s.current_cycle + 1 })
    (n : Nat) : P (run prog n) := by
  induction n with
  | zero => exact h0
  | succ m ih =>
    show P (run_cycle (run prog m))
    unfold run_cycle
    exact hcycle _ (hwb _ (hexec _ (hissue _ ih)))

end Start

/-! ## The register-status invariant -/

section RegStatus

omit [FloatOps F] in
theorem writeAt_regs_same {α : Type} (a : Int → α) (d : Int) (v : α) (h0 : 0 ≤ d)
    (h1 : d < 32) : writeAt MAX_REGISTERS a d v d = v := by
  simp [h0, h1]

theorem RegStatusInv_issue_place (s : Sim F) (idx : Int) (b : Bank) (j : Nat)
    (hb : bankOf (s.instructions idx).op = some b) (hj : j < capacity b)
    (hfree : (getBank s b j).busy = 0) (h : RegStatusInv s) :
    RegStatusInv (issue_place s idx b j) := by
  intro r hr0 hr1 hne
  rw [issue_place_register_status] at hne ⊢
  by_cases hw : (s.instructions idx).op ≠ STORE ∧ r = (s.instructions idx).dest
  · obtain ⟨hop, hrd⟩ := hw
    refine ⟨b, j, ?_, hj, ?_, ?_, ?_⟩
    · intro hbs; subst hbs
      cases hop' : (s.instructions idx).op <;> simp [hop', bankOf] at hb hop
    · rw [if_pos hop, hrd, writeAt_regs_same _ _ _ (hrd ▸ hr0) (hrd ▸ hr1)]
    · simp [issue_place_getBank]
    · simp [issue_place_getBank, hrd]
  · have hsame : (if (s.instructions idx).op ≠ STORE then
        writeAt MAX_REGISTERS s.register_status (s.instructions idx).dest (tagOf b j)
        else s.register_status) r = s.register_status r := by
      by_cases hop : (s.instructions idx).op = STORE
      · simp [hop]
      · have hrd : r ≠ (s.instructions idx).dest := fun e => hw ⟨hop, e⟩
        simp [hop, hrd]
    rw [hsame] at hne ⊢
    obtain ⟨b', i', h1, h2, h3, h4, h5⟩ := h r hr0 hr1 hne
    refine ⟨b', i', h1, h2, h3, ?_, ?_⟩
    · rw [issue_place_getBank]
      split
      · simp
      · exact h4
    · rw [issue_place_getBank]
      split
      · rename_i hc
        obtain ⟨e1, e2⟩ := hc
        subst e1; subst e2
        exact absurd hfree h4
      · exact h5

theorem RegStatusInv_issue_phase (s : Sim F) (h : RegStatusInv s) :
    RegStatusInv (issue_phase s) := by
  rcases issue_phase_cases s with ⟨heq, _⟩ | ⟨b, j, _, hb, hj, hfree, _, heq⟩
  · rw [heq]; exact h
  · rw [heq]
    have := RegStatusInv_issue_place s s.pc b j hb hj hfree h
    intro r hr0 hr1 hne
    obtain ⟨b', i', h1, h2, h3, h4, h5⟩ := this r hr0 hr1 hne
    exact ⟨b', i', h1, h2, h3, by simpa using h4, by simpa using h5⟩

theorem RegStatusInv_execute (s : Sim F) (h : RegStatusInv s) :
    RegStatusInv (execute_operations s) := by
  intro r hr0 hr1 hne
  rw [execute_operations_register_status] at hne ⊢
  obtain ⟨b', i', h1, h2, h3, h4, h5⟩ := h r hr0 hr1 hne
  refine ⟨b', i', h1, h2, h3, ?_, ?_⟩
  · rw [execute_operations_getBank]; simp [h2, h4]
  · rw [execute_operations_getBank]; simp [h2, h5]

theorem RegStatusInv_wb_add (i : Nat) (s : Sim F) (h : RegStatusInv s) :
    RegStatusInv (wb_add_step i s) := by
  intro r hr0 hr1 hne
  rw [wb_add_step_register_status] at hne ⊢
  by_cases hf : (s.add_rs i).busy ≠ 0 ∧ (s.add_rs i).time_remaining = 0
  · rw [if_pos hf] at hne ⊢
    have hrd : r ≠ (s.add_rs i).dest := by
      intro e; apply hne
      rw [e, writeAt_regs_same _ _ _ (e ▸ hr0) (e ▸ hr1)]
    have hsame : writeAt MAX_REGISTERS s.register_status (s.add_rs i).dest 0 r =
        s.register_status r := by simp [hrd]
    rw [hsame] at hne ⊢
    obtain ⟨b', i', h1, h2, h3, h4, h5⟩ := h r hr0 hr1 hne
    refine ⟨b', i', h1, h2, h3, ?_, ?_⟩
    · rw [wb_add_step_busy]
      split
      · rename_i hc
        obtain ⟨⟨e1, e2⟩, _⟩ := hc
        subst e1; subst e2
        exact absurd h5.symm hrd
      · exact h4
    · rw [wb_add_step_dest]; exact h5
  · rw [if_neg hf] at hne ⊢
    obtain ⟨b', i', h1, h2, h3, h4, h5⟩ := h r hr0 hr1 hne
    refine ⟨b', i', h1, h2, h3, ?_, ?_⟩
    · rw [wb_add_step_busy]; simp [hf]; exact h4
    · rw [wb_add_step_dest]; exact h5

theorem RegStatusInv_wb_load (i : Nat) (s : Sim F) (h : RegStatusInv s) :
    RegStatusInv (wb_load_step i s) := by
  intro r hr0 hr1 hne
  rw [wb_load_step_register_status] at hne ⊢
  by_cases hf : (s.load_buffers i).busy ≠ 0 ∧ (s.load_buffers i).time_remaining = 0
  · rw [if_pos hf] at hne ⊢
    have hrd : r ≠ (s.load_buffers i).dest := by
      intro e; apply hne
      rw [e, writeAt_regs_same _ _ _ (e ▸ hr0) (e ▸ hr1)]
    have hsame : writeAt MAX_REGISTERS s.register_status (s.load_buffers i).dest 0 r =
        s.register_status r := by simp [hrd]
    rw [hsame] at hne ⊢
    obtain ⟨b', i', h1, h2, h3, h4, h5⟩ := h r hr0 hr1 hne
    refine ⟨b', i', h1, h2, h3, ?_, ?_⟩
    · rw [wb_load_step_busy]
      split
      · rename_i hc
        obtain ⟨⟨e1, e2⟩, _⟩ := hc
        subst e1; subst e2
        exact absurd h5.symm hrd
      · exact h4
    · rw [wb_load_step_dest]; exact h5
  · rw [if_neg hf] at hne ⊢
    obtain ⟨b', i', h1, h2, h3, h4, h5⟩ := h r hr0 hr1 hne
    refine ⟨b', i', h1, h2, h3, ?_, ?_⟩
    · rw [wb_load_step_busy]; simp [hf]; exact h4
    · rw [wb_load_step_dest]; exact h5

theorem RegStatusInv_wb_store (i : Nat) (s : Sim F) (h : RegStatusInv s) :
    RegStatusInv (wb_store_step i s) := by
  intro r hr0 hr1 hne
  rw [wb_store_step_register_status] at hne ⊢
  obtain ⟨b', i', h1, h2, h3, h4, h5⟩ := h r hr0 hr1 hne
  refine ⟨b', i', h1, h2, h3, ?_, ?_⟩
  · rw [wb_store_step_busy]
    split
    · rename_i hc
      exact absurd hc.1.1 h1
    · exact h4
  · rw [wb_store_step_dest]; exact h5

theorem RegStatusInv_run (prog : List (Decoded F)) (n : Nat) : RegStatusInv (run prog n) := by
  apply run_inv RegStatusInv RegStatusInv RegStatusInv
  · intro r _ _ hne; simp at hne
  · exact RegStatusInv_issue_phase
  · exact RegStatusInv_execute
  · intro s h
    exact writeback_results_inv RegStatusInv s h (fun i t _ => RegStatusInv_wb_add i t)
      (fun i t _ => RegStatusInv_wb_load i t) (fun i t _ => RegStatusInv_wb_store i t)
  · intro s h r hr0 hr1 hne
    obtain ⟨b', i', h1, h2, h3, h4, h5⟩ := h r hr0 hr1 hne
    exact ⟨b', i', h1, h2, h3, by simpa using h4, by simpa using h5⟩

end RegStatus

/-! ## Fields of the instruction table that only `issue_instruction` writes -/

section Frames

omit [FloatOps F]

theorem SameDecode_refl (s : Sim F) : SameDecode s s := fun _ => ⟨rfl, rfl, rfl, rfl, rfl, rfl⟩

theorem SameDecode_trans {s t u : Sim F} (h1 : SameDecode s t) (h2 : SameDecode t u) :
    SameDecode s u := fun k =>
  ⟨(h2 k).1.trans (h1 k).1, (h2 k).2.1.trans (h1 k).2.1, (h2 k).2.2.1.trans (h1 k).2.2.1,
    (h2 k).2.2.2.1.trans (h1 k).2.2.2.1, (h2 k).2.2.2.2.1.trans (h1 k).2.2.2.2.1,
    (h2 k).2.2.2.2.2.trans (h1 k).2.2.2.2.2⟩

theorem SameDecode_exec_step (b : Bank) (i : Nat) (s : Sim F) :
    SameDecode s (exec_step b i s) := by
  intro k
  rw [exec_step_instructions]
  split <;> simp

theorem SameDecode_execute (s : Sim F) : SameDecode s (execute_operations s) := by
  unfold execute_operations
  have step : ∀ (b : Bank) (n : Nat) (t : Sim F), SameDecode s t →
      SameDecode s (forLoop n (exec_step b) t) := by
    intro b n t ht
    exact forLoop_inv (SameDecode s) _ _ _ ht
      (fun j u _ hu => SameDecode_trans hu (SameDecode_exec_step b j u))
  exact step _ _ _ (step _ _ _ (step _ _ _ (step _ _ _ (SameDecode_refl s))))

end Frames

section Frames2

theorem SameDecode_wb_add (i : Nat) (s : Sim F) : SameDecode s (wb_add_step i s) := by
  intro k
  rw [wb_add_step_instructions]
  split <;> simp

theorem SameDecode_wb_load (i : Nat) (s : Sim F) : SameDecode s (wb_load_step i s) := by
  intro k
  rw [wb_load_step_instructions]
  split <;> simp

theorem SameDecode_wb_store (i : Nat) (s : Sim F) : SameDecode s (wb_store_step i s) := by
  intro k
  rw [wb_store_step_instructions]
  split <;> simp

theorem SameDecode_writeback (s : Sim F) : SameDecode s (writeback_results s) :=
  writeback_results_inv (SameDecode s) s (SameDecode_refl s)
    (fun i t _ ht => SameDecode_trans ht (SameDecode_wb_add i t))
    (fun i t _ ht => SameDecode_trans ht (SameDecode_wb_load i t))
    (fun i t _ ht => SameDecode_trans ht (SameDecode_wb_store i t))

@[simp] theorem writeback_results_pc (s : Sim F) : (writeback_results s).pc = s.pc :=
  writeback_results_inv (fun t => t.pc = s.pc) s rfl
    (fun i t _ ht => (wb_add_step_pc i t).trans ht)
    (fun i t _ ht => (wb_load_step_pc i t).trans ht)
    (fun i t _ ht => (wb_store_step_pc i t).trans ht)

@[simp] theorem writeback_results_instruction_count (s : Sim F) :
    (writeback_results s).instruction_count = s.instruction_count :=
  writeback_results_inv (fun t => t.instruction_count = s.instruction_count) s rfl
    (fun i t _ ht => (wb_add_step_instruction_count i t).trans ht)
    (fun i t _ ht => (wb_load_step_instruction_count i t).trans ht)
    (fun i t _ ht => (wb_store_step_instruction_count i t).trans ht)

@[simp] theorem writeback_results_current_cycle (s : Sim F) :
    (writeback_results s).current_cycle = s.current_cycle :=
  writeback_results_inv (fun t => t.current_cycle = s.current_cycle) s rfl
    (fun i t _ ht => (wb_add_step_current_cycle i t).trans ht)
    (fun i t _ ht => (wb_load_step_current_cycle i t).trans ht)
    (fun i t _ ht => (wb_store_step_current_cycle i t).trans ht)

theorem run_cycle_instructions (s : Sim F) :
    (run_cycle s).instructions =
      (writeback_results (execute_operations (issue_phase s))).instructions := by
  simp only [run_cycle]

theorem run_cycle_pc (s : Sim F) : (run_cycle s).pc = (issue_phase s).pc := by
  simp only [run_cycle, writeback_results_pc, execute_operations_pc]

theorem run_cycle_instruction_count (s : Sim F) :
    (run_cycle s).instruction_count = (issue_phase s).instruction_count := by
  simp only [run_cycle, writeback_results_instruction_count,
    execute_operations_instruction_count]

theorem run_cycle_current_cycle (s : Sim F) :
    (run_cycle s).current_cycle = (issue_phase s).current_cycle + 1 := by
  simp only [run_cycle, writeback_results_current_cycle, execute_operations_current_cycle]

theorem run_cycle_SameDecode (s : Sim F) : SameDecode (issue_phase s) (run_cycle s) := by
  intro k
  rw [run_cycle_instructions]
  exact SameDecode_trans (SameDecode_execute (issue_phase s))
    (SameDecode_writeback (execute_operations (issue_phase s))) k

end Frames2

/-! ## Facts about the start state -/

section StartFacts

theorem load_instructions_inv (P : Sim F → Prop)
    (h : ∀ (s : Sim F) (d : Decoded F), P s → P (parse_instruction s d))
    (s : Sim F) (prog : List (Decoded F)) (h0 : P s) : P (load_instructions s prog) := by
  unfold load_instructions
  induction prog generalizing s with
  | nil => exact h0
  | cons d ds ih => rw [List.foldl_cons]; exact ih _ (h s d h0)

theorem start_count_bounds (prog : List (Decoded F)) :
    0 ≤ (start prog).instruction_count ∧ (start prog).instruction_count ≤ 100 := by
  unfold start
  apply load_instructions_inv (fun s => 0 ≤ s.instruction_count ∧ s.instruction_count ≤ 100)
  · intro s d hs
    unfold parse_instruction
    split
    · exact hs
    · rename_i hlt
      simp only [MAX_INSTRUCTIONS, Nat.cast_ofNat, ge_iff_le, not_le] at hlt
      exact ⟨by have := hs.1; show 0 ≤ s.instruction_count + 1; omega,
        by show s.instruction_count + 1 ≤ 100; omega⟩
  · exact ⟨le_refl _, by simp [init_simulator]⟩

theorem start_timestamps (prog : List (Decoded F)) (k : Int) :
    ((start prog).instructions k).issued = 0 ∧ ((start prog).instructions k).executed = 0 ∧
    ((start prog).instructions k).written = 0 ∧
    ((start prog).instructions k).completed = 0 := by
  unfold start
  apply load_instructions_inv (fun s => (s.instructions k).issued = 0 ∧
    (s.instructions k).executed = 0 ∧ (s.instructions k).written = 0 ∧
    (s.instructions k).completed = 0)
  · intro s d hs
    unfold parse_instruction
    split
    · exact hs
    · simp only [writeAt_apply]
      split
      · exact ⟨rfl, rfl, rfl, rfl⟩
      · exact hs
  · exact ⟨rfl, rfl, rfl, rfl⟩

end StartFacts

/-! ## `pc` and the `issued` timestamps -/

section Issued

theorem IssuedInv_start (prog : List (Decoded F)) : IssuedInv False (start prog) where
  pc_nonneg := by simp
  pc_le := by simpa using (start_count_bounds prog).1
  count_le := (start_count_bounds prog).2
  cycle_nonneg := by simp
  unissued := fun k _ => (start_timestamps prog k).1
  first := (start_timestamps prog 0).1
  later := fun k h1 h2 => by simp at h2; omega
  cycle_zero := fun _ _ => ⟨by simp, fun b => by rw [start_getBank]; rfl⟩
  stuck := fun h => by simp at h

omit [FloatOps F] in
theorem IssuedInv_of_same (s t : Sim F) (h : IssuedInv True s)
    (hpc : t.pc = s.pc) (hcount : t.instruction_count = s.instruction_count)
    (hcycle : t.current_cycle = s.current_cycle) (hsame : SameDecode s t) :
    IssuedInv True t where
  pc_nonneg := by rw [hpc]; exact h.pc_nonneg
  pc_le := by rw [hpc, hcount]; exact h.pc_le
  count_le := by rw [hcount]; exact h.count_le
  cycle_nonneg := by rw [hcycle]; exact h.cycle_nonneg
  unissued := fun k hk => by
    rw [(hsame k).2.2.2.2.2]; exact h.unissued k (by rw [← hpc]; exact hk)
  first := by rw [(hsame 0).2.2.2.2.2]; exact h.first
  later := fun k h1 h2 => by
    rw [(hsame k).2.2.2.2.2]; exact h.later k h1 (by rw [← hpc]; exact h2)
  cycle_zero := fun hn => absurd trivial hn
  stuck := fun hc hp => by
    rw [hpc] at hp
    rw [hpc, hcount, (hsame 0).1]; exact h.stuck (Or.inl trivial) hp

theorem IssuedInv_issue_phase (s : Sim F) (h : IssuedInv False s) :
    IssuedInv True (issue_phase s) := by
  rcases issue_phase_cases s with ⟨heq, hwhy⟩ | ⟨b, j, hlt, hb, hj, hfree, _, heq⟩
  · rw [heq]
    refine ⟨h.pc_nonneg, h.pc_le, h.count_le, h.cycle_nonneg, h.unissued, h.first, h.later,
      fun hn => absurd trivial hn, ?_⟩
    intro _ hp
    by_cases hc : 1 ≤ s.current_cycle
    · exact h.stuck (Or.inr hc) hp
    · have hc0 : s.current_cycle = 0 := by have := h.cycle_nonneg; omega
      have hfree0 := (h.cycle_zero (fun x => x) hc0).2
      rcases hwhy with h1 | h2 | ⟨b, hb, hfull⟩
      · exact Or.inl h1
      · right; rw [← hp]; exact h2
      · exact absurd (hfree0 b) (hfull 0 (by cases b <;> simp))
  · rw [heq]
    have hpc0 := h.pc_nonneg
    have hcnt := h.count_le
    refine ⟨?_, ?_, ?_, ?_, ?_, ?_, ?_, fun hn => absurd trivial hn, ?_⟩
    · show 0 ≤ s.pc + 1; omega
    · show s.pc + 1 ≤ (issue_place s s.pc b j).instruction_count
      rw [issue_place_instruction_count]; omega
    · show (issue_place s s.pc b j).instruction_count ≤ 100
      rw [issue_place_instruction_count]; exact hcnt
    · show 0 ≤ (issue_place s s.pc b j).current_cycle
      rw [issue_place_current_cycle]; exact h.cycle_nonneg
    · intro k hk
      show ((issue_place s s.pc b j).instructions k).issued = 0
      have hk' : k < 0 ∨ s.pc + 1 ≤ k := hk
      rw [issue_place_instructions, setIssued_issued, if_neg (by omega)]
      exact h.unissued k (by omega)
    · show ((issue_place s s.pc b j).instructions 0).issued = 0
      rw [issue_place_instructions, setIssued_issued]
      split
      · rename_i hc
        have hp : s.pc = 0 := hc.1.symm
        by_contra hne
        have hc1 : 1 ≤ s.current_cycle := by have := h.cycle_nonneg; omega
        rcases h.stuck (Or.inr hc1) hp with h1 | h2
        · exact h1 hlt
        · rw [hp] at hb; rw [hb] at h2; exact Option.noConfusion h2
      · exact h.first
    · intro k h1 h2
      show ((issue_place s s.pc b j).instructions k).issued ≠ 0
      have h2' : k < s.pc + 1 := h2
      rw [issue_place_instructions, setIssued_issued]
      split
      · intro hc0
        have := (h.cycle_zero (fun x => x) hc0).1
        rename_i hc
        omega
      · rename_i hc
        have hk : k ≠ s.pc := by
          intro e; apply hc
          exact ⟨e, hpc0, by simp only [MAX_INSTRUCTIONS, Nat.cast_ofNat]; omega⟩
        exact h.later k h1 (by omega)
    · intro _ hp
      have hp' : s.pc + 1 = 0 := hp
      omega

theorem IssuedInv_run (prog : List (Decoded F)) (n : Nat) :
    IssuedInv False (run prog n) := by
  apply run_inv (IssuedInv False) (IssuedInv True) (IssuedInv True)
  · exact IssuedInv_start prog
  · exact IssuedInv_issue_phase
  · intro s h
    exact IssuedInv_of_same s _ h (execute_operations_pc s)
      (execute_operations_instruction_count s) (execute_operations_current_cycle s)
      (SameDecode_execute s)
  · intro s h
    exact IssuedInv_of_same s _ h (writeback_results_pc s)
      (writeback_results_instruction_count s) (writeback_results_current_cycle s)
      (SameDecode_writeback s)
  · intro s h
    refine ⟨h.pc_nonneg, h.pc_le, h.count_le, ?_, h.unissued, h.first, h.later, ?_, ?_⟩
    · show 0 ≤ s.current_cycle + 1
      have := h.cycle_nonneg; omega
    · intro _ hc
      have hc' : s.current_cycle + 1 = 0 := hc
      have := h.cycle_nonneg; omega
    · intro _ hp
      exact h.stuck (Or.inl trivial) hp

/-- Counting the indices `1, …, p - 1` among `0, …, n - 1`. -/
theorem countP_range_between (n p : Nat) :
    (List.range n).countP (fun k => decide (1 ≤ k ∧ k < p)) = min p n - 1 := by
  induction n with
  | zero => simp
  | succ m ih =>
    rw [List.range_succ, List.countP_append, ih]
    by_cases h : 1 ≤ m ∧ m < p
    · simp [List.countP_cons, h]; omega
    · simp [List.countP_cons, h]; omega

end Issued

section StartTable

theorem start_append (prog : List (Decoded F)) (d : Decoded F) :
    start (prog ++ [d]) = parse_instruction (start prog) d := by
  simp [start, load_instructions, List.foldl_append]

/-- The instruction table after loading: the first 100 decoded lines, in
program order. -/
theorem start_table (prog : List (Decoded F)) :
    (start prog).instruction_count = ((min prog.length 100 : Nat) : Int) ∧
    ∀ (k : Nat) (hk : k < prog.length), k < 100 →
      ((start prog).instructions (k : Int)).op = prog[k].op ∧
      ((start prog).instructions (k : Int)).dest = prog[k].dest := by
  induction prog using List.reverseRecOn with
  | nil => exact ⟨rfl, fun k hk => absurd hk (by simp)⟩
  | append_singleton l d ih =>
    obtain ⟨hc, hi⟩ := ih
    rw [start_append]
    unfold parse_instruction
    by_cases hfull : (start l).instruction_count ≥ (MAX_INSTRUCTIONS : Int)
    · rw [if_pos hfull]
      have hl : 100 ≤ l.length := by
        rw [hc] at hfull
        simp only [MAX_INSTRUCTIONS, Nat.cast_ofNat, ge_iff_le] at hfull
        omega
      refine ⟨by rw [hc]; simp; omega, ?_⟩
      intro k hk hk100
      have hkl : k < l.length := by omega
      rw [List.getElem_append_left hkl]
      exact hi k hkl hk100
    · rw [if_neg hfull]
      have hl : l.length < 100 := by
        rw [hc] at hfull
        simp only [MAX_INSTRUCTIONS, Nat.cast_ofNat, ge_iff_le, not_le] at hfull
        omega
      have hcl : (start l).instruction_count = (l.length : Int) := by
        rw [hc]; congr 1; omega
      refine ⟨?_, ?_⟩
      · show (start l).instruction_count + 1 = _
        rw [hcl]; simp; omega
      · intro k hk hk100
        simp only [List.length_append, List.length_singleton] at hk
        show (writeAt MAX_INSTRUCTIONS (start l).instructions (start l).instruction_count
          _ (k : Int)).op = _ ∧ (writeAt MAX_INSTRUCTIONS (start l).instructions
          (start l).instruction_count _ (k : Int)).dest = _
        rw [writeAt_apply, hcl]
        by_cases hkl : k = l.length
        · subst hkl
          rw [if_pos ⟨rfl, by omega, by simp only [MAX_INSTRUCTIONS, Nat.cast_ofNat]; omega⟩]
          simp
        · rw [if_neg (by intro hcon; apply hkl; have := hcon.1; omega)]
          have hkl' : k < l.length := by omega
          rw [List.getElem_append_left hkl']
          exact hi k hkl' hk100

end StartTable

/-! ## The distance between `issued` and `written` -/

section Latency

theorem OwnIndex_start (prog : List (Decoded F))
    (hown : ∀ (k : Nat) (hk : k < prog.length), prog[k].op ≠ STORE → prog[k].dest = (k : Int)) :
    OwnIndex (start prog) := by
  intro k hk0 hk1 hop
  obtain ⟨hc, hi⟩ := start_table prog
  rw [hc] at hk1
  obtain ⟨m, rfl⟩ := Int.eq_ofNat_of_zero_le hk0
  have hm : m < prog.length := by omega
  have hm100 : m < 100 := by omega
  rw [(hi m hm hm100).1] at hop
  rw [(hi m hm hm100).2]
  exact hown m hm hop

theorem LatencyInv_start (prog : List (Decoded F))
    (hown : ∀ (k : Nat) (hk : k < prog.length), prog[k].op ≠ STORE → prog[k].dest = (k : Int)) :
    LatencyInv 0 (start prog) where
  pc_nonneg := by simp
  pc_le := by simpa using (start_count_bounds prog).1
  count_le := (start_count_bounds prog).2
  own := OwnIndex_start prog hown
  unwritten := fun k _ => (start_timestamps prog k).2.2.1
  stations := fun b i _ hb => by
    rw [start_getBank] at hb; exact absurd rfl hb
  written := fun k hk => absurd (start_timestamps prog k).2.2.1 hk

omit [FloatOps F] in
/-- Transfer of the invariant across a step that changes neither `pc`, the
decoded program nor `issued`, frees stations at most, and stores `written`
only for a finished busy station of the add or load bank. -/
theorem LatencyInv_of_frame (a a' : Int) (ha : a ≤ 1) (s t : Sim F) (h : LatencyInv a s)
    (hpc : t.pc = s.pc) (hcount : t.instruction_count = s.instruction_count)
    (hcycle : t.current_cycle = s.current_cycle) (hsame : SameDecode s t)
    (hbusy : ∀ b k, (getBank t b k).busy ≠ 0 → (getBank s b k).busy ≠ 0)
    (hdest : ∀ b k, (getBank t b k).dest = (getBank s b k).dest)
    (htime : ∀ b k, (getBank s b k).time_remaining + a ≤ (getBank t b k).time_remaining + a')
    (hwritten : ∀ k, (t.instructions k).written = (s.instructions k).written ∨
      ∃ b i, (b = Bank.add ∨ b = Bank.load) ∧ (getBank s b i).busy ≠ 0 ∧
        (getBank s b i).time_remaining = 0 ∧ k = (getBank s b i).dest ∧
        (t.instructions k).written = s.current_cycle) :
    LatencyInv a' t where
  pc_nonneg := by rw [hpc]; exact h.pc_nonneg
  pc_le := by rw [hpc, hcount]; exact h.pc_le
  count_le := by rw [hcount]; exact h.count_le
  own := fun k hk0 hk1 hop => by
    rw [(hsame k).2.1]
    exact h.own k hk0 (by rw [← hcount]; exact hk1) (by rw [← (hsame k).1]; exact hop)
  unwritten := fun k hk => by
    rw [hpc] at hk
    rcases hwritten k with hw | ⟨b, i, hb, hbz, _, hkd, _⟩
    · rw [hw]; exact h.unwritten k hk
    · have := h.stations b i hb hbz
      omega
  stations := fun b i hb hbz => by
    have hs := h.stations b i hb (hbusy b i hbz)
    rw [hdest, hpc, hcycle, (hsame _).2.2.2.2.2, (hsame _).1]
    have := htime b i
    exact ⟨hs.1, hs.2.1, by omega⟩
  written := fun k hk => by
    rw [(hsame k).2.2.2.2.2, (hsame k).1]
    rcases hwritten k with hw | ⟨b, i, hb, hbz, htz, hkd, hw⟩
    · rw [hw] at hk ⊢; exact h.written k hk
    · have hs := h.stations b i hb hbz
      rw [hw, hkd]
      omega

end Latency

section Latency2

omit [FloatOps F] in
theorem execute_operations_written (s : Sim F) (k : Int) :
    ((execute_operations s).instructions k).written = (s.instructions k).written := by
  unfold execute_operations
  have step : ∀ (b : Bank) (n : Nat) (t : Sim F),
      (t.instructions k).written = (s.instructions k).written →
      ((forLoop n (exec_step b) t).instructions k).written = (s.instructions k).written := by
    intro b n t ht
    apply forLoop_inv (fun u : Sim F => (u.instructions k).written = (s.instructions k).written)
    · exact ht
    · intro j u _ hu
      show ((exec_step b j u).instructions k).written = _
      rw [exec_step_instructions]
      split
      · rw [setExecuted_written]; exact hu
      · exact hu
  exact step _ _ _ (step _ _ _ (step _ _ _ (step _ _ _ rfl)))

omit [FloatOps F] in
theorem LatencyInv_execute (s : Sim F) (h : LatencyInv 0 s) :
    LatencyInv 1 (execute_operations s) := by
  apply LatencyInv_of_frame 0 1 (by decide) s _ h (execute_operations_pc s)
    (execute_operations_instruction_count s) (execute_operations_current_cycle s)
    (SameDecode_execute s)
  · intro b k hb
    rw [execute_operations_getBank] at hb
    split at hb
    · simpa using hb
    · exact hb
  · intro b k
    rw [execute_operations_getBank]
    split <;> simp
  · intro b k
    rw [execute_operations_getBank]
    split
    · rw [tick_time]; split <;> omega
    · omega
  · intro k
    exact Or.inl (execute_operations_written s k)

theorem LatencyInv_wb_add (i : Nat) (s : Sim F) (h : LatencyInv 1 s) :
    LatencyInv 1 (wb_add_step i s) := by
  apply LatencyInv_of_frame 1 1 (le_refl _) s _ h (wb_add_step_pc i s)
    (wb_add_step_instruction_count i s) (wb_add_step_current_cycle i s)
    (SameDecode_wb_add i s)
  · intro b k hb
    rw [wb_add_step_busy] at hb
    split at hb
    · exact absurd rfl hb
    · exact hb
  · intro b k; exact wb_add_step_dest i s b k
  · intro b k; rw [wb_add_step_time]
  · intro k
    rw [wb_add_step_instructions]
    by_cases hf : (s.add_rs i).busy ≠ 0 ∧ (s.add_rs i).time_remaining = 0
    · rw [if_pos hf, setCompleted_written, setWritten_written]
      split
      · rename_i hc
        exact Or.inr ⟨Bank.add, i, Or.inl rfl, hf.1, hf.2, hc.1, rfl⟩
      · exact Or.inl rfl
    · rw [if_neg hf]; exact Or.inl rfl

theorem LatencyInv_wb_load (i : Nat) (s : Sim F) (h : LatencyInv 1 s) :
    LatencyInv 1 (wb_load_step i s) := by
  apply LatencyInv_of_frame 1 1 (le_refl _) s _ h (wb_load_step_pc i s)
    (wb_load_step_instruction_count i s) (wb_load_step_current_cycle i s)
    (SameDecode_wb_load i s)
  · intro b k hb
    rw [wb_load_step_busy] at hb
    split at hb
    · exact absurd rfl hb
    · exact hb
  · intro b k; exact wb_load_step_dest i s b k
  · intro b k; rw [wb_load_step_time]
  · intro k
    rw [wb_load_step_instructions]
    by_cases hf : (s.load_buffers i).busy ≠ 0 ∧ (s.load_buffers i).time_remaining = 0
    · rw [if_pos hf, setCompleted_written, setWritten_written]
      split
      · rename_i hc
        exact Or.inr ⟨Bank.load, i, Or.inr rfl, hf.1, hf.2, hc.1, rfl⟩
      · exact Or.inl rfl
    · rw [if_neg hf]; exact Or.inl rfl

theorem LatencyInv_wb_store (i : Nat) (s : Sim F) (h : LatencyInv 1 s) :
    LatencyInv 1 (wb_store_step i s) := by
  apply LatencyInv_of_frame 1 1 (le_refl _) s _ h (wb_store_step_pc i s)
    (wb_store_step_instruction_count i s) (wb_store_step_current_cycle i s)
    (SameDecode_wb_store i s)
  · intro b k hb
    rw [wb_store_step_busy] at hb
    split at hb
    · exact absurd rfl hb
    · exact hb
  · intro b k; exact wb_store_step_dest i s b k
  · intro b k; rw [wb_store_step_time]
  · intro k
    rw [wb_store_step_instructions]
    split
    · rw [setCompleted_written]; exact Or.inl rfl
    · exact Or.inl rfl

theorem LatencyInv_issue_phase (s : Sim F) (h : LatencyInv 0 s) :
    LatencyInv 0 (issue_phase s) := by
  rcases issue_phase_cases s with ⟨heq, _⟩ | ⟨b, j, hlt, hb, hj, hfree, _, heq⟩
  · rw [heq]; exact h
  · rw [heq]
    have hpc0 := h.pc_nonneg
    have hcnt := h.count_le
    have hrange : 0 ≤ s.pc ∧ s.pc < (MAX_INSTRUCTIONS : Int) :=
      ⟨hpc0, by simp only [MAX_INSTRUCTIONS, Nat.cast_ofNat]; omega⟩
    refine ⟨?_, ?_, ?_, ?_, ?_, ?_, ?_⟩
    · show 0 ≤ s.pc + 1; omega
    · show s.pc + 1 ≤ (issue_place s s.pc b j).instruction_count
      rw [issue_place_instruction_count]; omega
    · show (issue_place s s.pc b j).instruction_count ≤ 100
      rw [issue_place_instruction_count]; exact hcnt
    · intro k hk0 hk1 hop
      have hk1' : k < s.instruction_count := by
        have : k < (issue_place s s.pc b j).instruction_count := hk1
        rwa [issue_place_instruction_count] at this
      have hop' : ((issue_place s s.pc b j).instructions k).op ≠ STORE := hop
      show ((issue_place s s.pc b j).instructions k).dest = k
      rw [issue_place_instructions, setIssued_op] at hop'
      rw [issue_place_instructions, setIssued_dest]
      exact h.own k hk0 hk1' hop'
    · intro k hk
      have hk' : k < 0 ∨ s.pc + 1 ≤ k := hk
      show ((issue_place s s.pc b j).instructions k).written = 0
      rw [issue_place_instructions, setIssued_written]
      exact h.unwritten k (by omega)
    · intro b' i hb' hbz
      have hbz' : (getBank (issue_place s s.pc b j) b' i).busy ≠ 0 := by simpa using hbz
      show 0 ≤ (getBank (issue_place s s.pc b j) b' i).dest ∧
        (getBank (issue_place s s.pc b j) b' i).dest < s.pc + 1 ∧
        ((issue_place s s.pc b j).instructions
            (getBank (issue_place s s.pc b j) b' i).dest).issued +
          latency ((issue_place s s.pc b j).instructions
            (getBank (issue_place s s.pc b j) b' i).dest).op ≤
        (issue_place s s.pc b j).current_cycle +
          (getBank (issue_place s s.pc b j) b' i).time_remaining + 0
      rw [issue_place_current_cycle, issue_place_instructions, setIssued_op, setIssued_issued]
      rw [issue_place_getBank] at hbz' ⊢
      by_cases hnew : b' = b ∧ i = j
      · rw [if_pos hnew]
        obtain ⟨e1, e2⟩ := hnew
        subst e1; subst e2
        have hop : (s.instructions s.pc).op ≠ STORE := by
          intro hst
          rw [hst] at hb
          rcases hb' with e | e <;> rw [e] at hb <;> simp [bankOf] at hb
        have hd : (s.instructions s.pc).dest = s.pc := h.own s.pc hpc0 hlt hop
        rw [issue_station_dest, issue_station_time, hd, if_pos ⟨rfl, hrange⟩]
        exact ⟨hpc0, by omega, by omega⟩
      · rw [if_neg hnew] at hbz' ⊢
        have hs := h.stations b' i hb' hbz'
        rw [if_neg (by intro hc; have := hc.1; omega)]
        exact ⟨hs.1, by omega, hs.2.2⟩
    · intro k hk
      have hk' : ((issue_place s s.pc b j).instructions k).written ≠ 0 := hk
      show ((issue_place s s.pc b j).instructions k).issued +
        latency ((issue_place s s.pc b j).instructions k).op - 1 ≤
        ((issue_place s s.pc b j).instructions k).written
      rw [issue_place_instructions, setIssued_written] at hk'
      rw [issue_place_instructions, setIssued_written, setIssued_op, setIssued_issued]
      have hkpc : k ≠ s.pc := by
        intro e; apply hk'; exact h.unwritten k (Or.inr (by omega))
      rw [if_neg (by intro hc; exact hkpc hc.1)]
      exact h.written k hk'

theorem LatencyInv_run (prog : List (Decoded F))
    (hown : ∀ (k : Nat) (hk : k < prog.length), prog[k].op ≠ STORE → prog[k].dest = (k : Int))
    (n : Nat) : LatencyInv 0 (run prog n) := by
  apply run_inv (LatencyInv 0) (LatencyInv 0) (LatencyInv 1)
  · exact LatencyInv_start prog hown
  · exact LatencyInv_issue_phase
  · exact LatencyInv_execute
  · intro s h
    exact writeback_results_inv (LatencyInv 1) s h (fun i t _ => LatencyInv_wb_add i t)
      (fun i t _ => LatencyInv_wb_load i t) (fun i t _ => LatencyInv_wb_store i t)
  · intro s h
    refine ⟨h.pc_nonneg, h.pc_le, h.count_le, h.own, h.unwritten, ?_, h.written⟩
    intro b i hb hbz
    have hbz' : (getBank s b i).busy ≠ 0 := by simpa using hbz
    have hs := h.stations b i hb hbz'
    show 0 ≤ (getBank s b i).dest ∧ (getBank s b i).dest < s.pc ∧
      (s.instructions (getBank s b i).dest).issued +
        latency (s.instructions (getBank s b i).dest).op ≤
      s.current_cycle + 1 + (getBank s b i).time_remaining + 0
    exact ⟨hs.1, hs.2.1, by omega⟩

end Latency2

/-! ## The result of `issue_instruction` when a station is free -/

section IssueSuccess

/-- When station `j` is the first free station of the bank of `instructions[idx]`,
`issue_instruction` places the instruction there and returns 1. -/
theorem issue_instruction_first_free (s : Sim F) (idx : Int) (b : Bank) (j : Nat)
    (hb : bankOf (s.instructions idx).op = some b) (hj : j < capacity b)
    (hfree : (getBank s b j).busy = 0)
    (hfirst : ∀ j', j' < j → (getBank s b j').busy ≠ 0) :
    issue_instruction s idx = (issue_place s idx b j, 1) := by
  unfold issue_instruction
  rw [hb]
  rcases issue_loop_cases s idx b (capacity b) 0 with ⟨hall, _⟩ | ⟨i, _, h2, h3, h4, heq⟩
  · exact absurd hfree (hall j (Nat.zero_le _) (by omega))
  · have hij : i = j := by
      rcases Nat.lt_trichotomy i j with h | h | h
      · exact absurd h3 (hfirst i h)
      · exact h
      · exact absurd hfree (h4 j (Nat.zero_le _) h)
    subst hij
    simpa using heq

omit [FloatOps F] in
/-- A bank with a free station has a first free station. -/
theorem exists_first_free (s : Sim F) (b : Bank)
    (h : ∃ j, j < capacity b ∧ (getBank s b j).busy = 0) :
    ∃ j, j < capacity b ∧ (getBank s b j).busy = 0 ∧
      ∀ j', j' < j → (getBank s b j').busy ≠ 0 := by
  classical
  obtain ⟨j, hj, hfree⟩ := h
  let p : Nat → Prop := fun k => (getBank s b k).busy = 0
  have hex : ∃ k, p k := ⟨j, hfree⟩
  refine ⟨Nat.find hex, ?_, Nat.find_spec hex, fun j' hj' => Nat.find_min hex hj'⟩
  exact lt_of_le_of_lt (Nat.find_min' hex hfree) hj

theorem issue_phase_first_free (s : Sim F) (b : Bank) (j : Nat)
    (hpc : s.pc < s.instruction_count)
    (hb : bankOf (s.instructions s.pc).op = some b) (hj : j < capacity b)
    (hfree : (getBank s b j).busy = 0)
    (hfirst : ∀ j', j' < j → (getBank s b j').busy ≠ 0) :
    issue_phase s = { issue_place s s.pc b j with pc := s.pc + 1 } := by
  unfold issue_phase
  rw [if_pos hpc, issue_instruction_first_free s s.pc b j hb hj hfree hfirst]
  simp

theorem latency_ge_two (op : OperationType) (b : Bank) (h : bankOf op = some b) :
    2 ≤ latency op := by
  cases op <;> simp [bankOf, latency] at h ⊢

end IssueSuccess

/-! ## The station filled by `issue_instruction` -/

section IssueStation

theorem issue_station_arith (s : Sim F) (instr : Instruction F) (st : ReservationStation F)
    (hop : instr.op = ADD ∨ instr.op = SUB ∨ instr.op = MUL ∨ instr.op = DIV) :
    (issue_station s instr st).Qj = s.register_status instr.src1 ∧
    (issue_station s instr st).Qk = s.register_status instr.src2 ∧
    (s.register_status instr.src1 = 0 →
      (issue_station s instr st).Vj = s.registers instr.src1) ∧
    (s.register_status instr.src2 = 0 →
      (issue_station s instr st).Vk = s.registers instr.src2) := by
  unfold issue_station
  rcases hop with h | h | h | h <;> simp only [h] <;> simp <;>
    refine ⟨?_, ?_⟩ <;> intro h0 <;> simp [wireJ, wireK, h0] <;>
    (try (split <;> simp [h0]))

theorem issue_station_load (s : Sim F) (instr : Instruction F) (st : ReservationStation F)
    (hop : instr.op = LOAD) :
    (issue_station s instr st).A = FloatOps.toInt instr.immediate ∧
    (issue_station s instr st).Qj = s.register_status instr.src1 ∧
    (s.register_status instr.src1 = 0 →
      (issue_station s instr st).Vj = s.registers instr.src1) ∧
    (issue_station s instr st).Qk = st.Qk ∧ (issue_station s instr st).Vk = st.Vk := by
  unfold issue_station
  simp only [hop]
  by_cases h0 : s.register_status instr.src1 = 0 <;> simp [wireJ, h0]

end IssueStation

/-! ## The program counter along a run -/

section ProgramCounter

theorem issue_instruction_pc (s : Sim F) (idx : Int) : (issue_instruction s idx).1.pc = s.pc := by
  unfold issue_instruction
  cases hb : bankOf (s.instructions idx).op with
  | none => rfl
  | some b =>
    rcases issue_loop_cases s idx b (capacity b) 0 with ⟨_, heq⟩ | ⟨j, _, _, _, _, heq⟩
    · simp [heq]
    · simp [heq]

theorem issue_phase_pc (s : Sim F) :
    (issue_phase s).pc = if issuesAt s then s.pc + 1 else s.pc := by
  unfold issue_phase issuesAt
  by_cases hpc : s.pc < s.instruction_count
  · by_cases hr : (issue_instruction s s.pc).2 ≠ 0
    · rw [if_pos hpc, if_pos hr, if_pos ⟨hpc, hr⟩]
      show (issue_instruction s s.pc).1.pc + 1 = _
      rw [issue_instruction_pc]
    · rw [if_pos hpc, if_neg hr, if_neg (fun h => hr h.2), issue_instruction_pc]
  · rw [if_neg hpc, if_neg (fun h => hpc h.1)]

theorem run_succ_pc (prog : List (Decoded F)) (n : Nat) :
    (run prog (n + 1)).pc =
      if issuesAt (run prog n) then (run prog n).pc + 1 else (run prog n).pc := by
  show (run_cycle (run prog n)).pc = _
  rw [run_cycle_pc, issue_phase_pc]

theorem run_pc_mono (prog : List (Decoded F)) (n m : Nat) (h : n ≤ m) :
    (run prog n).pc ≤ (run prog m).pc := by
  induction m with
  | zero =>
    have : n = 0 := by omega
    subst this; exact le_refl _
  | succ k ih =>
    by_cases hk : n ≤ k
    · have h1 := ih hk
      rw [run_succ_pc]
      split <;> omega
    · have : n = k + 1 := by omega
      subst this; exact le_refl _

end ProgramCounter

/-! ## Stations that the write-back phase leaves alone -/

section Unfinished

theorem run_cycle_getBank (s : Sim F) (b : Bank) :
    getBank (run_cycle s) b = getBank (writeback_results (execute_operations (issue_phase s))) b := by
  simp only [run_cycle, getBank_with_cycle]

/-- A busy station whose countdown is not 0 is still busy, with the same
countdown, after `writeback_results`. -/
theorem writeback_keeps_unfinished (s : Sim F) (b : Bank) (j : Nat)
    (hbusy : (getBank s b j).busy ≠ 0) (htime : 1 ≤ (getBank s b j).time_remaining) :
    (getBank (writeback_results s) b j).busy ≠ 0 ∧
    1 ≤ (getBank (writeback_results s) b j).time_remaining := by
  apply writeback_results_inv
    (fun t => (getBank t b j).busy ≠ 0 ∧ 1 ≤ (getBank t b j).time_remaining) s ⟨hbusy, htime⟩
  · intro i t _ ht
    refine ⟨?_, by rw [wb_add_step_time]; exact ht.2⟩
    rw [wb_add_step_busy]
    split
    · rename_i hc
      obtain ⟨⟨e1, e2⟩, _, h0⟩ := hc
      subst e1; subst e2
      have := ht.2
      simp only [getBank] at this
      omega
    · exact ht.1
  · intro i t _ ht
    refine ⟨?_, by rw [wb_load_step_time]; exact ht.2⟩
    rw [wb_load_step_busy]
    split
    · rename_i hc
      obtain ⟨⟨e1, e2⟩, _, h0⟩ := hc
      subst e1; subst e2
      have := ht.2
      simp only [getBank] at this
      omega
    · exact ht.1
  · intro i t _ ht
    refine ⟨?_, by rw [wb_store_step_time]; exact ht.2⟩
    rw [wb_store_step_busy]
    split
    · rename_i hc
      obtain ⟨⟨e1, e2⟩, _, h0⟩ := hc
      subst e1; subst e2
      have := ht.2
      simp only [getBank] at this
      omega
    · exact ht.1

end Unfinished

/-! ## Awaited tags across the phases -/

section Resolved

omit [FloatOps F] in
theorem QCleared_refl (st : ReservationStation F) : QCleared st st :=
  ⟨Or.inr rfl, Or.inr rfl⟩

omit [FloatOps F] in
theorem QCleared_bcastJ (t : Int) (r : F) (st : ReservationStation F) :
    QCleared st (bcastJ t r st) := by
  unfold bcastJ QCleared
  split
  · exact ⟨Or.inl rfl, Or.inr rfl⟩
  · exact ⟨Or.inr rfl, Or.inr rfl⟩

omit [FloatOps F] in
theorem QCleared_bcast (t : Int) (r : F) (st : ReservationStation F) :
    QCleared st (bcast t r st) := by
  unfold bcast bcastK bcastJ QCleared
  split <;> split <;> simp_all

omit [FloatOps F] in
theorem QCleared_mapBelow (n : Nat) (f : ReservationStation F → ReservationStation F)
    (hf : ∀ st, QCleared st (f st)) (a : Nat → ReservationStation F) (k : Nat) :
    QCleared (a k) (mapBelow n f a k) := by
  rw [mapBelow_apply]
  split
  · exact hf _
  · exact QCleared_refl _

theorem wb_add_step_Q (i : Nat) (s : Sim F) (b : Bank) (k : Nat) :
    QCleared (getBank s b k) (getBank (wb_add_step i s) b k) := by
  by_cases hf : (s.add_rs i).busy ≠ 0 ∧ (s.add_rs i).time_remaining = 0
  · cases b <;> simp only [getBank, wb_add_step_add_rs, wb_add_step_mult_rs,
      wb_add_step_load_buffers, wb_add_step_store_buffers, if_pos hf]
    · rw [setRS_apply]
      split
      · rename_i hk
        subst hk
        exact QCleared_mapBelow _ _ (QCleared_bcast _ _) _ _
      · exact QCleared_mapBelow _ _ (QCleared_bcast _ _) _ _
    · exact QCleared_mapBelow _ _ (QCleared_bcast _ _) _ _
    · exact QCleared_mapBelow _ _ (QCleared_bcast _ _) _ _
    · exact QCleared_mapBelow _ _ (QCleared_bcast _ _) _ _
  · cases b <;> simp only [getBank, wb_add_step_add_rs, wb_add_step_mult_rs,
      wb_add_step_load_buffers, wb_add_step_store_buffers, if_neg hf] <;>
      exact QCleared_refl _

theorem wb_load_step_Q (i : Nat) (s : Sim F) (b : Bank) (k : Nat) :
    QCleared (getBank s b k) (getBank (wb_load_step i s) b k) := by
  by_cases hf : (s.load_buffers i).busy ≠ 0 ∧ (s.load_buffers i).time_remaining = 0
  · cases b <;> simp only [getBank, wb_load_step_add_rs, wb_load_step_mult_rs,
      wb_load_step_load_buffers, wb_load_step_store_buffers, if_pos hf]
    · exact QCleared_mapBelow _ _ (QCleared_bcastJ _ _) _ _
    · exact QCleared_refl _
    · rw [setRS_apply]
      split
      · rename_i hk
        subst hk
        exact QCleared_refl _
      · exact QCleared_refl _
    · exact QCleared_refl _
  · cases b <;> simp only [getBank, wb_load_step_add_rs, wb_load_step_mult_rs,
      wb_load_step_load_buffers, wb_load_step_store_buffers, if_neg hf] <;>
      exact QCleared_refl _

theorem wb_store_step_Q (i : Nat) (s : Sim F) (b : Bank) (k : Nat) :
    QCleared (getBank s b k) (getBank (wb_store_step i s) b k) := by
  by_cases hf : (s.store_buffers i).busy ≠ 0 ∧ (s.store_buffers i).time_remaining = 0
  · cases b <;> simp only [getBank, wb_store_step_add_rs, wb_store_step_mult_rs,
      wb_store_step_load_buffers, wb_store_step_store_buffers, if_pos hf]
    · exact QCleared_refl _
    · exact QCleared_refl _
    · exact QCleared_refl _
    · rw [setRS_apply]
      split
      · rename_i hk
        subst hk
        exact QCleared_refl _
      · exact QCleared_refl _
  · cases b <;> simp only [getBank, wb_store_step_add_rs, wb_store_step_mult_rs,
      wb_store_step_load_buffers, wb_store_step_store_buffers, if_neg hf] <;>
      exact QCleared_refl _

omit [FloatOps F] in
/-- Transfer of `ResolvedInv` across a step that frees stations at most, keeps
the countdowns and clears awaited tags at most. -/
theorem ResolvedInv_of_frame (s t : Sim F) (h : ResolvedInv s)
    (hbusy : ∀ b k, (getBank t b k).busy ≠ 0 → (getBank s b k).busy ≠ 0)
    (htime : ∀ b k, (getBank t b k).time_remaining = (getBank s b k).time_remaining)
    (hq : ∀ b k, QCleared (getBank s b k) (getBank t b k)) : ResolvedInv t := by
  refine ⟨?_, ?_⟩
  · intro b i hb ht
    rw [htime] at ht
    obtain ⟨h1, h2⟩ := h.1 b i (hbusy b i hb) ht
    obtain ⟨q1, q2⟩ := hq b i
    exact ⟨by rcases q1 with q | q; exact q; exact q.trans h1,
      by rcases q2 with q | q; exact q; exact q.trans h2⟩
  · intro i
    have q1 := (hq Bank.load i).2
    have q2 := (hq Bank.store i).2
    simp only [getBank] at q1 q2
    exact ⟨by rcases q1 with q | q; exact q; exact q.trans (h.2 i).1,
      by rcases q2 with q | q; exact q; exact q.trans (h.2 i).2⟩

theorem issue_station_Qk_mem (s : Sim F) (instr : Instruction F) (st : ReservationStation F)
    (hop : instr.op = LOAD ∨ instr.op = STORE) :
    (issue_station s instr st).Qk = st.Qk := by
  unfold issue_station
  rcases hop with h | h <;> simp only [h] <;>
    by_cases h0 : s.register_status instr.src1 = 0 <;> simp [wireJ, h0]

theorem ResolvedInv_issue_phase (s : Sim F) (h : ResolvedInv s) :
    ResolvedInv (issue_phase s) := by
  rcases issue_phase_cases s with ⟨heq, _⟩ | ⟨b, j, _, hb, hj, hfree, _, heq⟩
  · rw [heq]; exact h
  · rw [heq]
    have hlat := latency_ge_two (s.instructions s.pc).op b hb
    refine ⟨?_, ?_⟩
    · intro b' i hbz htz
      rw [getBank_with_pc, issue_place_getBank] at hbz htz ⊢
      by_cases hnew : b' = b ∧ i = j
      · rw [if_pos hnew] at htz
        rw [issue_station_time] at htz
        omega
      · rw [if_neg hnew] at hbz htz ⊢
        exact h.1 b' i hbz htz
    · intro i
      have hl : ({ issue_place s s.pc b j with pc := s.pc + 1 } : Sim F).load_buffers i =
          getBank (issue_place s s.pc b j) Bank.load i := rfl
      have hs : ({ issue_place s s.pc b j with pc := s.pc + 1 } : Sim F).store_buffers i =
          getBank (issue_place s s.pc b j) Bank.store i := rfl
      rw [hl, hs, issue_place_getBank, issue_place_getBank]
      constructor
      · split
        · rename_i hc
          obtain ⟨e1, e2⟩ := hc
          subst e1; subst e2
          have hop : (s.instructions s.pc).op = LOAD := by
            cases hop' : (s.instructions s.pc).op <;> simp [hop', bankOf] at hb ⊢
          rw [issue_station_Qk_mem _ _ _ (Or.inl hop)]
          exact (h.2 i).1
        · exact (h.2 i).1
      · split
        · rename_i hc
          obtain ⟨e1, e2⟩ := hc
          subst e1; subst e2
          have hop : (s.instructions s.pc).op = STORE := by
            cases hop' : (s.instructions s.pc).op <;> simp [hop', bankOf] at hb ⊢
          rw [issue_station_Qk_mem _ _ _ (Or.inr hop)]
          exact (h.2 i).2
        · exact (h.2 i).2

omit [FloatOps F] in
theorem ResolvedInv_execute (s : Sim F) (h : ResolvedInv s) :
    ResolvedInv (execute_operations s) := by
  refine ⟨?_, ?_⟩
  · intro b i hbz htz
    rw [execute_operations_getBank] at hbz htz ⊢
    by_cases hi : i < capacity b
    · rw [if_pos hi] at hbz htz ⊢
      rw [tick_busy] at hbz
      rw [tick_time] at htz
      rw [tick_Qj, tick_Qk]
      by_cases hr : execReady b (getBank s b i)
      · cases b
        · exact ⟨hr.2.1, hr.2.2.1⟩
        · exact ⟨hr.2.1, hr.2.2.1⟩
        · exact ⟨hr.2.1, (h.2 i).1⟩
        · exact ⟨hr.2.1, (h.2 i).2⟩
      · rw [if_neg hr] at htz
        exact h.1 b i hbz htz
    · rw [if_neg hi] at hbz htz ⊢
      exact h.1 b i hbz htz
  · intro i
    have hl : (execute_operations s).load_buffers i =
        getBank (execute_operations s) Bank.load i := rfl
    have hs : (execute_operations s).store_buffers i =
        getBank (execute_operations s) Bank.store i := rfl
    rw [hl, hs, execute_operations_getBank, execute_operations_getBank]
    constructor
    · split
      · rw [tick_Qk]; exact (h.2 i).1
      · exact (h.2 i).1
    · split
      · rw [tick_Qk]; exact (h.2 i).2
      · exact (h.2 i).2

theorem ResolvedInv_writeback (s : Sim F) (h : ResolvedInv s) :
    ResolvedInv (writeback_results s) := by
  apply writeback_results_inv ResolvedInv s h
  · intro i t _ ht
    apply ResolvedInv_of_frame t _ ht
    · intro b k hb
      rw [wb_add_step_busy] at hb
      split at hb
      · exact absurd rfl hb
      · exact hb
    · intro b k; exact wb_add_step_time i t b k
    · intro b k; exact wb_add_step_Q i t b k
  · intro i t _ ht
    apply ResolvedInv_of_frame t _ ht
    · intro b k hb
      rw [wb_load_step_busy] at hb
      split at hb
      · exact absurd rfl hb
      · exact hb
    · intro b k; exact wb_load_step_time i t b k
    · intro b k; exact wb_load_step_Q i t b k
  · intro i t _ ht
    apply ResolvedInv_of_frame t _ ht
    · intro b k hb
      rw [wb_store_step_busy] at hb
      split at hb
      · exact absurd rfl hb
      · exact hb
    · intro b k; exact wb_store_step_time i t b k
    · intro b k; exact wb_store_step_Q i t b k

theorem ResolvedInv_run (prog : List (Decoded F)) (n : Nat) : ResolvedInv (run prog n) := by
  apply run_inv ResolvedInv ResolvedInv ResolvedInv
  · refine ⟨?_, ?_⟩
    · intro b i hb
      rw [start_getBank] at hb
      exact absurd rfl hb
    · intro i
      have h1 := start_getBank prog Bank.load i
      have h2 := start_getBank prog Bank.store i
      simp only [getBank] at h1 h2
      rw [h1, h2]
      exact ⟨rfl, rfl⟩
  · exact ResolvedInv_issue_phase
  · exact ResolvedInv_execute
  · exact ResolvedInv_writeback
  · intro s h
    exact h

end Resolved

/-! ## Stations freed by `writeback_results` -/

section Freed

omit [FloatOps F] in
/-- A loop in which the iterations before `i` preserve `P`, iteration `i` turns
`P` into `Q` and the iterations after `i` preserve `Q`. -/
theorem forLoop_at {σ : Type} (P Q : σ → Prop) (body : Nat → σ → σ) (i n : Nat) (s : σ)
    (hi : i < n) (h0 : P s)
    (hlt : ∀ j t, j < i → P t → P (body j t))
    (hat : ∀ t, P t → Q (body i t))
    (hgt : ∀ j t, i < j → j < n → Q t → Q (body j t)) : Q (forLoop n body s) := by
  have hP : ∀ m, m ≤ i → P (forLoop m body s) := by
    intro m
    induction m with
    | zero => intro _; exact h0
    | succ k ih =>
      intro hk
      rw [forLoop_succ]
      exact hlt k _ (by omega) (ih (by omega))
  have hQ : ∀ m, i < m → m ≤ n → Q (forLoop m body s) := by
    intro m
    induction m with
    | zero => intro h; exact absurd h (Nat.not_lt_zero i)
    | succ k ih =>
      intro hk hkn
      rw [forLoop_succ]
      by_cases hik : i = k
      · subst hik
        exact hat _ (hP i (le_refl i))
      · exact hgt k _ (by omega) (by omega) (ih (by omega) (by omega))
  exact hQ n hi (le_refl n)

/-- A busy flag that is 0 stays 0 through `writeback_results`, and more
generally the busy flag of a station is its old value or 0. -/
theorem writeback_results_busy (s : Sim F) (b : Bank) (k : Nat) :
    (getBank (writeback_results s) b k).busy = 0 ∨
    (getBank (writeback_results s) b k).busy = (getBank s b k).busy := by
  apply writeback_results_inv
    (fun t => (getBank t b k).busy = 0 ∨ (getBank t b k).busy = (getBank s b k).busy) s
    (Or.inr rfl)
  · intro i t _ ht
    rw [wb_add_step_busy]
    split
    · exact Or.inl rfl
    · exact ht
  · intro i t _ ht
    rw [wb_load_step_busy]
    split
    · exact Or.inl rfl
    · exact ht
  · intro i t _ ht
    rw [wb_store_step_busy]
    split
    · exact Or.inl rfl
    · exact ht

/-- The busy flag of a mult station is not changed by `writeback_results`. -/
theorem writeback_results_mult_busy (s : Sim F) (k : Nat) :
    ((writeback_results s).mult_rs k).busy = (s.mult_rs k).busy := by
  apply writeback_results_inv
    (fun t => (t.mult_rs k).busy = (s.mult_rs k).busy) s rfl
  · intro i t _ ht
    have h := wb_add_step_busy i t Bank.mult k
    simp only [getBank] at h
    rw [h, if_neg (by simp)]
    exact ht
  · intro i t _ ht
    have h := wb_load_step_busy i t Bank.mult k
    simp only [getBank] at h
    rw [h, if_neg (by simp)]
    exact ht
  · intro i t _ ht
    have h := wb_store_step_busy i t Bank.mult k
    simp only [getBank] at h
    rw [h, if_neg (by simp)]
    exact ht

/-- The three loops preserve "busy with countdown 0" of a station until its own
iteration, and "free" afterwards. -/
theorem writeback_results_frees (s : Sim F) (b : Bank) (i : Nat) (hb : b ≠ Bank.mult)
    (hi : i < capacity b) (hbusy : (getBank s b i).busy ≠ 0)
    (htime : (getBank s b i).time_remaining = 0) :
    (getBank (writeback_results s) b i).busy = 0 := by
  have hP_add : ∀ (j : Nat) (t : Sim F), (b ≠ Bank.add ∨ j ≠ i) →
      ((getBank t b i).busy ≠ 0 ∧ (getBank t b i).time_remaining = 0) →
      ((getBank (wb_add_step j t) b i).busy ≠ 0 ∧
        (getBank (wb_add_step j t) b i).time_remaining = 0) := by
    intro j t hne ht
    rw [wb_add_step_busy, wb_add_step_time, if_neg]
    · exact ht
    · rintro ⟨⟨e1, e2⟩, _⟩
      rcases hne with h | h
      · exact h e1
      · exact h e2.symm
  have hP_load : ∀ (j : Nat) (t : Sim F), (b ≠ Bank.load ∨ j ≠ i) →
      ((getBank t b i).busy ≠ 0 ∧ (getBank t b i).time_remaining = 0) →
      ((getBank (wb_load_step j t) b i).busy ≠ 0 ∧
        (getBank (wb_load_step j t) b i).time_remaining = 0) := by
    intro j t hne ht
    rw [wb_load_step_busy, wb_load_step_time, if_neg]
    · exact ht
    · rintro ⟨⟨e1, e2⟩, _⟩
      rcases hne with h | h
      · exact h e1
      · exact h e2.symm
  have hP_store : ∀ (j : Nat) (t : Sim F), (b ≠ Bank.store ∨ j ≠ i) →
      ((getBank t b i).busy ≠ 0 ∧ (getBank t b i).time_remaining = 0) →
      ((getBank (wb_store_step j t) b i).busy ≠ 0 ∧
        (getBank (wb_store_step j t) b i).time_remaining = 0) := by
    intro j t hne ht
    rw [wb_store_step_busy, wb_store_step_time, if_neg]
    · exact ht
    · rintro ⟨⟨e1, e2⟩, _⟩
      rcases hne with h | h
      · exact h e1
      · exact h e2.symm
  have hQ_add : ∀ (j : Nat) (t : Sim F), (getBank t b i).busy = 0 → (getBank (wb_add_step j t) b i).busy = 0 := by
    intro j t ht
    rw [wb_add_step_busy]; split
    · rfl
    · exact ht
  have hQ_load : ∀ (j : Nat) (t : Sim F), (getBank t b i).busy = 0 →
      (getBank (wb_load_step j t) b i).busy = 0 := by
    intro j t ht
    rw [wb_load_step_busy]; split
    · rfl
    · exact ht
  have hQ_store : ∀ (j : Nat) (t : Sim F), (getBank t b i).busy = 0 →
      (getBank (wb_store_step j t) b i).busy = 0 := by
    intro j t ht
    rw [wb_store_step_busy]; split
    · rfl
    · exact ht
  unfold writeback_results
  cases b with
  | mult => exact absurd rfl hb
  | add =>
    apply forLoop_inv (fun t => (getBank t Bank.add i).busy = 0) _ _ _ _
      (fun j t _ ht => hQ_store j t ht)
    apply forLoop_inv (fun t => (getBank t Bank.add i).busy = 0) _ _ _ _
      (fun j t _ ht => hQ_load j t ht)
    apply forLoop_at
      (fun t => (getBank t Bank.add i).busy ≠ 0 ∧ (getBank t Bank.add i).time_remaining = 0)
      (fun t => (getBank t Bank.add i).busy = 0) wb_add_step i _ s hi ⟨hbusy, htime⟩
    · intro j t hj ht
      exact hP_add j t (Or.inr (by omega)) ht
    · intro t ht
      rw [wb_add_step_busy, if_pos]
      exact ⟨⟨rfl, rfl⟩, ht⟩
    · intro j t _ _ ht
      exact hQ_add j t ht
  | load =>
    apply forLoop_inv (fun t => (getBank t Bank.load i).busy = 0) _ _ _ _
      (fun j t _ ht => hQ_store j t ht)
    apply forLoop_at
      (fun t => (getBank t Bank.load i).busy ≠ 0 ∧ (getBank t Bank.load i).time_remaining = 0)
      (fun t => (getBank t Bank.load i).busy = 0) wb_load_step i _ _ hi
    · apply forLoop_inv (fun t => (getBank t Bank.load i).busy ≠ 0 ∧
        (getBank t Bank.load i).time_remaining = 0) _ _ _ ⟨hbusy, htime⟩
      intro j t _ ht
      exact hP_add j t (Or.inl (by decide)) ht
    · intro j t hj ht
      exact hP_load j t (Or.inr (by omega)) ht
    · intro t ht
      rw [wb_load_step_busy, if_pos]
      exact ⟨⟨rfl, rfl⟩, ht⟩
    · intro j t _ _ ht
      exact hQ_load j t ht
  | store =>
    apply forLoop_at
      (fun t => (getBank t Bank.store i).busy ≠ 0 ∧
        (getBank t Bank.store i).time_remaining = 0)
      (fun t => (getBank t Bank.store i).busy = 0) wb_store_step i _ _ hi
    · apply forLoop_inv (fun t => (getBank t Bank.store i).busy ≠ 0 ∧
        (getBank t Bank.store i).time_remaining = 0)
      · apply forLoop_inv (fun t => (getBank t Bank.store i).busy ≠ 0 ∧
          (getBank t Bank.store i).time_remaining = 0) _ _ _ ⟨hbusy, htime⟩
        intro j t _ ht
        exact hP_add j t (Or.inl (by decide)) ht
      · intro j t _ ht
        exact hP_load j t (Or.inl (by decide)) ht
    · intro j t hj ht
      exact hP_store j t (Or.inr (by omega)) ht
    · intro t ht
      rw [wb_store_step_busy, if_pos]
      exact ⟨⟨rfl, rfl⟩, ht⟩
    · intro j t _ _ ht
      exact hQ_store j t ht

end Freed

/-! ## The mult bank in the reachable states -/

section NoMult

theorem Decoded_op_cases (d : Decoded F) : d.op = ADD ∨ d.op = LOAD ∨ d.op = STORE := by
  cases d
  · exact Or.inl rfl
  · exact Or.inr (Or.inl rfl)
  · exact Or.inr (Or.inr rfl)

theorem NoMultInv_start (prog : List (Decoded F)) : NoMultInv (start prog) := by
  refine ⟨?_, ?_⟩
  · intro k
    unfold start
    apply load_instructions_inv (fun s => (s.instructions k).op = ADD ∨
      (s.instructions k).op = LOAD ∨ (s.instructions k).op = STORE)
    · intro s d hs
      unfold parse_instruction
      split
      · exact hs
      · simp only [writeAt_apply]
        split
        · exact Decoded_op_cases d
        · exact hs
    · exact Or.inl rfl
  · intro i
    have h := start_getBank prog Bank.mult i
    simp only [getBank] at h
    rw [h]; rfl

omit [FloatOps F] in
theorem NoMultInv_of_frame (s t : Sim F) (h : NoMultInv s) (hsame : SameDecode s t)
    (hbusy : ∀ k, (t.mult_rs k).busy = 0 ∨ (t.mult_rs k).busy = (s.mult_rs k).busy) :
    NoMultInv t := by
  refine ⟨fun k => ?_, fun i => ?_⟩
  · rw [(hsame k).1]; exact h.1 k
  · rcases hbusy i with hz | he
    · exact hz
    · rw [he]; exact h.2 i

theorem NoMultInv_issue_phase (s : Sim F) (h : NoMultInv s) : NoMultInv (issue_phase s) := by
  rcases issue_phase_cases s with ⟨heq, _⟩ | ⟨b, j, _, hb, hj, hfree, _, heq⟩
  · rw [heq]; exact h
  · rw [heq]
    have hbm : b ≠ Bank.mult := by
      intro e
      rw [e] at hb
      rcases h.1 s.pc with ho | ho | ho <;> rw [ho] at hb <;> simp [bankOf] at hb
    refine ⟨fun k => ?_, fun i => ?_⟩
    · show ((issue_place s s.pc b j).instructions k).op = ADD ∨ _
      rw [issue_place_instructions, setIssued_op]
      exact h.1 k
    · show (getBank (issue_place s s.pc b j) Bank.mult i).busy = 0
      rw [issue_place_getBank, if_neg (fun hc => hbm hc.1.symm)]
      exact h.2 i

theorem NoMultInv_run (prog : List (Decoded F)) (n : Nat) : NoMultInv (run prog n) := by
  apply run_inv NoMultInv NoMultInv NoMultInv
  · exact NoMultInv_start prog
  · exact NoMultInv_issue_phase
  · intro s h
    apply NoMultInv_of_frame s _ h (SameDecode_execute s)
    intro k
    right
    have hk := execute_operations_getBank Bank.mult k s
    simp only [getBank] at hk
    rw [hk]
    split
    · exact tick_busy _ _
    · rfl
  · intro s h
    apply NoMultInv_of_frame s _ h (SameDecode_writeback s)
    intro k
    exact Or.inr (writeback_results_mult_busy s k)
  · intro s h
    exact h

end NoMult

/-! ## The register file across `writeback_results` -/

section Commit

omit [FloatOps F] in
theorem bcast_of_resolved (t : Int) (r : F) (st : ReservationStation F) (ht : t ≠ 0)
    (hj : st.Qj = 0) (hk : st.Qk = 0) : bcast t r st = st := by
  have h1 : bcastJ t r st = st := by
    unfold bcastJ
    rw [if_neg (by rw [hj]; exact fun h => ht h.symm)]
  unfold bcast
  rw [h1]
  unfold bcastK
  rw [if_neg (by rw [hk]; exact fun h => ht h.symm)]

/-- An add station that waits on no tag is not changed by the write-back of
another add station. -/
theorem wb_add_step_add_rs_other (j i : Nat) (t : Sim F) (hne : j ≠ i)
    (hj : (t.add_rs i).Qj = 0) (hk : (t.add_rs i).Qk = 0) :
    (wb_add_step j t).add_rs i = t.add_rs i := by
  rw [wb_add_step_add_rs]
  split
  · rw [setRS_apply, if_neg (fun h => hne h.symm), mapBelow_apply]
    split
    · exact bcast_of_resolved _ _ _ (by omega) hj hk
    · rfl
  · rfl

omit [FloatOps F] in
/-- Transfer of `NoLaterWriter` across a step that frees stations at most and
keeps countdowns and destinations. -/
theorem NoLaterWriter_of_frame (b : Bank) (i : Nat) (d : Int) (s t : Sim F)
    (h : NoLaterWriter b i d s)
    (hbusy : ∀ b' k, (getBank t b' k).busy ≠ 0 → (getBank s b' k).busy ≠ 0)
    (htime : ∀ b' k, (getBank t b' k).time_remaining = (getBank s b' k).time_remaining)
    (hdest : ∀ b' k, (getBank t b' k).dest = (getBank s b' k).dest) :
    NoLaterWriter b i d t := by
  refine ⟨?_, ?_⟩
  · intro i' hi' ha hb ht
    have h1 := hbusy Bank.add i'
    have h2 := htime Bank.add i'
    have h3 := hdest Bank.add i'
    simp only [getBank] at h1 h2 h3
    rw [h3]
    exact h.1 i' hi' ha (h1 hb) (by rw [← h2]; exact ht)
  · intro i' hi' ha hb ht
    have h1 := hbusy Bank.load i'
    have h2 := htime Bank.load i'
    have h3 := hdest Bank.load i'
    simp only [getBank] at h1 h2 h3
    rw [h3]
    exact h.2 i' hi' ha (h1 hb) (by rw [← h2]; exact ht)

theorem NoLaterWriter_wb_add (b : Bank) (i : Nat) (d : Int) (j : Nat) (t : Sim F)
    (h : NoLaterWriter b i d t) : NoLaterWriter b i d (wb_add_step j t) := by
  apply NoLaterWriter_of_frame b i d t _ h
  · intro b' k hb
    rw [wb_add_step_busy] at hb
    split at hb
    · exact absurd rfl hb
    · exact hb
  · intro b' k; exact wb_add_step_time j t b' k
  · intro b' k; exact wb_add_step_dest j t b' k

theorem NoLaterWriter_wb_load (b : Bank) (i : Nat) (d : Int) (j : Nat) (t : Sim F)
    (h : NoLaterWriter b i d t) : NoLaterWriter b i d (wb_load_step j t) := by
  apply NoLaterWriter_of_frame b i d t _ h
  · intro b' k hb
    rw [wb_load_step_busy] at hb
    split at hb
    · exact absurd rfl hb
    · exact hb
  · intro b' k; exact wb_load_step_time j t b' k
  · intro b' k; exact wb_load_step_dest j t b' k

theorem NoLaterWriter_wb_store (b : Bank) (i : Nat) (d : Int) (j : Nat) (t : Sim F)
    (h : NoLaterWriter b i d t) : NoLaterWriter b i d (wb_store_step j t) := by
  apply NoLaterWriter_of_frame b i d t _ h
  · intro b' k hb
    rw [wb_store_step_busy] at hb
    split at hb
    · exact absurd rfl hb
    · exact hb
  · intro b' k; exact wb_store_step_time j t b' k
  · intro b' k; exact wb_store_step_dest j t b' k

/-- The write-back of a later add station leaves `registers[d]` alone. -/
theorem registers_wb_add_later (b : Bank) (i : Nat) (d : Int) (j : Nat) (t : Sim F)
    (hj : j < capacity Bank.add) (hafter : processedAfter b i Bank.add j)
    (h : NoLaterWriter b i d t) : (wb_add_step j t).registers d = t.registers d := by
  rw [wb_add_step_registers]
  split
  · rename_i hf
    have hne := h.1 j hj hafter hf.1 hf.2
    rw [writeAt_apply, if_neg (fun hc => hne hc.1.symm)]
  · rfl

/-- The write-back of a later load buffer leaves `registers[d]` alone. -/
theorem registers_wb_load_later (b : Bank) (i : Nat) (d : Int) (j : Nat) (t : Sim F)
    (hj : j < capacity Bank.load) (hafter : processedAfter b i Bank.load j)
    (h : NoLaterWriter b i d t) : (wb_load_step j t).registers d = t.registers d := by
  rw [wb_load_step_registers]
  split
  · rename_i hf
    have hne := h.2 j hj hafter hf.1 hf.2
    rw [writeAt_apply, if_neg (fun hc => hne hc.1.symm)]
  · rfl

/-- `registers[d]` after `writeback_results` is the result of the add station
that is the last finished writer of `d`. -/
theorem writeback_results_registers_add (s : Sim F) (i : Nat) (hi : i < capacity Bank.add)
    (hbusy : (s.add_rs i).busy ≠ 0) (htime : (s.add_rs i).time_remaining = 0)
    (hqj : (s.add_rs i).Qj = 0) (hqk : (s.add_rs i).Qk = 0)
    (hd0 : 0 ≤ (s.add_rs i).dest) (hd1 : (s.add_rs i).dest < 32)
    (hlast : NoLaterWriter Bank.add i (s.add_rs i).dest s) :
    (writeback_results s).registers (s.add_rs i).dest = add_result (s.add_rs i) := by
  have key : (writeback_results s).registers (s.add_rs i).dest = add_result (s.add_rs i) ∧
      NoLaterWriter Bank.add i (s.add_rs i).dest (writeback_results s) := by
    unfold writeback_results
    apply forLoop_inv (fun t => t.registers (s.add_rs i).dest = add_result (s.add_rs i) ∧
      NoLaterWriter Bank.add i (s.add_rs i).dest t)
    · apply forLoop_inv (fun t => t.registers (s.add_rs i).dest = add_result (s.add_rs i) ∧
        NoLaterWriter Bank.add i (s.add_rs i).dest t)
      · apply forLoop_at
          (fun t => t.add_rs i = s.add_rs i ∧ NoLaterWriter Bank.add i (s.add_rs i).dest t)
          (fun t => t.registers (s.add_rs i).dest = add_result (s.add_rs i) ∧
            NoLaterWriter Bank.add i (s.add_rs i).dest t) wb_add_step i _ s hi ⟨rfl, hlast⟩
        · intro j t hj ht
          refine ⟨?_, NoLaterWriter_wb_add _ _ _ j t ht.2⟩
          rw [wb_add_step_add_rs_other j i t (by omega) (by rw [ht.1]; exact hqj)
            (by rw [ht.1]; exact hqk)]
          exact ht.1
        · intro t ht
          refine ⟨?_, NoLaterWriter_wb_add _ _ _ i t ht.2⟩
          rw [wb_add_step_registers, ht.1, if_pos ⟨hbusy, htime⟩,
            writeAt_regs_same _ _ _ hd0 hd1]
        · intro j t hij hj ht
          refine ⟨?_, NoLaterWriter_wb_add _ _ _ j t ht.2⟩
          rw [registers_wb_add_later Bank.add i _ j t hj (Or.inr ⟨rfl, hij⟩) ht.2]
          exact ht.1
      · intro j t hj ht
        refine ⟨?_, NoLaterWriter_wb_load _ _ _ j t ht.2⟩
        rw [registers_wb_load_later Bank.add i _ j t hj (Or.inl ⟨rfl, rfl⟩) ht.2]
        exact ht.1
    · intro j t _ ht
      refine ⟨?_, NoLaterWriter_wb_store _ _ _ j t ht.2⟩
      rw [wb_store_step_registers]
      exact ht.1
  exact key.1

/-- `registers[d]` after `writeback_results` is `1.0` when the last finished
writer of `d` is a load buffer. -/
theorem writeback_results_registers_load (s : Sim F) (i : Nat) (hi : i < capacity Bank.load)
    (hbusy : (s.load_buffers i).busy ≠ 0) (htime : (s.load_buffers i).time_remaining = 0)
    (hd0 : 0 ≤ (s.load_buffers i).dest) (hd1 : (s.load_buffers i).dest < 32)
    (hlast : NoLaterWriter Bank.load i (s.load_buffers i).dest s) :
    (writeback_results s).registers (s.load_buffers i).dest = FloatOps.one := by
  have hkeep : ∀ (j : Nat) (t : Sim F),
      ((t.load_buffers i).busy ≠ 0 ∧ (t.load_buffers i).time_remaining = 0 ∧
        (t.load_buffers i).dest = (s.load_buffers i).dest) →
      (((wb_add_step j t).load_buffers i).busy ≠ 0 ∧
        ((wb_add_step j t).load_buffers i).time_remaining = 0 ∧
        ((wb_add_step j t).load_buffers i).dest = (s.load_buffers i).dest) := by
    intro j t ht
    have h1 := wb_add_step_busy j t Bank.load i
    have h2 := wb_add_step_time j t Bank.load i
    have h3 := wb_add_step_dest j t Bank.load i
    simp only [getBank] at h1 h2 h3
    rw [h1, h2, h3, if_neg (by simp)]
    exact ht
  have hkeep2 : ∀ (j : Nat) (t : Sim F), j ≠ i →
      ((t.load_buffers i).busy ≠ 0 ∧ (t.load_buffers i).time_remaining = 0 ∧
        (t.load_buffers i).dest = (s.load_buffers i).dest) →
      (((wb_load_step j t).load_buffers i).busy ≠ 0 ∧
        ((wb_load_step j t).load_buffers i).time_remaining = 0 ∧
        ((wb_load_step j t).load_buffers i).dest = (s.load_buffers i).dest) := by
    intro j t hne ht
    have h1 := wb_load_step_busy j t Bank.load i
    have h2 := wb_load_step_time j t Bank.load i
    have h3 := wb_load_step_dest j t Bank.load i
    simp only [getBank] at h1 h2 h3
    rw [h1, h2, h3, if_neg (fun hc => hne hc.1.2.symm)]
    exact ht
  have key : (writeback_results s).registers (s.load_buffers i).dest = FloatOps.one ∧
      NoLaterWriter Bank.load i (s.load_buffers i).dest (writeback_results s) := by
    unfold writeback_results
    apply forLoop_inv (fun t => t.registers (s.load_buffers i).dest = FloatOps.one ∧
      NoLaterWriter Bank.load i (s.load_buffers i).dest t)
    · apply forLoop_at
        (fun t => ((t.load_buffers i).busy ≠ 0 ∧ (t.load_buffers i).time_remaining = 0 ∧
          (t.load_buffers i).dest = (s.load_buffers i).dest) ∧
          NoLaterWriter Bank.load i (s.load_buffers i).dest t)
        (fun t => t.registers (s.load_buffers i).dest = FloatOps.one ∧
          NoLaterWriter Bank.load i (s.load_buffers i).dest t) wb_load_step i _ _ hi
      · apply forLoop_inv
          (fun t => ((t.load_buffers i).busy ≠ 0 ∧ (t.load_buffers i).time_remaining = 0 ∧
            (t.load_buffers i).dest = (s.load_buffers i).dest) ∧
            NoLaterWriter Bank.load i (s.load_buffers i).dest t) _ _ _
          ⟨⟨hbusy, htime, rfl⟩, hlast⟩
        intro j t _ ht
        exact ⟨hkeep j t ht.1, NoLaterWriter_wb_add _ _ _ j t ht.2⟩
      · intro j t hj ht
        exact ⟨hkeep2 j t (by omega) ht.1, NoLaterWriter_wb_load _ _ _ j t ht.2⟩
      · intro t ht
        refine ⟨?_, NoLaterWriter_wb_load _ _ _ i t ht.2⟩
        rw [wb_load_step_registers, if_pos ⟨ht.1.1, ht.1.2.1⟩, ht.1.2.2,
          writeAt_regs_same _ _ _ hd0 hd1]
      · intro j t hij hj ht
        refine ⟨?_, NoLaterWriter_wb_load _ _ _ j t ht.2⟩
        rw [registers_wb_load_later Bank.load i _ j t hj (Or.inr ⟨rfl, hij⟩) ht.2]
        exact ht.1
    · intro j t _ ht
      refine ⟨?_, NoLaterWriter_wb_store _ _ _ j t ht.2⟩
      rw [wb_store_step_registers]
      exact ht.1
  exact key.1

/-- An entry of `register_status` that is 0 is 0 after any write-back step. -/
theorem register_status_zero_wb (d : Int) (t : Sim F) (h : t.register_status d = 0) (j : Nat) :
    (wb_add_step j t).register_status d = 0 ∧ (wb_load_step j t).register_status d = 0 ∧
    (wb_store_step j t).register_status d = 0 := by
  refine ⟨?_, ?_, ?_⟩
  · rw [wb_add_step_register_status]
    split
    · rw [writeAt_apply]; split
      · rfl
      · exact h
    · exact h
  · rw [wb_load_step_register_status]
    split
    · rw [writeAt_apply]; split
      · rfl
      · exact h
    · exact h
  · rw [wb_store_step_register_status]; exact h

/-- `register_status[d]` is 0 after `writeback_results` when an add station or a
load buffer with destination `d` is busy at countdown 0. -/
theorem writeback_results_clears_status (s : Sim F) (b : Bank) (i : Nat)
    (hbank : b = Bank.add ∨ b = Bank.load) (hi : i < capacity b)
    (hbusy : (getBank s b i).busy ≠ 0) (htime : (getBank s b i).time_remaining = 0)
    (hd0 : 0 ≤ (getBank s b i).dest) (hd1 : (getBank s b i).dest < 32) :
    (writeback_results s).register_status (getBank s b i).dest = 0 := by
  have hP_add : ∀ (j : Nat) (t : Sim F), (b ≠ Bank.add ∨ j ≠ i) →
      ((getBank t b i).busy ≠ 0 ∧ (getBank t b i).time_remaining = 0 ∧
        (getBank t b i).dest = (getBank s b i).dest) →
      ((getBank (wb_add_step j t) b i).busy ≠ 0 ∧
        (getBank (wb_add_step j t) b i).time_remaining = 0 ∧
        (getBank (wb_add_step j t) b i).dest = (getBank s b i).dest) := by
    intro j t hne ht
    rw [wb_add_step_busy, wb_add_step_time, wb_add_step_dest, if_neg]
    · exact ht
    · rintro ⟨⟨e1, e2⟩, _⟩
      rcases hne with h | h
      · exact h e1
      · exact h e2.symm
  have hP_load : ∀ (j : Nat) (t : Sim F), (b ≠ Bank.load ∨ j ≠ i) →
      ((getBank t b i).busy ≠ 0 ∧ (getBank t b i).time_remaining = 0 ∧
        (getBank t b i).dest = (getBank s b i).dest) →
      ((getBank (wb_load_step j t) b i).busy ≠ 0 ∧
        (getBank (wb_load_step j t) b i).time_remaining = 0 ∧
        (getBank (wb_load_step j t) b i).dest = (getBank s b i).dest) := by
    intro j t hne ht
    rw [wb_load_step_busy, wb_load_step_time, wb_load_step_dest, if_neg]
    · exact ht
    · rintro ⟨⟨e1, e2⟩, _⟩
      rcases hne with h | h
      · exact h e1
      · exact h e2.symm
  show (forLoop MAX_STORE_BUFFERS wb_store_step (forLoop MAX_LOAD_BUFFERS wb_load_step
    (forLoop (MAX_RESERVATION_STATIONS / 2) wb_add_step s))).register_status
    (getBank s b i).dest = 0
  apply forLoop_inv (fun t : Sim F => t.register_status (getBank s b i).dest = 0)
  case hstep => exact fun j t _ ht => (register_status_zero_wb _ t ht j).2.2
  rcases hbank with rfl | rfl
  · apply forLoop_inv (fun t : Sim F => t.register_status (getBank s Bank.add i).dest = 0)
    case hstep => exact fun j t _ ht => (register_status_zero_wb _ t ht j).2.1
    apply forLoop_at
      (fun t => (getBank t Bank.add i).busy ≠ 0 ∧ (getBank t Bank.add i).time_remaining = 0 ∧
        (getBank t Bank.add i).dest = (getBank s Bank.add i).dest)
      (fun t : Sim F => t.register_status (getBank s Bank.add i).dest = 0) wb_add_step i _ s hi
      ⟨hbusy, htime, rfl⟩
    · intro j t hj ht
      exact hP_add j t (Or.inr (by omega)) ht
    · intro t ht
      have h1 := ht.1
      have h2 := ht.2.1
      have h3 := ht.2.2
      simp only [getBank] at h1 h2 h3 hd0 hd1 ⊢
      rw [wb_add_step_register_status, if_pos ⟨h1, h2⟩, h3, writeAt_regs_same _ _ _ hd0 hd1]
    · intro j t _ _ ht
      exact (register_status_zero_wb _ t ht j).1
  · apply forLoop_at
      (fun t => (getBank t Bank.load i).busy ≠ 0 ∧ (getBank t Bank.load i).time_remaining = 0 ∧
        (getBank t Bank.load i).dest = (getBank s Bank.load i).dest)
      (fun t : Sim F => t.register_status (getBank s Bank.load i).dest = 0) wb_load_step i _ _ hi
    · apply forLoop_inv
        (fun t => (getBank t Bank.load i).busy ≠ 0 ∧
          (getBank t Bank.load i).time_remaining = 0 ∧
          (getBank t Bank.load i).dest = (getBank s Bank.load i).dest) _ _ _
        ⟨hbusy, htime, rfl⟩
      intro j t _ ht
      exact hP_add j t (Or.inl (by decide)) ht
    · intro j t hj ht
      exact hP_load j t (Or.inr (by omega)) ht
    · intro t ht
      have h1 := ht.1
      have h2 := ht.2.1
      have h3 := ht.2.2
      simp only [getBank] at h1 h2 h3 hd0 hd1 ⊢
      rw [wb_load_step_register_status, if_pos ⟨h1, h2⟩, h3, writeAt_regs_same _ _ _ hd0 hd1]
    · intro j t _ _ ht
      exact (register_status_zero_wb _ t ht j).2.1

end Commit

/-! # The claims -/

/-! ## C1: commit to the register file -/

/-- C2: in every state reached from the start state by `run_cycle`, for every
register `r` in `0..31`, either `register_status[r] = 0` or there is a busy
station whose tag is `register_status[r]` and whose `dest` is `r`, and it is
the only busy station with that tag; the tag of station `i` is `i + 1` in the
add bank, `i + 7` in the mult bank, `i + 13` in the load buffers and `i + 17`
in the store buffers.  The program is arbitrary. -/
theorem register_status_invariant (prog : List (Decoded F)) (n : Nat) (r : Int)
    (hr0 : 0 ≤ r) (hr1 : r < 32) :
    ((run prog n).register_status r = 0 ∨
      ∃ b i, (i < capacity b ∧ (getBank (run prog n) b i).busy ≠ 0 ∧
          tagOf b i = (run prog n).register_status r ∧
          (getBank (run prog n) b i).dest = r) ∧
        ∀ b' i', i' < capacity b' → (getBank (run prog n) b' i').busy ≠ 0 →
          tagOf b' i' = (run prog n).register_status r → b' = b ∧ i' = i) ∧
    ∀ i : Nat, tagOf Bank.add i = (i : Int) + 1 ∧ tagOf Bank.mult i = (i : Int) + 7 ∧
      tagOf Bank.load i = (i : Int) + 13 ∧ tagOf Bank.store i = (i : Int) + 17 := by
  refine ⟨?_, fun i => ⟨tagOf_add i, tagOf_mult i, tagOf_load i, tagOf_store i⟩⟩
  by_cases h0 : (run prog n).register_status r = 0
  · exact Or.inl h0
  · right
    obtain ⟨b, i, _, h2, h3, h4, h5⟩ := RegStatusInv_run prog n r hr0 hr1 h0
    exact ⟨b, i, ⟨h2, h4, h3, h5⟩, fun b' i' hi' _ ht =>
      tagOf_injective b' b i' i hi' h2 (ht.trans h3.symm)⟩

/-- C2, instance: register `R1` after the first cycle of
`ADD R1 R2 R3 ; ADD R1 R2 R3`. -/
theorem register_status_invariant_witness :
    (0 : Int) ≤ 1 ∧ (1 : Int) < 32 ∧ (run waw_prog 1).register_status 1 = 1 ∧
    ((run waw_prog 1).register_status 1 = 0 ∨
      ∃ b i, (i < capacity b ∧ (getBank (run waw_prog 1) b i).busy ≠ 0 ∧
          tagOf b i = (run waw_prog 1).register_status 1 ∧
          (getBank (run waw_prog 1) b i).dest = 1) ∧
        ∀ b' i', i' < capacity b' → (getBank (run waw_prog 1) b' i').busy ≠ 0 →
          tagOf b' i' = (run waw_prog 1).register_status 1 → b' = b ∧ i' = i) :=
  ⟨by decide, by decide, by decide!,
    (register_status_invariant waw_prog 1 1 (by decide) (by decide)).1⟩

/-! ## C3: awaited tags -/

/-- C3 (code evaluated at the failing input): after two cycles of
`LOAD R1 0(R2) ; ADD R3 R2 R1` the add station 0 is busy and waits on tag 13
in `Qk`, while no busy station has tag 13: load buffer 0 has been freed and
its broadcast compared the tag with `add_rs[j].Qj` only. -/
theorem awaited_tag_without_producer :
    ((run load_use_prog 2).add_rs 0).busy ≠ 0 ∧ ((run load_use_prog 2).add_rs 0).Qk = 13 ∧
    ¬ ∃ b i, i < capacity b ∧ (getBank (run load_use_prog 2) b i).busy ≠ 0 ∧
        tagOf b i = 13 := by
  refine ⟨by decide!, by decide!, ?_⟩
  rintro ⟨b, i, hi, hb, ht⟩
  have h := tagOf_injective b Bank.load i 0 hi (by decide) (by simpa using ht)
  obtain ⟨rfl, rfl⟩ := h
  exact hb (by decide!)

/-! ## C4: the broadcast on the common data bus -/

/-- C4 (code evaluated at the failing input): in the second cycle of
`LOAD R1 0(R2) ; ADD R3 R2 R1`, `writeback_results` writes back load buffer 0
(tag 13, result 1.0) and frees it, but the busy add station 0 that had
`Qk = 13` still has `Qk = 13` and `Vk = 0` afterwards. -/
theorem load_broadcast_skips_Qk :
    (load_use_state.load_buffers 0).busy ≠ 0 ∧
    (load_use_state.load_buffers 0).time_remaining = 0 ∧
    tagOf Bank.load 0 = 13 ∧
    (load_use_state.add_rs 0).busy ≠ 0 ∧ (load_use_state.add_rs 0).Qk = 13 ∧
    ((writeback_results load_use_state).load_buffers 0).busy = 0 ∧
    (writeback_results load_use_state).registers 1 = 1 ∧
    ((writeback_results load_use_state).add_rs 0).busy ≠ 0 ∧
    ((writeback_results load_use_state).add_rs 0).Qk = 13 ∧
    ((writeback_results load_use_state).add_rs 0).Vk = 0 := by
  decide!

/-! ## C5: every eligible station is written back and freed -/

/-- C6 (code evaluated at the failing input): `ADD R5 R2 R3` is instruction 0
and is issued into add station 0; when that station finishes and is written
back, the timestamps that are set are those of `instructions[5]`, which is
not an instruction of the program, and those of instruction 0 stay 0. -/
theorem timestamps_go_to_dest_index :
    (run add5_prog 2).instruction_count = 1 ∧ (run add5_prog 2).pc = 1 ∧
    ((run add5_prog 1).add_rs 0).busy ≠ 0 ∧ ((run add5_prog 2).add_rs 0).busy = 0 ∧
    ((run add5_prog 2).instructions 0).executed = 0 ∧
    ((run add5_prog 2).instructions 0).written = 0 ∧
    ((run add5_prog 2).instructions 0).completed = 0 ∧
    ((run add5_prog 2).instructions 5).executed = 1 ∧
    ((run add5_prog 2).instructions 5).written = 1 ∧
    ((run add5_prog 2).instructions 5).completed = 1 := by
  decide!

/-! ## C7: order of the timestamps -/

/-- C7 (code evaluated at the failing input): after three cycles of
`ADD R2 R0 R1 ; ADD R3 R0 R1 ; ADD R4 R0 R1`, instruction 2 has `issued = 2`
and `executed = written = completed = 1`: both are set and `executed` is
smaller than `issued`. -/
theorem timestamps_not_monotone :
    (run three_adds_prog 3).instruction_count = 3 ∧
    ((run three_adds_prog 3).instructions 2).issued = 2 ∧
    ((run three_adds_prog 3).instructions 2).executed = 1 ∧
    ((run three_adds_prog 3).instructions 2).written = 1 ∧
    ((run three_adds_prog 3).instructions 2).completed = 1 ∧
    ((run three_adds_prog 3).instructions 2).executed <
      ((run three_adds_prog 3).instructions 2).issued := by
  decide!

/-! ## C8: the distance between `issued` and `written` -/

/-- C8 (as stated, refuted): in `ADD R0 R1 R2 ; ADD R1 R2 R3` instruction 1 is
issued in cycle 1 and written in cycle 2, one cycle before
`issued + latency(ADD) = 3`: the execute phase of the issue cycle already
counts. -/
theorem written_before_full_latency :
    (run own_index_prog 3).instruction_count = 2 ∧
    ((run own_index_prog 3).instructions 1).op = ADD ∧
    ((run own_index_prog 3).instructions 1).dest = 1 ∧
    ((run own_index_prog 3).instructions 1).issued = 1 ∧
    ((run own_index_prog 3).instructions 1).written = 2 ∧
    ((run own_index_prog 3).instructions 1).written <
      ((run own_index_prog 3).instructions 1).issued +
        latency ((run own_index_prog 3).instructions 1).op := by
  decide!

/-- C8 (amended): for a program in which every instruction that is not a Store
names its own program index as destination register (so that
`instructions[rs.dest]` is the instruction issued into the station), in every
state reached from the start state by `run_cycle`, every instruction whose
`written` timestamp is set has `written ≥ issued + latency(op) - 1`. -/
theorem written_after_latency_minus_one (prog : List (Decoded F))
    (hown : ∀ (k : Nat) (hk : k < prog.length), prog[k].op ≠ STORE → prog[k].dest = (k : Int))
    (n : Nat) (k : Int) (hk0 : 0 ≤ k) (hk1 : k < (run prog n).instruction_count)
    (hw : ((run prog n).instructions k).written ≠ 0) :
    ((run prog n).instructions k).written ≥
      ((run prog n).instructions k).issued + latency ((run prog n).instructions k).op - 1 :=
  (LatencyInv_run prog hown n).written k hw

/-- C8 (amended), instance: instruction 1 of `ADD R0 R1 R2 ; ADD R1 R2 R3`
after three cycles. -/
theorem written_after_latency_minus_one_witness :
    (∀ (k : Nat) (hk : k < own_index_prog.length),
      own_index_prog[k].op ≠ STORE → own_index_prog[k].dest = (k : Int)) ∧
    (1 : Int) < (run own_index_prog 3).instruction_count ∧
    ((run own_index_prog 3).instructions 1).written ≠ 0 ∧
    ((run own_index_prog 3).instructions 1).written ≥
      ((run own_index_prog 3).instructions 1).issued +
        latency ((run own_index_prog 3).instructions 1).op - 1 :=
  ⟨by decide, by decide!, by decide!,
    written_after_latency_minus_one own_index_prog (by decide) 3 1 (by decide) (by decide!)
      (by decide!)⟩

/-! ## C9: `pc` and the number of issued instructions -/

/-- C9 (as stated, refuted): after the first cycle of the one-instruction
program `ADD R1 R2 R3` the instruction has been issued (`pc = 1`, add station 0
busy) but its `issued` timestamp is the cycle number 0, so no instruction has
`issued` set and `pc` differs from that count. -/
theorem pc_differs_from_issued_count :
    (run single_add_prog 1).pc = 1 ∧ ((run single_add_prog 1).add_rs 0).busy ≠ 0 ∧
    ((run single_add_prog 1).instructions 0).issued = 0 ∧
    issuedCount (run single_add_prog 1) = 0 ∧
    (run single_add_prog 1).pc ≠ (issuedCount (run single_add_prog 1) : Int) := by
  decide!

/-- C9 (amended): in every state reached from the start state by `run_cycle`,
`pc` equals the number of instructions whose `issued` timestamp is nonzero,
plus one as soon as `pc > 0`: instruction 0 can only be issued in cycle 0,
where the timestamp stored is 0. -/
theorem pc_counts_issued (prog : List (Decoded F)) (n : Nat) :
    (run prog n).pc =
      (issuedCount (run prog n) : Int) + (if 0 < (run prog n).pc then 1 else 0) := by
  have h := IssuedInv_run prog n
  generalize run prog n = s at h ⊢
  have hcount : issuedCount s = s.pc.toNat - 1 := by
    unfold issuedCount
    have hcongr : (List.range s.instruction_count.toNat).countP
        (fun k : Nat => decide ((s.instructions (k : Int)).issued ≠ 0)) =
        (List.range s.instruction_count.toNat).countP
          (fun k : Nat => decide (1 ≤ k ∧ k < s.pc.toNat)) := by
      apply List.countP_congr
      intro k _
      simp only [decide_eq_true_eq]
      constructor
      · intro hne
        constructor
        · by_contra hk
          have hk0 : k = 0 := by omega
          subst hk0
          exact hne h.first
        · by_contra hk
          apply hne
          apply h.unissued
          right
          have := h.pc_nonneg
          omega
      · rintro ⟨h1, h2⟩
        apply h.later
        · omega
        · have := h.pc_nonneg
          omega
    rw [hcongr, countP_range_between]
    have h1 := h.pc_nonneg
    have h2 := h.pc_le
    omega
  rw [hcount]
  have h1 := h.pc_nonneg
  split <;> omega

/-! ## C10: a failed issue changes nothing -/

/-- C10: when every station of the bank that `instructions[idx]` needs is
busy, `issue_instruction` returns 0 and the state it returns is the state it
was given (registers, register status, the four banks and all timestamps
included); when `idx` is `pc`, the issue phase of `run_cycle` returns the
state unchanged, `pc` is the same after the whole `run_cycle`, and the decoded
fields of the instruction at `pc` are the same, so the same instruction is the
issue target of the next cycle. -/
theorem issue_failure_is_atomic (s : Sim F) (idx : Int) (b : Bank)
    (hb : bankOf (s.instructions idx).op = some b)
    (hfull : ∀ i, i < capacity b → (getBank s b i).busy ≠ 0) :
    issue_instruction s idx = (s, 0) ∧
    (idx = s.pc → issue_phase s = s ∧ (run_cycle s).pc = s.pc ∧
      ((run_cycle s).instructions s.pc).op = (s.instructions s.pc).op ∧
      ((run_cycle s).instructions s.pc).dest = (s.instructions s.pc).dest ∧
      ((run_cycle s).instructions s.pc).src1 = (s.instructions s.pc).src1 ∧
      ((run_cycle s).instructions s.pc).src2 = (s.instructions s.pc).src2) := by
  have hissue : issue_instruction s idx = (s, 0) := by
    unfold issue_instruction
    rw [hb]
    rcases issue_loop_cases s idx b (capacity b) 0 with ⟨_, heq⟩ | ⟨j, _, h2, h3, _, _⟩
    · exact heq
    · exact absurd h3 (hfull j (by omega))
  refine ⟨hissue, ?_⟩
  intro hidx
  subst hidx
  have hphase : issue_phase s = s := by
    unfold issue_phase
    rw [hissue]
    simp
  have hsd := run_cycle_SameDecode s
  rw [hphase] at hsd
  refine ⟨hphase, ?_, (hsd _).1, (hsd _).2.1, (hsd _).2.2.1, (hsd _).2.2.2.1⟩
  rw [run_cycle_pc, hphase]

/-- C10, instance: after seven cycles of `stall_prog` the six add stations are
all busy (station 0 waits on the load buffer in its `Qk`, the other five wait on
station 0) and instruction 7, an add, cannot be issued. -/
theorem issue_failure_is_atomic_witness :
    bankOf ((run stall_prog 7).instructions 7).op = some Bank.add ∧
    (∀ i, i < capacity Bank.add → (getBank (run stall_prog 7) Bank.add i).busy ≠ 0) ∧
    (run stall_prog 7).pc = 7 ∧
    issue_instruction (run stall_prog 7) 7 = (run stall_prog 7, 0) :=
  ⟨by decide!, by decide!, by decide!,
    (issue_failure_is_atomic (run stall_prog 7) 7 Bank.add (by decide!) (by decide!)).1⟩

/-! ## C11: a successful issue -/

/-- C11: when the bank of `instructions[idx]` (an Add, Sub, Mul, Div, Load or
Store; `idx` inside the table) has a free station, `issue_instruction` returns
1; one station `j` of that bank that was free is now busy and holds the
operation and destination of the instruction with `time_remaining` equal to
the latency of the operation (2, 2, 10, 40, 2, 2); every other station of
every bank is unchanged; the `issued` timestamp of the instruction is
`current_cycle`; and `run_cycle`, for which `idx` is `pc`, increments `pc`
by one. -/
theorem issue_success_postcondition (s : Sim F) (idx : Int) (b : Bank)
    (hb : bankOf (s.instructions idx).op = some b)
    (hfree : ∃ j, j < capacity b ∧ (getBank s b j).busy = 0)
    (hidx0 : 0 ≤ idx) (hidx1 : idx < (MAX_INSTRUCTIONS : Int)) :
    (issue_instruction s idx).2 = 1 ∧
    (∃ j, j < capacity b ∧ (getBank s b j).busy = 0 ∧
      (getBank (issue_instruction s idx).1 b j).busy = 1 ∧
      (getBank (issue_instruction s idx).1 b j).op = (s.instructions idx).op ∧
      (getBank (issue_instruction s idx).1 b j).dest = (s.instructions idx).dest ∧
      (getBank (issue_instruction s idx).1 b j).time_remaining =
        latency (s.instructions idx).op ∧
      ∀ b' k, b' ≠ b ∨ k ≠ j →
        getBank (issue_instruction s idx).1 b' k = getBank s b' k) ∧
    (latency ADD = 2 ∧ latency SUB = 2 ∧ latency MUL = 10 ∧ latency DIV = 40 ∧
      latency LOAD = 2 ∧ latency STORE = 2) ∧
    ((issue_instruction s idx).1.instructions idx).issued = s.current_cycle ∧
    (idx = s.pc → s.pc < s.instruction_count → (run_cycle s).pc = s.pc + 1) := by
  obtain ⟨j, hj, hfj, hfirst⟩ := exists_first_free s b hfree
  have heq := issue_instruction_first_free s idx b j hb hj hfj hfirst
  rw [heq]
  refine ⟨rfl, ⟨j, hj, hfj, ?_, ?_, ?_, ?_, ?_⟩, ⟨rfl, rfl, rfl, rfl, rfl, rfl⟩, ?_, ?_⟩
  · simp [issue_place_getBank]
  · simp [issue_place_getBank]
  · simp [issue_place_getBank]
  · simp [issue_place_getBank]
  · intro b' k hne
    show getBank (issue_place s idx b j) b' k = getBank s b' k
    rw [issue_place_getBank, if_neg]
    rintro ⟨e1, e2⟩
    rcases hne with h | h
    · exact h e1
    · exact h e2
  · show ((issue_place s idx b j).instructions idx).issued = s.current_cycle
    rw [issue_place_instructions, setIssued_issued, if_pos ⟨rfl, hidx0, hidx1⟩]
  · intro hidx hpc
    subst hidx
    rw [run_cycle_pc, issue_phase_first_free s b j hpc hb hj hfj hfirst]

/-- C11, instance: the issue of `ADD R1 R2 R3` in the start state. -/
theorem issue_success_postcondition_witness :
    bankOf ((start single_add_prog).instructions 0).op = some Bank.add ∧
    (∃ j, j < capacity Bank.add ∧ (getBank (start single_add_prog) Bank.add j).busy = 0) ∧
    (issue_instruction (start single_add_prog) 0).2 = 1 ∧
    ((issue_instruction (start single_add_prog) 0).1.instructions 0).issued =
      (start single_add_prog).current_cycle :=
  ⟨by decide!, ⟨0, by decide, by decide!⟩,
    (issue_success_postcondition (start single_add_prog) 0 Bank.add (by decide!)
      ⟨0, by decide, by decide!⟩ (by decide) (by decide)).1,
    (issue_success_postcondition (start single_add_prog) 0 Bank.add (by decide!)
      ⟨0, by decide, by decide!⟩ (by decide) (by decide)).2.2.2.1⟩

/-! ## C12: renaming with global tags -/

/-- C12: when `issue_instruction` places `instructions[idx]` in station `j`
(the first free one) of its bank `b`: for an operation other than Store whose
`dest` is a register index, `register_status[dest]` becomes the tag of the
station, `bank_base + j + 1` with base 0, 6, 12 for the add, mult and load
bank, whatever it held before, and no other entry changes; for a Store no
entry changes.  The tags of the stations lie in `1..20`, distinct stations
have distinct tags, and every value in `1..20` is the tag of a station. -/
theorem renaming_with_global_tags (s : Sim F) (idx : Int) (b : Bank) (j : Nat)
    (hb : bankOf (s.instructions idx).op = some b) (hj : j < capacity b)
    (hfree : (getBank s b j).busy = 0)
    (hfirst : ∀ j', j' < j → (getBank s b j').busy ≠ 0) :
    issue_instruction s idx = (issue_place s idx b j, 1) ∧
    ((s.instructions idx).op ≠ STORE → 0 ≤ (s.instructions idx).dest →
      (s.instructions idx).dest < (MAX_REGISTERS : Int) →
      (issue_instruction s idx).1.register_status (s.instructions idx).dest = tagOf b j) ∧
    ((s.instructions idx).op ≠ STORE → ∀ r, r ≠ (s.instructions idx).dest →
      (issue_instruction s idx).1.register_status r = s.register_status r) ∧
    ((s.instructions idx).op = STORE →
      ∀ r, (issue_instruction s idx).1.register_status r = s.register_status r) ∧
    (∀ i : Nat, tagOf Bank.add i = 0 + (i : Int) + 1 ∧ tagOf Bank.mult i = 6 + (i : Int) + 1 ∧
      tagOf Bank.load i = 12 + (i : Int) + 1) ∧
    (∀ b' i, i < capacity b' → 1 ≤ tagOf b' i ∧ tagOf b' i ≤ 20) ∧
    (∀ b₁ b₂ i₁ i₂, i₁ < capacity b₁ → i₂ < capacity b₂ → tagOf b₁ i₁ = tagOf b₂ i₂ →
      b₁ = b₂ ∧ i₁ = i₂) ∧
    (∀ t : Int, 1 ≤ t → t ≤ 20 → ∃ b' i, i < capacity b' ∧ tagOf b' i = t) := by
  have heq := issue_instruction_first_free s idx b j hb hj hfree hfirst
  refine ⟨heq, ?_, ?_, ?_, ?_, ?_, ?_, ?_⟩
  · intro hop h0 h1
    rw [heq]
    show (issue_place s idx b j).register_status (s.instructions idx).dest = tagOf b j
    simp only [MAX_REGISTERS, Nat.cast_ofNat] at h1
    rw [issue_place_register_status, if_pos hop, writeAt_regs_same _ _ _ h0 h1]
  · intro hop r hr
    rw [heq]
    show (issue_place s idx b j).register_status r = s.register_status r
    rw [issue_place_register_status, if_pos hop, writeAt_apply, if_neg]
    exact fun hc => hr hc.1
  · intro hop r
    rw [heq]
    show (issue_place s idx b j).register_status r = s.register_status r
    rw [issue_place_register_status, if_neg (by simp [hop])]
  · intro i
    refine ⟨?_, ?_, ?_⟩
    · rw [tagOf_add]; omega
    · rw [tagOf_mult]; omega
    · rw [tagOf_load]; omega
  · intro b' i hi
    cases b' <;> simp at hi ⊢ <;> omega
  · intro b₁ b₂ i₁ i₂ h1 h2 h
    exact tagOf_injective b₁ b₂ i₁ i₂ h1 h2 h
  · intro t h1 h20
    obtain ⟨m, rfl⟩ := Int.eq_ofNat_of_zero_le (by omega : 0 ≤ t)
    by_cases ha : m ≤ 6
    · exact ⟨Bank.add, m - 1, by simp; omega, by simp; omega⟩
    · by_cases hm : m ≤ 12
      · exact ⟨Bank.mult, m - 7, by simp; omega, by simp; omega⟩
      · by_cases hl : m ≤ 16
        · exact ⟨Bank.load, m - 13, by simp; omega, by simp; omega⟩
        · exact ⟨Bank.store, m - 17, by simp; omega, by simp; omega⟩

/-- C12, instance: the issue of `ADD R1 R2 R3` in the start state gives
`register_status[1]` the tag 1 of add station 0. -/
theorem renaming_with_global_tags_witness :
    bankOf ((start single_add_prog).instructions 0).op = some Bank.add ∧
    (getBank (start single_add_prog) Bank.add 0).busy = 0 ∧
    ((start single_add_prog).instructions 0).dest = 1 ∧
    (issue_instruction (start single_add_prog) 0).1.register_status 1 = 1 :=
  ⟨by decide!, by decide!, by decide!,
    (renaming_with_global_tags (start single_add_prog) 0 Bank.add 0 (by decide!) (by decide)
      (by decide!) (fun j' h => absurd h (Nat.not_lt_zero j'))).2.1 (by decide!) (by decide!)
      (by decide!)⟩

/-! ## C13: operand wiring of the arithmetic operations -/

/-- C13: when `issue_instruction` places an Add, Sub, Mul or Div in station `j`
(the first free one) of its bank, then, with `register_status` and `registers`
taken in the state before the issue: `Qj` is `register_status[src1]` and, when
that is 0, `Vj` is `registers[src1]`; `Qk` is `register_status[src2]` and,
when that is 0, `Vk` is `registers[src2]`.  Nothing is assumed about `dest`,
which may be one of the sources. -/
theorem arithmetic_operand_wiring (s : Sim F) (idx : Int) (b : Bank) (j : Nat)
    (hop : (s.instructions idx).op = ADD ∨ (s.instructions idx).op = SUB ∨
      (s.instructions idx).op = MUL ∨ (s.instructions idx).op = DIV)
    (hb : bankOf (s.instructions idx).op = some b) (hj : j < capacity b)
    (hfree : (getBank s b j).busy = 0)
    (hfirst : ∀ j', j' < j → (getBank s b j').busy ≠ 0) :
    issue_instruction s idx = (issue_place s idx b j, 1) ∧
    (s.register_status (s.instructions idx).src1 = 0 →
      (getBank (issue_instruction s idx).1 b j).Vj = s.registers (s.instructions idx).src1 ∧
      (getBank (issue_instruction s idx).1 b j).Qj = 0) ∧
    (s.register_status (s.instructions idx).src1 ≠ 0 →
      (getBank (issue_instruction s idx).1 b j).Qj =
        s.register_status (s.instructions idx).src1) ∧
    (s.register_status (s.instructions idx).src2 = 0 →
      (getBank (issue_instruction s idx).1 b j).Vk = s.registers (s.instructions idx).src2 ∧
      (getBank (issue_instruction s idx).1 b j).Qk = 0) ∧
    (s.register_status (s.instructions idx).src2 ≠ 0 →
      (getBank (issue_instruction s idx).1 b j).Qk =
        s.register_status (s.instructions idx).src2) := by
  have heq := issue_instruction_first_free s idx b j hb hj hfree hfirst
  have hst : getBank (issue_instruction s idx).1 b j =
      issue_station s (s.instructions idx) (getBank s b j) := by
    rw [heq]
    show getBank (issue_place s idx b j) b j = _
    rw [issue_place_getBank, if_pos ⟨rfl, rfl⟩]
  obtain ⟨h1, h2, h3, h4⟩ := issue_station_arith s (s.instructions idx) (getBank s b j) hop
  rw [hst]
  exact ⟨heq, fun h0 => ⟨h3 h0, h1.trans h0⟩, fun _ => h1, fun h0 => ⟨h4 h0, h2.trans h0⟩,
    fun _ => h2⟩

/-- C13, instance: the second instruction of `ADD R1 R2 R3 ; ADD R4 R1 R5`,
issued while add station 0 (tag 1) is still producing `R1`: `Qj` is 1. -/
theorem arithmetic_operand_wiring_witness :
    ((run raw_prog 1).instructions 1).op = ADD ∧
    (getBank (run raw_prog 1) Bank.add 1).busy = 0 ∧
    (getBank (run raw_prog 1) Bank.add 0).busy ≠ 0 ∧
    (run raw_prog 1).register_status ((run raw_prog 1).instructions 1).src1 = 1 ∧
    (getBank (issue_instruction (run raw_prog 1) 1).1 Bank.add 1).Qj =
      (run raw_prog 1).register_status ((run raw_prog 1).instructions 1).src1 :=
  ⟨by decide!, by decide!, by decide!, by decide!,
    (arithmetic_operand_wiring (run raw_prog 1) 1 Bank.add 1 (Or.inl (by decide!)) (by decide!)
      (by decide) (by decide!) (by decide!)).2.2.1 (by decide!)⟩

/-! ## C14: the issue of a Load -/

/-- C14 (as stated, refuted): in `ADD R2 R0 R1 ; LOAD R1 0(R2)` the load is
issued in cycle 1 while add station 0 (tag 1) is still producing its base
register `R2`; the load buffer gets `Qj = 1`, the execute phase of that cycle
does not count it down, and at the end of the cycle its `time_remaining` is
still 2. -/
theorem load_issue_reads_base_register :
    ((run load_after_add_prog 1).instructions 1).op = LOAD ∧
    ((run load_after_add_prog 1).instructions 1).src1 = 2 ∧
    (run load_after_add_prog 1).register_status 2 = 1 ∧
    ((issue_phase (run load_after_add_prog 1)).load_buffers 0).busy ≠ 0 ∧
    ((issue_phase (run load_after_add_prog 1)).load_buffers 0).Qj = 1 ∧
    ((execute_operations (issue_phase (run load_after_add_prog 1))).load_buffers 0).time_remaining
      = 2 ∧
    ((run load_after_add_prog 2).load_buffers 0).time_remaining = 2 := by
  decide!

/-- C14 (amended): when `issue_instruction` places a Load in load buffer `j`
(the first free one), the buffer has `A` = the immediate converted to `int`
and `time_remaining = 2`, `register_status[dest]` is the tag of the buffer
(for `dest` a register index), and the base register `src1` is wired like a
first operand: `Qj = register_status[src1]` of the state before the issue and,
when that is 0, `Vj = registers[src1]`; `Qk` and `Vk` keep what the buffer
held.  The countdown of the buffer is gated on `Qj`. -/
theorem load_issue_wiring (s : Sim F) (idx : Int) (j : Nat)
    (hop : (s.instructions idx).op = LOAD) (hj : j < capacity Bank.load)
    (hfree : (s.load_buffers j).busy = 0)
    (hfirst : ∀ j', j' < j → (s.load_buffers j').busy ≠ 0) :
    issue_instruction s idx = (issue_place s idx Bank.load j, 1) ∧
    ((issue_instruction s idx).1.load_buffers j).A =
      FloatOps.toInt (s.instructions idx).immediate ∧
    ((issue_instruction s idx).1.load_buffers j).time_remaining = 2 ∧
    (0 ≤ (s.instructions idx).dest → (s.instructions idx).dest < (MAX_REGISTERS : Int) →
      (issue_instruction s idx).1.register_status (s.instructions idx).dest =
        tagOf Bank.load j) ∧
    ((issue_instruction s idx).1.load_buffers j).Qj =
      s.register_status (s.instructions idx).src1 ∧
    (s.register_status (s.instructions idx).src1 = 0 →
      ((issue_instruction s idx).1.load_buffers j).Vj =
        s.registers (s.instructions idx).src1) ∧
    ((issue_instruction s idx).1.load_buffers j).Qk = (s.load_buffers j).Qk ∧
    ((issue_instruction s idx).1.load_buffers j).Vk = (s.load_buffers j).Vk ∧
    (execReady Bank.load ((issue_instruction s idx).1.load_buffers j) ↔
      s.register_status (s.instructions idx).src1 = 0) := by
  have hb : bankOf (s.instructions idx).op = some Bank.load := by rw [hop]; rfl
  have heq := issue_instruction_first_free s idx Bank.load j hb hj hfree hfirst
  have hst : (issue_instruction s idx).1.load_buffers j =
      issue_station s (s.instructions idx) (s.load_buffers j) := by
    rw [heq]
    show getBank (issue_place s idx Bank.load j) Bank.load j = _
    rw [issue_place_getBank, if_pos ⟨rfl, rfl⟩]
    rfl
  obtain ⟨h1, h2, h3, h4, h5⟩ := issue_station_load s (s.instructions idx) (s.load_buffers j) hop
  have htime : (issue_station s (s.instructions idx) (s.load_buffers j)).time_remaining = 2 := by
    rw [issue_station_time, hop]; rfl
  refine ⟨heq, ?_, ?_, ?_, ?_, ?_, ?_, ?_, ?_⟩
  · rw [hst]; exact h1
  · rw [hst]; exact htime
  · intro h0 hd
    rw [heq]
    show (issue_place s idx Bank.load j).register_status (s.instructions idx).dest = _
    simp only [MAX_REGISTERS, Nat.cast_ofNat] at hd
    rw [issue_place_register_status, if_pos (by rw [hop]; decide),
      writeAt_regs_same _ _ _ h0 hd]
  · rw [hst]; exact h2
  · intro h0; rw [hst]; exact h3 h0
  · rw [hst]; exact h4
  · rw [hst]; exact h5
  · rw [hst]
    show (_ ≠ _ ∧ _ = 0 ∧ _ > 0) ↔ _
    rw [issue_station_busy, h2, htime]
    constructor
    · exact fun h => h.2.1
    · exact fun h => ⟨by decide, h, by decide⟩

/-- C14 (amended), instance: the load of `ADD R2 R0 R1 ; LOAD R1 0(R2)`. -/
theorem load_issue_wiring_witness :
    ((run load_after_add_prog 1).instructions 1).op = LOAD ∧
    ((run load_after_add_prog 1).load_buffers 0).busy = 0 ∧
    ((issue_instruction (run load_after_add_prog 1) 1).1.load_buffers 0).Qj =
      (run load_after_add_prog 1).register_status
        ((run load_after_add_prog 1).instructions 1).src1 :=
  ⟨by decide!, by decide!,
    (load_issue_wiring (run load_after_add_prog 1) 1 0 (by decide!) (by decide) (by decide!)
      (fun j' h => absurd h (Nat.not_lt_zero j'))).2.2.2.2.1⟩

/-! ## C15: the execute step -/

/-- C15: `execute_operations` lowers `time_remaining` by exactly 1 for every
station (index below the capacity of its bank) that is busy, has
`time_remaining > 0` and waits on no tag (`Qj = 0`, and `Qk = 0` in the add
and mult banks), and leaves `time_remaining` of every other station as it is;
it changes no other field of any station, no register and no entry of
`register_status`. -/
theorem execute_step_effect (s : Sim F) (b : Bank) (k : Nat) :
    (execReady b (getBank s b k) ↔
      ((getBank s b k).busy ≠ 0 ∧ (getBank s b k).Qj = 0 ∧
        (b = Bank.add ∨ b = Bank.mult → (getBank s b k).Qk = 0) ∧
        (getBank s b k).time_remaining > 0)) ∧
    (k < capacity b → execReady b (getBank s b k) →
      (getBank (execute_operations s) b k).time_remaining =
        (getBank s b k).time_remaining - 1) ∧
    (¬ (k < capacity b ∧ execReady b (getBank s b k)) →
      (getBank (execute_operations s) b k).time_remaining =
        (getBank s b k).time_remaining) ∧
    (getBank (execute_operations s) b k).busy = (getBank s b k).busy ∧
    (getBank (execute_operations s) b k).op = (getBank s b k).op ∧
    (getBank (execute_operations s) b k).Vj = (getBank s b k).Vj ∧
    (getBank (execute_operations s) b k).Vk = (getBank s b k).Vk ∧
    (getBank (execute_operations s) b k).Qj = (getBank s b k).Qj ∧
    (getBank (execute_operations s) b k).Qk = (getBank s b k).Qk ∧
    (getBank (execute_operations s) b k).dest = (getBank s b k).dest ∧
    (getBank (execute_operations s) b k).A = (getBank s b k).A ∧
    (execute_operations s).registers = s.registers ∧
    (execute_operations s).register_status = s.register_status := by
  refine ⟨?_, ?_, ?_, ?_⟩
  · cases b <;> simp [execReady]
  · intro hk hr
    rw [execute_operations_getBank, if_pos hk, tick_time, if_pos hr]
  · intro hn
    rw [execute_operations_getBank]
    by_cases hk : k < capacity b
    · have hr : ¬ execReady b (getBank s b k) := fun h => hn ⟨hk, h⟩
      rw [if_pos hk, tick_time, if_neg hr]
    · rw [if_neg hk]
  · rw [execute_operations_getBank]
    by_cases hk : k < capacity b
    · rw [if_pos hk]
      by_cases hr : execReady b (getBank s b k)
      · simp [tick, hr]
      · simp [tick, hr]
    · rw [if_neg hk]
      simp

/-- C15, instance: the execute phase right after the issue of `ADD R1 R2 R3`
lowers the countdown of add station 0 from 2 to 1. -/
theorem execute_step_effect_witness :
    (0 : Nat) < capacity Bank.add ∧
    execReady Bank.add (getBank (issue_phase (start single_add_prog)) Bank.add 0) ∧
    (getBank (issue_phase (start single_add_prog)) Bank.add 0).time_remaining = 2 ∧
    (getBank (execute_operations (issue_phase (start single_add_prog))) Bank.add 0).time_remaining
      = (getBank (issue_phase (start single_add_prog)) Bank.add 0).time_remaining - 1 :=
  ⟨by decide, by decide!, by decide!,
    (execute_step_effect (issue_phase (start single_add_prog)) Bank.add 0).2.1 (by decide)
      (by decide!)⟩

/-! ## C16: scenario S1, a single Add -/

/-- C16 (as stated, refuted): for the program `ADD R1 R2 R3` the add station is
busy after one call of `run_cycle` and free after the second, and at that
point instruction 0 has `executed = written = completed = 0`, not 2. -/
theorem single_add_timestamps_refuted :
    (run single_add_prog 2).instruction_count = 1 ∧
    ((run single_add_prog 1).add_rs 0).busy ≠ 0 ∧
    ((run single_add_prog 2).add_rs 0).busy = 0 ∧
    ((run single_add_prog 2).instructions 0).executed ≠ 2 ∧
    ((run single_add_prog 2).instructions 0).written ≠ 2 ∧
    ((run single_add_prog 2).instructions 0).completed ≠ 2 ∧
    ((run single_add_prog 2).instructions 0).executed = 0 ∧
    ((run single_add_prog 2).instructions 0).written = 0 ∧
    ((run single_add_prog 2).instructions 0).completed = 0 := by
  decide!

/-- C16 (amended): for the program `ADD R1 R2 R3` from the start state, the add
station is busy with countdown 1 after one call of `run_cycle` and freed by the
second call; its countdown is 0 after the execute phase of that second call,
where `current_cycle` is 1; the completion stores of the second call record the
cycle number 1: an entry of the instruction table has
`executed = written = completed = 1`, and no entry has a timestamp equal to 2;
after the second call instruction 0 has `issued = 0`, `registers[1] = 0` and
`register_status[1] = 0`. -/
theorem single_add_scenario_cycle_one :
    ((run single_add_prog 1).add_rs 0).busy ≠ 0 ∧
    ((run single_add_prog 1).add_rs 0).time_remaining = 1 ∧
    ((execute_operations (issue_phase (run single_add_prog 1))).add_rs 0).busy ≠ 0 ∧
    ((execute_operations (issue_phase (run single_add_prog 1))).add_rs 0).time_remaining = 0 ∧
    (execute_operations (issue_phase (run single_add_prog 1))).current_cycle = 1 ∧
    ((run single_add_prog 2).add_rs 0).busy = 0 ∧
    (∃ k : Fin MAX_INSTRUCTIONS,
      ((run single_add_prog 2).instructions (k.val : Int)).executed = 1 ∧
      ((run single_add_prog 2).instructions (k.val : Int)).written = 1 ∧
      ((run single_add_prog 2).instructions (k.val : Int)).completed = 1) ∧
    (∀ k : Fin MAX_INSTRUCTIONS,
      ((run single_add_prog 2).instructions (k.val : Int)).executed ≠ 2 ∧
      ((run single_add_prog 2).instructions (k.val : Int)).written ≠ 2 ∧
      ((run single_add_prog 2).instructions (k.val : Int)).completed ≠ 2) ∧
    ((run single_add_prog 2).instructions 0).issued = 0 ∧
    (run single_add_prog 2).registers 1 = 0 ∧
    (run single_add_prog 2).register_status 1 = 0 := by
  decide!

/-! ## C17: at most one issue per cycle, no instruction issued twice -/

/-- C17: along the run of any program, one call of `run_cycle` leaves `pc` as
it is or increases it by exactly 1, the latter exactly when
`issue_instruction` succeeds in that call; `pc` stays between 0 and
`instruction_count`; and if `issue_instruction` succeeds for the same program
index in cycle `n` and in cycle `m`, then `n = m`. -/
theorem issue_at_most_once (prog : List (Decoded F)) (n : Nat) :
    (run prog n).pc ≤ (run prog (n + 1)).pc ∧
    (run prog (n + 1)).pc ≤ (run prog n).pc + 1 ∧
    ((run prog (n + 1)).pc = (run prog n).pc + 1 ↔ issuesAt (run prog n)) ∧
    0 ≤ (run prog n).pc ∧ (run prog n).pc ≤ (run prog n).instruction_count ∧
    ∀ m, issuesAt (run prog n) → issuesAt (run prog m) →
      (run prog n).pc = (run prog m).pc → n = m := by
  have hinv := IssuedInv_run prog n
  refine ⟨?_, ?_, ?_, hinv.pc_nonneg, hinv.pc_le, ?_⟩
  · rw [run_succ_pc]; split <;> omega
  · rw [run_succ_pc]; split <;> omega
  · rw [run_succ_pc]
    constructor
    · intro h
      by_contra hn
      rw [if_neg hn] at h
      omega
    · intro h; rw [if_pos h]
  · intro m hn hm hpc
    have key : ∀ a c : Nat, a < c → issuesAt (run prog a) →
        (run prog a).pc ≠ (run prog c).pc := by
      intro a c hac ha heq
      have h1 := run_pc_mono prog (a + 1) c hac
      rw [run_succ_pc, if_pos ha] at h1
      omega
    rcases Nat.lt_trichotomy n m with h | h | h
    · exact absurd hpc (key n m h hn)
    · exact h
    · exact absurd hpc.symm (key m n h hm)

/-! ## C18: no completion in the issue cycle -/

/-- C18: in any state, when `run_cycle` issues `instructions[pc]` (an Add, Sub,
Mul, Div, Load or Store) into station `j`, the first free station of its bank,
that station is still busy at the end of that `run_cycle` and its
`time_remaining` is at least 1 (and at least the latency minus 1). -/
theorem fresh_issue_not_completed (s : Sim F) (b : Bank) (j : Nat)
    (hpc : s.pc < s.instruction_count)
    (hb : bankOf (s.instructions s.pc).op = some b) (hj : j < capacity b)
    (hfree : (getBank s b j).busy = 0)
    (hfirst : ∀ j', j' < j → (getBank s b j').busy ≠ 0) :
    issue_instruction s s.pc = (issue_place s s.pc b j, 1) ∧
    (getBank (run_cycle s) b j).busy ≠ 0 ∧
    1 ≤ (getBank (run_cycle s) b j).time_remaining ∧
    latency (s.instructions s.pc).op - 1 ≤ (getBank (run_cycle s) b j).time_remaining := by
  have heq := issue_instruction_first_free s s.pc b j hb hj hfree hfirst
  have hphase := issue_phase_first_free s b j hpc hb hj hfree hfirst
  have hlat := latency_ge_two (s.instructions s.pc).op b hb
  have hst : getBank (issue_phase s) b j =
      issue_station s (s.instructions s.pc) (getBank s b j) := by
    rw [hphase, getBank_with_pc, issue_place_getBank, if_pos ⟨rfl, rfl⟩]
  have hexec_busy : (getBank (execute_operations (issue_phase s)) b j).busy ≠ 0 := by
    rw [execute_operations_getBank, if_pos hj, tick_busy, hst, issue_station_busy]
    decide
  have hexec_time : latency (s.instructions s.pc).op - 1 ≤
      (getBank (execute_operations (issue_phase s)) b j).time_remaining := by
    rw [execute_operations_getBank, if_pos hj, tick_time, hst, issue_station_time]
    split <;> omega
  rw [run_cycle_getBank]
  refine ⟨heq, ?_, ?_, ?_⟩
  · exact (writeback_keeps_unfinished _ b j hexec_busy (by omega)).1
  · exact (writeback_keeps_unfinished _ b j hexec_busy (by omega)).2
  · have key : ∀ c : Int, 1 ≤ c →
        c ≤ (getBank (execute_operations (issue_phase s)) b j).time_remaining →
        c ≤ (getBank (writeback_results (execute_operations (issue_phase s))) b j).time_remaining := by
      intro c hc1 hc
      apply writeback_results_inv (fun t => c ≤ (getBank t b j).time_remaining) _ hc
      · intro i t _ ht; rw [wb_add_step_time]; exact ht
      · intro i t _ ht; rw [wb_load_step_time]; exact ht
      · intro i t _ ht; rw [wb_store_step_time]; exact ht
    exact key _ (by omega) hexec_time

/-- C18, instance: the first cycle of `ADD R1 R2 R3`. -/
theorem fresh_issue_not_completed_witness :
    (start single_add_prog).pc < (start single_add_prog).instruction_count ∧
    bankOf ((start single_add_prog).instructions (start single_add_prog).pc).op =
      some Bank.add ∧
    (getBank (start single_add_prog) Bank.add 0).busy = 0 ∧
    (getBank (run_cycle (start single_add_prog)) Bank.add 0).busy ≠ 0 ∧
    1 ≤ (getBank (run_cycle (start single_add_prog)) Bank.add 0).time_remaining :=
  ⟨by decide!, by decide!, by decide!,
    (fresh_issue_not_completed (start single_add_prog) Bank.add 0 (by decide!) (by decide!)
      (by decide) (by decide!) (fun j' h => absurd h (Nat.not_lt_zero j'))).2.1,
    (fresh_issue_not_completed (start single_add_prog) Bank.add 0 (by decide!) (by decide!)
      (by decide) (by decide!) (fun j' h => absurd h (Nat.not_lt_zero j'))).2.2.1⟩

/-! ## C19: write-back never uses an unresolved operand -/

/-- C19: in every state reached from the start state by `run_cycle`, and in
the state after the issue and execute phases of the next cycle (the state on
which `writeback_results` is called), every busy station with
`time_remaining = 0` has `Qj = 0` and `Qk = 0`; hence on that state the test
of the write-back loops (busy and `time_remaining = 0`) holds for exactly the
stations that are busy, at countdown 0 and wait on no tag. -/
theorem writeback_operands_resolved (prog : List (Decoded F)) (n : Nat) (b : Bank) (i : Nat) :
    ((getBank (run prog n) b i).busy ≠ 0 → (getBank (run prog n) b i).time_remaining = 0 →
      (getBank (run prog n) b i).Qj = 0 ∧ (getBank (run prog n) b i).Qk = 0) ∧
    ((getBank (execute_operations (issue_phase (run prog n))) b i).busy ≠ 0 →
      (getBank (execute_operations (issue_phase (run prog n))) b i).time_remaining = 0 →
      (getBank (execute_operations (issue_phase (run prog n))) b i).Qj = 0 ∧
      (getBank (execute_operations (issue_phase (run prog n))) b i).Qk = 0) ∧
    (((getBank (execute_operations (issue_phase (run prog n))) b i).busy ≠ 0 ∧
        (getBank (execute_operations (issue_phase (run prog n))) b i).time_remaining = 0) ↔
      ((getBank (execute_operations (issue_phase (run prog n))) b i).busy ≠ 0 ∧
        (getBank (execute_operations (issue_phase (run prog n))) b i).time_remaining = 0 ∧
        (getBank (execute_operations (issue_phase (run prog n))) b i).Qj = 0 ∧
        (getBank (execute_operations (issue_phase (run prog n))) b i).Qk = 0)) := by
  have h0 := ResolvedInv_run prog n
  have h1 := ResolvedInv_execute _ (ResolvedInv_issue_phase _ h0)
  refine ⟨h0.1 b i, h1.1 b i, ?_⟩
  constructor
  · intro h
    exact ⟨h.1, h.2, h1.1 b i h.1 h.2⟩
  · intro h
    exact ⟨h.1, h.2.1⟩

/-- C19, instance: add station 0 when `writeback_results` is called in the
second cycle of `ADD R1 R2 R3`. -/
theorem writeback_operands_resolved_witness :
    (getBank (execute_operations (issue_phase (run single_add_prog 1))) Bank.add 0).busy ≠ 0 ∧
    (getBank (execute_operations (issue_phase (run single_add_prog 1))) Bank.add 0).time_remaining
      = 0 ∧
    (getBank (execute_operations (issue_phase (run single_add_prog 1))) Bank.add 0).Qj = 0 ∧
    (getBank (execute_operations (issue_phase (run single_add_prog 1))) Bank.add 0).Qk = 0 :=
  ⟨by decide!, by decide!,
    (writeback_operands_resolved single_add_prog 1 Bank.add 0).2.1 (by decide!) (by decide!)⟩

/-! ## C20: index safety -/

/-- C20 (code evaluated at the failing input): the program `STORE R1 0(R2)` has
the shape `parse_instruction` produces (`src1`, `src2` in `0..31`, `dest = -1`).
In its second cycle store buffer 0 holds `dest = -1` and its countdown goes
from 1 to 0, so `execute_operations` subscripts `instructions[]` with `-1`,
outside `0..99`; `writeback_results` then does the same for `completed`. -/
theorem store_indexes_instructions_out_of_bounds :
    (run store_prog 1).instruction_count = 1 ∧
    ((run store_prog 1).instructions 0).op = STORE ∧
    ((run store_prog 1).instructions 0).src1 = 1 ∧
    ((run store_prog 1).instructions 0).src2 = 2 ∧
    ((run store_prog 1).instructions 0).dest = -1 ∧
    ((issue_phase (run store_prog 1)).store_buffers 0).busy ≠ 0 ∧
    ((issue_phase (run store_prog 1)).store_buffers 0).time_remaining = 1 ∧
    ((issue_phase (run store_prog 1)).store_buffers 0).dest = -1 ∧
    execute_indices (issue_phase (run store_prog 1)) = [-1] ∧
    ¬ (0 ≤ (-1 : Int) ∧ (-1 : Int) < (MAX_INSTRUCTIONS : Int)) ∧
    ((execute_operations (issue_phase (run store_prog 1))).store_buffers 0).busy ≠ 0 ∧
    ((execute_operations (issue_phase (run store_prog 1))).store_buffers 0).time_remaining = 0 ∧
    ((execute_operations (issue_phase (run store_prog 1))).store_buffers 0).dest = -1 := by
  decide!

end Tomasulo
